import Mathlib

/-! # bpftime LLVM JIT context: compile-once, AOT cache, symbol binding

A shallow embedding of `vm/llvm-jit/src/llvm/llvm_jit_context.cpp`.

* The context (`this->jit`), the file system and an instrumentation trace are an explicit
  state `St`; every member function is a state-passing function returning `Res`, which tells a
  normal return from a thrown C++ exception and from process termination (`ExitOnErr`).
* LLVM/ORC, picosha2 and `generateModule` are not part of the translation unit: their behaviour
  is a parameter (`Backend`).  The operating system's answers (environment variables and which
  file operations fail) are a parameter as well (`Host`).
* The file system is a table from paths to directories and regular files, read through path
  resolution (`Fs.resolve`): a path below a regular file or below a missing directory names
  nothing.
* Objects with a destructor (the spin lock guard, the `scoped_lock`, the `std::ofstream` of the
  cache entry) are followed from constructor to destructor: the destructor runs when the scope
  is left by a return or an exception and does not run when the process exits inside it.  So
  the bytes written to the cache entry reach the file in full only when the stream is
  destroyed.
* Preprocessor facts (`__arm__`, the `LDDW_HELPER_*` macros) are a parameter (`Build`).
-/

namespace Bpftime

/-! ## Data model -/

/-- A `std::filesystem::path`, as the list of its elements: the string it was constructed from
(kept whole), then the elements appended with `/`. -/
abbrev Path := List String

/-- The constructor `std::filesystem::path(s)`: the empty string gives the empty path, so that
`path("") / ".bpftime"` is the relative path `.bpftime`. -/
def path (s : String) : Path := if s = "" then [] else [s]

/-- The `ebpf_vm` fields read by this translation unit.  Pointers are addresses, `0` is
`nullptr`.  `insnsi` is the memory `vm->insnsi` points to, byte by byte. -/
structure ebpf_vm where
  insnsi : List Nat
  num_insts : Nat
  ext_funcs : List Nat
  map_by_fd : Nat
  map_by_idx : Nat
  map_val : Nat
  code_addr : Nat
  var_addr : Nat

/-- Preprocessor-level facts of one build of the translation unit. -/
structure Build where
  /-- The `LDDW_HELPER_MAP_BY_FD` macro -/
  LDDW_HELPER_MAP_BY_FD : String
  /-- The `LDDW_HELPER_MAP_BY_IDX` macro -/
  LDDW_HELPER_MAP_BY_IDX : String
  /-- The `LDDW_HELPER_MAP_VAL` macro -/
  LDDW_HELPER_MAP_VAL : String
  /-- The `LDDW_HELPER_CODE_ADDR` macro -/
  LDDW_HELPER_CODE_ADDR : String
  /-- The `LDDW_HELPER_VAR_ADDR` macro -/
  LDDW_HELPER_VAR_ADDR : String
  /-- Whether `defined(__arm__) || defined(_M_ARM)` holds -/
  arm : Bool
  /-- The address of `__aeabi_unwind_cpp_pr1` (only read when `arm`) -/
  aeabi_unwind_cpp_pr1 : Nat

/-- A `JITEvaluatedSymbol`: an address and the two flags this file sets. -/
structure JITEvaluatedSymbol where
  address : Nat
  callable : Bool
  exported : Bool
deriving DecidableEq, Repr

/-- An `llvm::orc::SymbolMap`, in insertion order. -/
abbrev SymbolMap := List (String × JITEvaluatedSymbol)

/-- The `SymbolMap::try_emplace`: inserts unless the key is already present. -/
def try_emplace (m : SymbolMap) (k : String) (v : JITEvaluatedSymbol) : SymbolMap :=
  if m.any (fun e => e.1 == k) then m else m ++ [(k, v)]

/-- An LLVM IR module, as far as this file touches it. -/
structure Module where
  body : List Nat
  targetTriple : String
  dataLayout : String
deriving DecidableEq, Repr

/-- What has been put into one `llvm::orc::LLJIT` instance: the two symbol maps defined in its
main dylib, the IR modules added and the object files added. -/
structure LLJIT where
  extSymbols : SymbolMap
  lddwSyms : SymbolMap
  irModules : List Module
  objectFiles : List (List Nat)
deriving DecidableEq, Repr

/-- Behaviour of the libraries the file calls into (LLVM, ORC, picosha2) and of
`generateModule`, which lives in another translation unit. -/
structure Backend where
  /-- The digest bytes the picosha2 hasher computes for the hashed bytes -/
  sha256 : List Nat → List Nat
  /-- Whether `LLJITBuilder().create()` succeeds -/
  lljit_create_ok : Bool
  /-- Whether `mainDylib.define(absoluteSymbols(m))` succeeds on the given instance -/
  define_ok : LLJIT → SymbolMap → Bool
  /-- The translator `generateModule(extFuncNames, lddwHelpers)` -/
  generateModule : ebpf_vm → List String → List String → Except String Module
  /-- The effect of `optimizeModule` on a module -/
  optimizeModule : Module → Module
  /-- Whether `jit->addIRModule` succeeds -/
  addIRModule_ok : LLJIT → Module → Bool
  /-- Whether `jit->addObjectFile` succeeds -/
  addObjectFile_ok : LLJIT → List Nat → Bool
  /-- The result of `jit->lookup(name)`: the address, or none when the lookup fails -/
  lookup : LLJIT → String → Option Nat
  /-- The `llvm::sys::getDefaultTargetTriple()` -/
  getDefaultTargetTriple : String
  /-- Whether `TargetRegistry::lookupTarget` finds a target for the triple -/
  lookupTarget_ok : String → Bool
  /-- Whether `createTargetMachine` returns a non-null machine -/
  createTargetMachine_ok : String → Bool
  /-- The data layout string of the target machine -/
  createDataLayout : String → String
  /-- The return value of `addPassesToEmitFile` (true means failure, as in LLVM) -/
  addPassesToEmitFile : String → Bool
  /-- The object bytes `pass.run(module)` leaves in `objStream` -/
  emit : Module → List Nat

/-- A regular file: its bytes and how reading it behaves. -/
structure File where
  bytes : List Nat
  /-- Whether opening it for reading succeeds -/
  openable : Bool
  /-- When set, reading fails after that many bytes -/
  read_fault : Option Nat
deriving DecidableEq, Repr

/-- What a path can name: a directory or a regular file. -/
inductive Node where
  | dir
  | file (f : File)
deriving DecidableEq, Repr

/-- The file system: the objects by path.  It is read through `Fs.resolve`, so an entry below
a path that is not a directory is out of reach. -/
structure Fs where
  entries : List (Path × Node)
deriving DecidableEq, Repr

/-- Answers of the operating system: the environment and which operations fail. -/
structure Host where
  /-- The value of `getenv("HOME")` -/
  HOME : Option String
  /-- The value of `getenv("BPFTIME_ENABLE_AOT")` -/
  BPFTIME_ENABLE_AOT : Option String
  /-- Whether `create_directories` succeeds for a path -/
  create_directories_ok : Path → Bool
  /-- Whether the status of a path cannot be determined: `stat` fails on it with an errno
  other than `ENOENT` and `ENOTDIR`, which also makes `std::filesystem::exists` throw -/
  stat_fails : Path → Bool
  /-- Whether the operating system lets a path be opened for writing (created or truncated),
  its directory being there -/
  ofstream_ok : Path → Bool
  /-- How many of the `size` bytes passed to `ofs.write` on a path reach the file: `size` when
  the write succeeds, fewer when it stops early -/
  write_len : Path → Nat → Nat
  /-- How many of the `size` bytes passed to `ofs.write` on a path leave the buffer of the
  stream before it is flushed -/
  write_through : Path → Nat → Nat
  /-- Whether `boost::interprocess::file_lock` can open an existing file at the path -/
  file_lock_ok : Path → Bool
  /-- Whether `file_lock::lock()`, which the constructor of `scoped_lock` calls, succeeds on
  the lock file at the path -/
  flock_ok : Path → Bool

/-- Instrumentation: one event per observable action of the translation unit. -/
inductive Event where
  | spin_lock
  | spin_unlock
  | getenv (name : String)
  | hash (bytes : List Nat)
  | fs_exists (p : Path)
  | create_directories (p : Path)
  | stat (p : Path)
  | ofstream_open (p : Path)
  | ofstream_write (p : Path) (bytes : List Nat)
  | ifstream_open (p : Path)
  | ifstream_read (p : Path) (size : Nat)
  | file_lock_open (p : Path)
  | flock_lock (p : Path)
  | flock_lock_failed (p : Path)
  | flock_unlock (p : Path)
  | lljit_create
  | define (m : SymbolMap)
  | generateModule (extFuncNames : List String) (lddwHelpers : List String)
  | optimizeModule
  | addIRModule
  | addObjectFile (buf : List Nat)
  | lookup (name : String)
  | lookupTarget
  | createTargetMachine
  | addPassesToEmitFile
  | emit
deriving DecidableEq, Repr

/-- The C++ exceptions thrown in this file or by the library calls it makes. -/
inductive Exn where
  | runtime_error (what : String)
  | interprocess_exception
  | filesystem_error
  | bad_alloc
deriving DecidableEq, Repr

/-- The state: the context's engine slot `this->jit`, the file system, and the trace. -/
structure St where
  jit : Option LLJIT
  fs : Fs
  trace : List Event
deriving DecidableEq, Repr

/-- How a call ends: it returns, it throws, or the process terminates (`exit`). -/
inductive Res (α : Type) where
  | ok (a : α) (s : St)
  | throw (e : Exn) (s : St)
  | exit (code : Nat) (s : St)
deriving Repr

/-- The final state of a call, however it ended. -/
def Res.state {α : Type} : Res α → St
  | .ok _ s => s
  | .throw _ s => s
  | .exit _ s => s

/-- State-passing computations. -/
def M (α : Type) : Type := St → Res α

/-- Sequencing: a throw or an exit skips the rest. -/
def M.bind {α β : Type} (x : M α) (f : α → M β) : M β := fun s =>
  match x s with
  | .ok a s1 => f a s1
  | .throw e s1 => .throw e s1
  | .exit c s1 => .exit c s1

instance : Monad M where
  pure a := fun s => .ok a s
  bind := M.bind

/-- Append an event to the trace. -/
def log (e : Event) : M Unit := fun s => .ok () { s with trace := s.trace ++ [e] }

/-- The C++ `throw`. -/
def throw_ {α : Type} (e : Exn) : M α := fun s => .throw e s

/-- Process termination through `exit(code)`. -/
def exit_ {α : Type} (code : Nat) : M α := fun s => .exit code s

/-- The `ExitOnErr(...)` of LLVM applied to an `Error`: on failure the process exits with
code 1 (the default exit code of `llvm::ExitOnError`). -/
def ExitOnErr (succeeded : Bool) : M Unit :=
  if succeeded then pure () else exit_ 1

/-- The `ExitOnErr(...)` of LLVM applied to an `Expected<T>`. -/
def ExitOnErrE {α : Type} (r : Except String α) : M α :=
  match r with
  | .ok a => pure a
  | .error _ => exit_ 1

/-- The destructor of a guard object, applied to the way its scope was left: it runs (logging
`release`) when the scope is left by a return or by an exception, and does not run when the
process exits inside the scope. -/
def Res.released {α : Type} (release : Event) : Res α → Res α
  | .ok a s => .ok a { s with trace := s.trace ++ [release] }
  | .throw e s => .throw e { s with trace := s.trace ++ [release] }
  | .exit c s => .exit c s

/-- A scope guarded by an RAII object: `acquire` runs in the constructor, `release` in the
destructor. -/
def raii {α : Type} (acquire release : Event) (body : M α) : M α := fun s =>
  (body { s with trace := s.trace ++ [acquire] }).released release

/-! ## File system primitives -/

/-- The result of resolving a path: the object found, or the `errno` of the failure. -/
inductive Lookup where
  | found (n : Node)
  | ENOENT
  | ENOTDIR
deriving DecidableEq, Repr

/-- The table entry at exactly this path. -/
def Fs.node (fs : Fs) (p : Path) : Option Node := List.lookup p fs.entries

/-- One step of path resolution: from the result for a path `q` to the result for `q / c`. -/
def Fs.step (fs : Fs) (acc : Path × Lookup) (c : String) : Path × Lookup :=
  (acc.1 ++ [c],
    match acc.2 with
    | .found .dir =>
      (match fs.node (acc.1 ++ [c]) with
        | some n => .found n
        | none => .ENOENT)
    | .found (.file _) => .ENOTDIR
    | .ENOENT => .ENOENT
    | .ENOTDIR => .ENOTDIR)

/-- Path resolution, element by element; the empty path is the directory resolution starts
from. -/
def Fs.resolve (fs : Fs) (p : Path) : Lookup := (p.foldl fs.step ([], .found .dir)).2

/-- The regular file a path names, if it names one. -/
def Fs.file (fs : Fs) (p : Path) : Option File :=
  match fs.resolve p with
  | .found (.file f) => some f
  | _ => none

/-- Whether a path names a directory. -/
def Fs.is_directory (fs : Fs) (p : Path) : Bool :=
  match fs.resolve p with
  | .found .dir => true
  | _ => false

/-- The `std::filesystem::exists`: `ENOENT` and `ENOTDIR` both mean that nothing is there, and
the empty path names nothing. -/
def Fs.exists_ (fs : Fs) (p : Path) : Bool :=
  !p.isEmpty &&
    match fs.resolve p with
    | .found _ => true
    | _ => false

/-- Set the table entry at `p`. -/
def Fs.put (fs : Fs) (p : Path) (n : Node) : Fs :=
  { entries := (p, n) :: fs.entries.filter (fun e => e.1 != p) }

/-- The `mkdir` of a path that names nothing: the new directory is empty. -/
def Fs.mkdir (fs : Fs) (q : Path) : Fs :=
  { entries := (q, .dir) :: fs.entries.filter (fun e => !q.isPrefixOf e.1) }

/-- One step of `create_directories`: make `q / c` unless it is there. -/
def Fs.mkdirs_step (acc : Path × Fs) (c : String) : Path × Fs :=
  (acc.1 ++ [c],
    match acc.2.resolve (acc.1 ++ [c]) with
    | .ENOENT => acc.2.mkdir (acc.1 ++ [c])
    | _ => acc.2)

/-- The directories a successful `create_directories(p)` makes: `p` and its missing
ancestors. -/
def Fs.mkdirs (fs : Fs) (p : Path) : Fs := (p.foldl Fs.mkdirs_step ([], fs)).2

/-- The three outcomes of `stat` the code tells apart. -/
inductive StatResult where
  | found
  | ENOENT
  | EOTHER
deriving DecidableEq, Repr

/-- The `stat` system call, as far as the code inspects its result: `ENOTDIR` (an element of
the path is a regular file) is an error other than `ENOENT`. -/
def Fs.stat (h : Host) (fs : Fs) (p : Path) : StatResult :=
  if h.stat_fails p then .EOTHER
  else
    match fs.resolve p with
    | .found _ => .found
    | .ENOENT => .ENOENT
    | .ENOTDIR => .EOTHER

/-- Whether the file system lets `p` be opened for writing: its directory is there and `p` is
not a directory itself. -/
def Fs.creatable (fs : Fs) (p : Path) : Bool :=
  !p.isEmpty && fs.is_directory p.dropLast && !fs.is_directory p

/-- The regular file at `p` right after it was opened for writing: empty, with the attributes
of the file that was there, if any. -/
def Fs.truncated (fs : Fs) (p : Path) : File :=
  match fs.file p with
  | some f => { f with bytes := [] }
  | none => { bytes := [], openable := true, read_fault := none }

/-- Read the engine slot `this->jit`. -/
def get_jit : M (Option LLJIT) := fun s => .ok s.jit s

/-- Assign the engine slot: `this->jit = std::move(jit)`. -/
def set_jit (j : LLJIT) : M Unit := fun s => .ok () { s with jit := some j }

/-- Read the file system. -/
def get_fs : M Fs := fun s => .ok s.fs s

/-- Replace the file system. -/
def set_fs (fs : Fs) : M Unit := fun s => .ok () { s with fs := fs }

/-- The `getenv` call. -/
def getenv (name : String) (value : Option String) : M (Option String) := do
  log (.getenv name)
  pure value

/-- Constructing a `std::ofstream` on `p` (the default mode creates or truncates).  Returns
the file the stream is open on; when the open fails the stream is in a failed state, which
the code never checks. -/
def ofstream (h : Host) (p : Path) : M (Option File) := do
  log (.ofstream_open p)
  let fs ← get_fs
  if h.ofstream_ok p && fs.creatable p then
    set_fs (fs.put p (.file (fs.truncated p)))
    pure (some (fs.truncated p))
  else
    pure none

/-- The bytes of a write of `size` bytes that are in the file before the stream is flushed. -/
def Host.unflushed_len (h : Host) (p : Path) (size : Nat) : Nat :=
  min (h.write_through p size) (h.write_len p size)

/-- The `ofs.write(data, size)` on a stream made by `ofstream`.  Nothing is written through a
failed stream; on an open stream part of the bytes may stay in the buffer of the stream until
it is flushed.  The code does not check the state of the stream. -/
def ofstream_write (h : Host) (p : Path) (ofs : Option File) (bytes : List Nat) : M Unit := do
  log (.ofstream_write p bytes)
  match ofs with
  | some f =>
    set_fs ((← get_fs).put p
      (.file { f with bytes := bytes.take (h.unflushed_len p bytes.length) }))
  | none => pure ()

/-- The destructor of the `std::ofstream` that `bytes` were written to: it flushes the buffer
and closes the file.  A write that stops early leaves the bytes written so far. -/
def ofstream_close (h : Host) (p : Path) (ofs : Option File) (bytes : List Nat) (s : St) : St :=
  match ofs with
  | some f =>
    { s with fs := s.fs.put p (.file { f with bytes := bytes.take (h.write_len p bytes.length) }) }
  | none => s

/-- The rest of the block in which the `std::ofstream` lives, after `ofs.write`: the destructor
of the stream runs when the block is left by a return or by an exception, and does not run
when the process exits inside the block. -/
def until_close {α : Type} (h : Host) (p : Path) (ofs : Option File) (bytes : List Nat)
    (body : M α) : M α := fun s =>
  match body s with
  | .ok a s1 => .ok a (ofstream_close h p ofs bytes s1)
  | .throw e s1 => .throw e (ofstream_close h p ofs bytes s1)
  | .exit c s1 => .exit c s1

/-- The `std::filesystem::exists(p)`: it throws `filesystem_error` when the status of `p`
cannot be determined. -/
def fs_exists (h : Host) (p : Path) : M Bool := do
  log (.fs_exists p)
  if h.stat_fails p then throw_ .filesystem_error
  else pure ((← get_fs).exists_ p)

/-! ## The translation unit -/

/-- Modelled from the spec: `ext_func_sym` is declared in `compiler_utils.hpp`, which is not
among the sources; the spec gives the derivation rule index to name as `ext_func_<i>`. -/
def ext_func_sym (i : Nat) : String := "ext_func_" ++ toString i

/-- The loop of `create_and_initialize_lljit_instance` over `vm->ext_funcs`
(lines 350-361): the symbol map and the name list it builds. -/
def bind_ext_funcs (vm : ebpf_vm) : SymbolMap × List String :=
  (List.range vm.ext_funcs.length).foldl
    (fun acc i =>
      if vm.ext_funcs.getD i 0 != 0 then
        (try_emplace acc.1 (ext_func_sym i)
            { address := vm.ext_funcs.getD i 0, callable := true, exported := true },
          acc.2 ++ [ext_func_sym i])
      else acc)
    ([], [])

/-- The `#if defined(__arm__) || defined(_M_ARM)` block (lines 362-367):
`JITEvaluatedSymbol::fromPointer` gives the flag `Exported` only. -/
def define_aeabi (b : Build) (extSymbols : SymbolMap) : SymbolMap :=
  if b.arm then
    try_emplace extSymbols "__aeabi_unwind_cpp_pr1"
      { address := b.aeabi_unwind_cpp_pr1, callable := false, exported := true }
  else extSymbols

/-- The lambda `tryDefineLddwHelper` of `create_and_initialize_lljit_instance`. -/
def tryDefineLddwHelper (name : String) (func : Nat) (acc : SymbolMap × List String) :
    SymbolMap × List String :=
  if func != 0 then
    (try_emplace acc.1 name { address := func, callable := true, exported := true },
      acc.2 ++ [name])
  else acc

/-- The five calls of `tryDefineLddwHelper` (lines 384-388). -/
def bind_lddw_helpers (b : Build) (vm : ebpf_vm) : SymbolMap × List String :=
  tryDefineLddwHelper b.LDDW_HELPER_VAR_ADDR vm.var_addr
    (tryDefineLddwHelper b.LDDW_HELPER_CODE_ADDR vm.code_addr
      (tryDefineLddwHelper b.LDDW_HELPER_MAP_VAL vm.map_val
        (tryDefineLddwHelper b.LDDW_HELPER_MAP_BY_IDX vm.map_by_idx
          (tryDefineLddwHelper b.LDDW_HELPER_MAP_BY_FD vm.map_by_fd ([], [])))))

/-- The `llvm_bpf_jit_context::create_and_initialize_lljit_instance`. -/
def create_and_initialize_lljit_instance (b : Build) (be : Backend) (vm : ebpf_vm) :
    M (LLJIT × List String × List String) := do
  log .lljit_create
  ExitOnErr be.lljit_create_ok
  let jit : LLJIT := { extSymbols := [], lddwSyms := [], irModules := [], objectFiles := [] }
  let ext := bind_ext_funcs vm
  let extFuncNames := ext.2
  let extSymbols := define_aeabi b ext.1
  log (.define extSymbols)
  ExitOnErr (be.define_ok jit extSymbols)
  let jit := { jit with extSymbols := extSymbols }
  let lddw := bind_lddw_helpers b vm
  let lddwSyms := lddw.1
  let definedLddwHelpers := lddw.2
  log (.define lddwSyms)
  ExitOnErr (be.define_ok jit lddwSyms)
  let jit := { jit with lddwSyms := lddwSyms }
  pure (jit, extFuncNames, definedLddwHelpers)

/-- The `llvm_bpf_jit_context::get_entry_address`. -/
def get_entry_address (be : Backend) : M Nat := do
  match (← get_jit) with
  | none => throw_ (.runtime_error "Not compiled yet")
  | some jit =>
    log (.lookup "bpf_main")
    match be.lookup jit "bpf_main" with
    | none => throw_ (.runtime_error "Unable to link symbol `bpf_main`")
    | some addr => pure addr

/-- The `llvm_bpf_jit_context::do_jit_compile`. -/
def do_jit_compile (b : Build) (be : Backend) (vm : ebpf_vm) : M Unit := do
  let (jit, extFuncNames, definedLddwHelpers) ← create_and_initialize_lljit_instance b be vm
  log (.generateModule extFuncNames definedLddwHelpers)
  let bpfModule ← ExitOnErrE (be.generateModule vm extFuncNames definedLddwHelpers)
  log .optimizeModule
  let bpfModule := be.optimizeModule bpfModule
  log .addIRModule
  ExitOnErr (be.addIRModule_ok jit bpfModule)
  set_jit { jit with irModules := jit.irModules ++ [bpfModule] }

/-- The bytes `hash_ebpf_program` is called on: `vm->num_insts * 8` bytes at `vm->insnsi`. -/
def raw_insns (vm : ebpf_vm) : List Nat := vm.insnsi.take (vm.num_insts * 8)

/-- The `picosha2::get_hash_hex_string`: two lowercase hexadecimal digits per digest byte. -/
def get_hash_hex_string (digest : List Nat) : String :=
  String.mk (digest.flatMap (fun byte => [Nat.digitChar (byte / 16 % 16), Nat.digitChar (byte % 16)]))

/-- The `picosha2::k_digest_size`. -/
def k_digest_size : Nat := 32

/-- The digest the finished hasher holds: `k_digest_size` bytes. -/
def hash256 (be : Backend) (bytes : List Nat) : List Nat :=
  (List.range k_digest_size).map (fun i => (be.sha256 bytes).getD i 0 % 256)

/-- The `hash_ebpf_program`. -/
def hash_ebpf_program (be : Backend) (bytes : List Nat) : M String := do
  log (.hash bytes)
  pure (get_hash_hex_string (hash256 be bytes))

/-- The cache root `path(home_dir) / ".bpftime" / "aot-cache"`. -/
def aot_cache_dir (h : Host) : Path :=
  path (match h.HOME with
    | some home_dir => home_dir
    | none => ".") ++ [".bpftime", "aot-cache"]

/-- The `if (!std::filesystem::exists(dir))` statement of
`ensure_aot_cache_dir_and_cache_file` (lines 113-122).  The `create_directories` call fails
when the operating system refuses it or when an element of the path is a regular file; a
failed call is taken to have created nothing. -/
def ensure_dir (h : Host) (dir : Path) : M Unit := do
  if !(← fs_exists h dir) then
    log (.create_directories dir)
    let fs ← get_fs
    if h.create_directories_ok dir && fs.resolve dir == .ENOENT then set_fs (fs.mkdirs dir)
    else throw_ (.runtime_error "Unable to create aot cache")
  else pure ()

/-- The `if (stat(cache_lock.c_str(), &st) == -1)` statement of
`ensure_aot_cache_dir_and_cache_file` (lines 124-136). -/
def ensure_lock (h : Host) (cache_lock : Path) : M Unit := do
  log (.stat cache_lock)
  match (← get_fs).stat h cache_lock with
  | .found => pure ()
  | .EOTHER => throw_ (.runtime_error "Failed to check")
  | .ENOENT => do
    let _ ← ofstream h cache_lock
    pure ()

/-- The `ensure_aot_cache_dir_and_cache_file`. -/
def ensure_aot_cache_dir_and_cache_file (h : Host) : M (Path × Path) := do
  let _ ← getenv "HOME" h.HOME
  let dir := aot_cache_dir h
  ensure_dir h dir
  let cache_lock := dir ++ ["lock"]
  ensure_lock h cache_lock
  pure (dir, cache_lock)

/-- The `load_aot_cache`: no value when the stream does not open or the read stops before
`size` bytes.  For a regular file `size` is the number of bytes it holds, and a buffer of that
size is taken to be allocated.  A directory can be opened for reading; `tellg()` then reports
the largest stream offset and the constructor of `buffer` throws `std::bad_alloc`. -/
def load_aot_cache (path : Path) : M (Option (List Nat)) := do
  log (.ifstream_open path)
  match (← get_fs).resolve path with
  | .found (.file f) =>
    if !f.openable then pure none
    else
      let size := f.bytes.length
      log (.ifstream_read path size)
      match f.read_fault with
      | none => pure (some f.bytes)
      | some k => if k < size then pure none else pure (some f.bytes)
  | .found .dir => throw_ .bad_alloc
  | .ENOENT => pure none
  | .ENOTDIR => pure none

/-- The `llvm_bpf_jit_context::do_aot_compile(extFuncNames, lddwHelpers)`. -/
def do_aot_compile_with (be : Backend) (vm : ebpf_vm) (extFuncNames lddwHelpers : List String) :
    M (List Nat) := do
  log (.generateModule extFuncNames lddwHelpers)
  match be.generateModule vm extFuncNames lddwHelpers with
  | .ok bpfModule =>
    let defaultTargetTriple := be.getDefaultTargetTriple
    log .optimizeModule
    let bpfModule := be.optimizeModule bpfModule
    let bpfModule := { bpfModule with targetTriple := defaultTargetTriple }
    log .lookupTarget
    if !be.lookupTarget_ok defaultTargetTriple then
      throw_ (.runtime_error "Unable to get local target")
    else
      log .createTargetMachine
      if !be.createTargetMachine_ok defaultTargetTriple then
        throw_ (.runtime_error "Unable to create target machine")
      else
        let bpfModule :=
          { bpfModule with dataLayout := be.createDataLayout defaultTargetTriple }
        log .addPassesToEmitFile
        if be.addPassesToEmitFile defaultTargetTriple then
          throw_ (.runtime_error "Unable to emit module for target machine")
        else
          log .emit
          pure (be.emit bpfModule)
  | .error _ => throw_ (.runtime_error "Unable to generate llvm module")

/-- The loop of `do_aot_compile()` over `vm->ext_funcs` (lines 295-299). -/
def aot_ext_names (vm : ebpf_vm) : List String :=
  (List.range vm.ext_funcs.length).foldl
    (fun extNames i =>
      if vm.ext_funcs.getD i 0 != 0 then extNames ++ [ext_func_sym i] else extNames)
    []

/-- The lambda `tryDefineLddwHelper` of `do_aot_compile()`. -/
def aot_tryDefineLddwHelper (name : String) (func : Nat) (lddwNames : List String) :
    List String :=
  if func != 0 then lddwNames ++ [name] else lddwNames

/-- The five calls of `tryDefineLddwHelper` in `do_aot_compile()` (lines 306-310). -/
def aot_lddw_names (b : Build) (vm : ebpf_vm) : List String :=
  aot_tryDefineLddwHelper b.LDDW_HELPER_VAR_ADDR vm.var_addr
    (aot_tryDefineLddwHelper b.LDDW_HELPER_CODE_ADDR vm.code_addr
      (aot_tryDefineLddwHelper b.LDDW_HELPER_MAP_VAL vm.map_val
        (aot_tryDefineLddwHelper b.LDDW_HELPER_MAP_BY_IDX vm.map_by_idx
          (aot_tryDefineLddwHelper b.LDDW_HELPER_MAP_BY_FD vm.map_by_fd []))))

/-- The `llvm_bpf_jit_context::do_aot_compile()`. -/
def do_aot_compile (b : Build) (be : Backend) (vm : ebpf_vm) : M (List Nat) :=
  do_aot_compile_with be vm (aot_ext_names vm) (aot_lddw_names b vm)

/-- The `llvm_bpf_jit_context::load_aot_object`. -/
def load_aot_object (b : Build) (be : Backend) (vm : ebpf_vm) (buf : List Nat) : M Unit := do
  if (← get_jit).isSome then
    throw_ (.runtime_error "Unable to load aot object: already compiled")
  else
    let (jit, _, _) ← create_and_initialize_lljit_instance b be vm
    log (.addObjectFile buf)
    if !be.addObjectFile_ok jit buf then
      throw_ (.runtime_error "Failed to load AOT object")
    else
      set_jit { jit with objectFiles := jit.objectFiles ++ [buf] }
      let _ ← get_entry_address be
      pure ()

/-- Constructing the `boost::interprocess::file_lock` on the lock file: it opens an existing
file and throws `interprocess_exception` when that fails. -/
def file_lock_open (h : Host) (cache_lock : Path) : M Unit := do
  log (.file_lock_open cache_lock)
  if ((← get_fs).file cache_lock).isSome && h.file_lock_ok cache_lock then
    pure ()
  else
    throw_ .interprocess_exception

/-- The first part of the `if (getenv("BPFTIME_ENABLE_AOT"))` block of `compile`, up to the
construction of the `file_lock` (lines 179-187).  Returns `cache_dir`, `cache_lock` and
`ebpf_prog_hash`. -/
def aot_prologue (be : Backend) (h : Host) (vm : ebpf_vm) : M (Path × Path × String) := do
  let ebpf_prog_hash ← hash_ebpf_program be (raw_insns vm)
  let (cache_dir, cache_lock) ← ensure_aot_cache_dir_and_cache_file h
  file_lock_open h cache_lock
  pure (cache_dir, cache_lock, ebpf_prog_hash)

/-- The statements of `compile` executed while the `scoped_lock` is alive (lines 192-213). -/
def aot_locked (b : Build) (be : Backend) (h : Host) (vm : ebpf_vm) (cache_dir : Path)
    (ebpf_prog_hash : String) : M Unit := do
  let cache_file := cache_dir ++ [ebpf_prog_hash]
  if (← fs_exists h cache_file) then
    match (← load_aot_cache cache_file) with
    | some buf => load_aot_object b be vm buf
    | none => do_jit_compile b be vm
  else
    let cache ← do_aot_compile b be vm
    let ofs ← ofstream h cache_file
    ofstream_write h cache_file ofs cache
    until_close h cache_file ofs cache (do_jit_compile b be vm)

/-- The scope of the `scoped_lock` on the file lock (lines 188-214): the constructor calls
`lock()`, which throws `interprocess_exception` when the lock cannot be taken; the destructor
unlocks. -/
def scoped_lock {α : Type} (h : Host) (cache_lock : Path) (body : M α) : M α :=
  if h.flock_ok cache_lock then raii (.flock_lock cache_lock) (.flock_unlock cache_lock) body
  else M.bind (log (.flock_lock_failed cache_lock)) (fun _ => throw_ .interprocess_exception)

/-- The body of the `if (getenv("BPFTIME_ENABLE_AOT"))` block of `compile` (lines 178-214):
the `scoped_lock` lives from its declaration to the end of the block. -/
def compile_aot (b : Build) (be : Backend) (h : Host) (vm : ebpf_vm) : M Unit :=
  M.bind (aot_prologue be h vm) (fun r =>
    scoped_lock h r.2.1 (aot_locked b be h vm r.1 r.2.2))

/-- The `if (!this->jit.has_value()) ... else ...` statement of `compile` (lines 176-221). -/
def compile_once (b : Build) (be : Backend) (h : Host) (vm : ebpf_vm) : M Unit := do
  if !(← get_jit).isSome then
    if (← getenv "BPFTIME_ENABLE_AOT" h.BPFTIME_ENABLE_AOT).isSome then
      compile_aot b be h vm
    else
      do_jit_compile b be vm
  else
    pure ()

/-- The `llvm_bpf_jit_context::compile`: the spin lock guard spans the whole body. -/
def compile (b : Build) (be : Backend) (h : Host) (vm : ebpf_vm) : M Nat :=
  raii .spin_lock .spin_unlock
    (M.bind (compile_once b be h vm) (fun _ => get_entry_address be))

/-- How a call ended, without the state. -/
inductive Outcome (α : Type) where
  | returned (a : α)
  | thrown (e : Exn)
  | exited (code : Nat)
deriving DecidableEq, Repr

/-- The outcome of a call. -/
def Res.outcome {α : Type} : Res α → Outcome α
  | .ok a _ => .returned a
  | .throw e _ => .thrown e
  | .exit c _ => .exited c

/-- The instance `create_and_initialize_lljit_instance` returns. -/
def initialized_jit (b : Build) (vm : ebpf_vm) : LLJIT :=
  { extSymbols := define_aeabi b (bind_ext_funcs vm).1
    lddwSyms := (bind_lddw_helpers b vm).1
    irModules := []
    objectFiles := [] }

/-- The events of a complete run of `create_and_initialize_lljit_instance`. -/
def create_events (b : Build) (vm : ebpf_vm) : List Event :=
  [.lljit_create, .define (initialized_jit b vm).extSymbols,
    .define (initialized_jit b vm).lddwSyms]

/-- The events of a complete run of `do_jit_compile`. -/
def jit_compile_events (b : Build) (vm : ebpf_vm) : List Event :=
  create_events b vm ++
    [.generateModule (bind_ext_funcs vm).2 (bind_lddw_helpers b vm).2, .optimizeModule,
      .addIRModule]

/-- The events of a complete run of `do_aot_compile()`. -/
def aot_compile_events (b : Build) (vm : ebpf_vm) : List Event :=
  [.generateModule (aot_ext_names vm) (aot_lddw_names b vm), .optimizeModule, .lookupTarget,
    .createTargetMachine, .addPassesToEmitFile, .emit]

/-- The events of a complete run of `load_aot_object`. -/
def load_object_events (b : Build) (vm : ebpf_vm) (buf : List Nat) : List Event :=
  create_events b vm ++ [.addObjectFile buf, .lookup "bpf_main"]

/-- The engine `load_aot_object` installs for an object buffer. -/
def object_jit (b : Build) (vm : ebpf_vm) (buf : List Nat) : LLJIT :=
  { initialized_jit b vm with objectFiles := [buf] }

/-- The engine `do_jit_compile` installs for a translated module. -/
def module_jit (b : Build) (be : Backend) (vm : ebpf_vm) (m : Module) : LLJIT :=
  { initialized_jit b vm with irModules := [be.optimizeModule m] }

/-- The events a call appended to the trace of the state it started from. -/
def new_events {α : Type} (s : St) (r : Res α) : List Event :=
  r.state.trace.drop s.trace.length

/-! ## Specification-side definitions -/

/-- The lock file of the cache root. -/
def aot_cache_lock (h : Host) : Path := aot_cache_dir h ++ ["lock"]

/-- The cache entry of a program: `<root>/<digest>`. -/
def aot_cache_file (be : Backend) (h : Host) (vm : ebpf_vm) : Path :=
  aot_cache_dir h ++ [get_hash_hex_string (hash256 be (raw_insns vm))]

/-- Whether an event is an access to the file system object at path `p`. -/
def Event.touches (p : Path) : Event → Bool
  | .fs_exists q => p == q
  | .create_directories q => p == q
  | .stat q => p == q
  | .ofstream_open q => p == q
  | .ofstream_write q _ => p == q
  | .ifstream_open q => p == q
  | .ifstream_read q _ => p == q
  | _ => false

/-- Whether an event takes or releases a cross-process file lock. -/
def Event.is_flock : Event → Bool
  | .flock_lock _ => true
  | .flock_unlock _ => true
  | _ => false

/-- Whether an event is a call into the code generation backend. -/
def Event.is_backend : Event → Bool
  | .lljit_create => true
  | .define _ => true
  | .generateModule _ _ => true
  | .optimizeModule => true
  | .addIRModule => true
  | .addObjectFile _ => true
  | .lookup _ => true
  | .lookupTarget => true
  | .createTargetMachine => true
  | .addPassesToEmitFile => true
  | .emit => true
  | _ => false

/-- The file system after `std::ofstream ofs(p); ofs.write(bytes)` and the destructor of the
stream: unchanged when the stream does not open, else `p` holds the bytes that reached the
file. -/
def Fs.after_write (h : Host) (fs : Fs) (p : Path) (bytes : List Nat) : Fs :=
  if h.ofstream_ok p && fs.creatable p then
    fs.put p (.file { fs.truncated p with bytes := bytes.take (h.write_len p bytes.length) })
  else fs

/-- The file system after `std::ofstream ofs(p); ofs.write(bytes)` while the stream is still
alive: unchanged when the stream does not open, else `p` holds the bytes that have left the
buffer of the stream. -/
def Fs.after_unflushed_write (h : Host) (fs : Fs) (p : Path) (bytes : List Nat) : Fs :=
  if h.ofstream_ok p && fs.creatable p then
    fs.put p
      (.file { fs.truncated p with bytes := bytes.take (h.unflushed_len p bytes.length) })
  else fs

/-- The events of `std::ofstream ofs(p); ofs.write(bytes)`. -/
def write_events (p : Path) (bytes : List Nat) : List Event :=
  [.ofstream_open p, .ofstream_write p bytes]

/-- The rest of `compile` after the `if (!this->jit.has_value())` statement ended as `r`:
`get_entry_address`, then the destructor of the spin lock guard. -/
def finish (be : Backend) (r : Res Unit) : Res Nat :=
  (match r with
    | .ok _ s => get_entry_address be s
    | .throw e s => .throw e s
    | .exit c s => .exit c s).released .spin_unlock

/-- The errors `compile` can throw before the cache entry is opened: from the cache root, the
lock file, the file lock, and the existence checks. -/
def prologue_errors : List Exn :=
  [.filesystem_error, .runtime_error "Unable to create aot cache",
    .runtime_error "Failed to check", .interprocess_exception]

/-- The errors `do_aot_compile` can throw. -/
def aot_compile_errors : List Exn :=
  [.runtime_error "Unable to generate llvm module", .runtime_error "Unable to get local target",
    .runtime_error "Unable to create target machine",
    .runtime_error "Unable to emit module for target machine"]

/-- What `aot_prologue` may have done when it ends in state `sp` after the events `pre`. -/
structure AfterPrologue (be : Backend) (h : Host) (vm : ebpf_vm) (s sp : St)
    (pre : List Event) : Prop where
  jit : sp.jit = s.jit
  trace : sp.trace = s.trace ++ pre
  quiet : ∀ e ∈ pre, e.is_flock = false ∧ e.is_backend = false ∧
    e.touches (aot_cache_file be h vm) = false
  entry : sp.fs.resolve (aot_cache_file be h vm) = s.fs.resolve (aot_cache_file be h vm)

/-- What holds when `aot_prologue` returned in state `sp`. -/
structure LockReady (h : Host) (s sp : St) : Prop where
  dir : sp.fs.is_directory (aot_cache_dir h) = true
  status_ok : h.stat_fails (aot_cache_dir h) = false
  stat_ok : h.stat_fails (aot_cache_lock h) = false
  lock_ok : h.file_lock_ok (aot_cache_lock h) = true
  lock : ∃ f, sp.fs.file (aot_cache_lock h) = some f ∧
    (s.fs.exists_ (aot_cache_lock h) = false → f.bytes = [])

/-- The effect of the part of `compile` before the file lock is taken (lines 179-187) on the
file system (`fs` before, `fsp` after) and the events `pre` it logs: the cache entry of the
program is as it was. -/
structure PrologueEffect (be : Backend) (h : Host) (vm : ebpf_vm) (fs fsp : Fs)
    (pre : List Event) : Prop where
  quiet : ∀ e ∈ pre, e.is_flock = false ∧ e.is_backend = false ∧
    e.touches (aot_cache_file be h vm) = false
  entry : fsp.resolve (aot_cache_file be h vm) = fs.resolve (aot_cache_file be h vm)

/-- What holds of the file system `fsp` once the file lock could be constructed: the cache
root is a directory and the lock file a regular file in it. -/
structure CacheRootReady (h : Host) (fs fsp : Fs) : Prop where
  dir : fsp.is_directory (aot_cache_dir h) = true
  status_ok : h.stat_fails (aot_cache_dir h) = false
  stat_ok : h.stat_fails (aot_cache_lock h) = false
  lock_ok : h.file_lock_ok (aot_cache_lock h) = true
  flock_ok : h.flock_ok (aot_cache_lock h) = true
  lock : ∃ f, fsp.file (aot_cache_lock h) = some f ∧
    (fs.exists_ (aot_cache_lock h) = false → f.bytes = [])

/-- The cache of `h` is in working order for the program in `fs`: the lock file is there, the
status of the cache root, of the lock file and of the cache entry can be determined, and the
lock file can be opened and locked. -/
structure CacheUsable (be : Backend) (h : Host) (vm : ebpf_vm) (fs : Fs) : Prop where
  status_root : h.stat_fails (aot_cache_dir h) = false
  status_lock : h.stat_fails (aot_cache_lock h) = false
  status_entry : h.stat_fails (aot_cache_file be h vm) = false
  lock_file : (fs.file (aot_cache_lock h)).isSome = true
  file_lock : h.file_lock_ok (aot_cache_lock h) = true
  flock : h.flock_ok (aot_cache_lock h) = true

/-- The file at `p` is read in full by `load_aot_cache`, as `f`. -/
def Fs.loads (fs : Fs) (p : Path) (f : File) : Prop :=
  fs.file p = some f ∧ f.openable = true ∧ ∀ k, f.read_fault = some k → f.bytes.length ≤ k

/-- The regular file at `p` cannot be loaded by `load_aot_cache`: it cannot be opened, or
reading stops before its size. -/
def Fs.load_fails (fs : Fs) (p : Path) : Prop :=
  ∃ f, fs.file p = some f ∧ (f.openable = false ∨ ∃ k, f.read_fault = some k ∧ k < f.bytes.length)

/-- The events of `load_aot_cache` on a file it loads. -/
def load_events (p : Path) (f : File) : List Event :=
  [.ifstream_open p, .ifstream_read p f.bytes.length]

/-- The events of `compile` up to the test of `BPFTIME_ENABLE_AOT`. -/
def aot_head : List Event := [.spin_lock, .getenv "BPFTIME_ENABLE_AOT"]

/-- The runs of `compile` on an uncompiled context when `BPFTIME_ENABLE_AOT` is set: each
constructor is one path through lines 173-224, with the result it ends in. -/
inductive AotRun (b : Build) (be : Backend) (h : Host) (vm : ebpf_vm) (s : St) :
    Res Nat → Prop where
  /-- The part up to the construction of the `scoped_lock` throws; it does not when the lock
  file is there, the status of the cache root and of the lock file can be determined and the
  lock file can be opened and locked. -/
  | prologue_throws (e : Exn) (pre : List Event) (fsp : Fs)
      (hpro : PrologueEffect be h vm s.fs fsp pre) (he : e ∈ prologue_errors)
      (hnot : h.stat_fails (aot_cache_dir h) = false →
        h.stat_fails (aot_cache_lock h) = false →
        h.file_lock_ok (aot_cache_lock h) = true →
        h.flock_ok (aot_cache_lock h) = true →
        (s.fs.file (aot_cache_lock h)).isSome = true → False) :
      AotRun b be h vm s (.throw e
        { jit := none, fs := fsp, trace := s.trace ++ (aot_head ++ pre ++ [.spin_unlock]) })
  /-- The existence check of the cache entry throws. -/
  | exists_throws (pre : List Event) (fsp : Fs)
      (hpro : PrologueEffect be h vm s.fs fsp pre) (hready : CacheRootReady h s.fs fsp)
      (hstatus : h.stat_fails (aot_cache_file be h vm) = true) :
      AotRun b be h vm s (.throw .filesystem_error
        { jit := none, fs := fsp,
          trace := s.trace ++ (aot_head ++ pre ++
            [.flock_lock (aot_cache_lock h), .fs_exists (aot_cache_file be h vm)] ++
            [.flock_unlock (aot_cache_lock h), .spin_unlock]) })
  /-- The cache entry is a directory: `load_aot_cache` throws. -/
  | load_throws (pre : List Event) (fsp : Fs)
      (hpro : PrologueEffect be h vm s.fs fsp pre) (hready : CacheRootReady h s.fs fsp)
      (hstatus : h.stat_fails (aot_cache_file be h vm) = false)
      (hexists : fsp.exists_ (aot_cache_file be h vm) = true)
      (hdir : fsp.is_directory (aot_cache_file be h vm) = true) :
      AotRun b be h vm s (.throw .bad_alloc
        { jit := none, fs := fsp,
          trace := s.trace ++ (aot_head ++ pre ++
            [.flock_lock (aot_cache_lock h), .fs_exists (aot_cache_file be h vm)] ++
            [.ifstream_open (aot_cache_file be h vm), .flock_unlock (aot_cache_lock h),
              .spin_unlock]) })
  /-- Cache hit, engine creation exits the process. -/
  | load_exits (pre : List Event) (fsp : Fs) (f : File) (oevs : List Event)
      (hpro : PrologueEffect be h vm s.fs fsp pre) (hready : CacheRootReady h s.fs fsp)
      (hstatus : h.stat_fails (aot_cache_file be h vm) = false)
      (hexists : fsp.exists_ (aot_cache_file be h vm) = true)
      (hloads : fsp.loads (aot_cache_file be h vm) f)
      (hevs : oevs <+: create_events b vm)
      (hcreate : ∀ s', create_and_initialize_lljit_instance b be vm s'
        = .exit 1 { s' with trace := s'.trace ++ oevs }) :
      AotRun b be h vm s (.exit 1
        { jit := none, fs := fsp,
          trace := s.trace ++ (aot_head ++ pre ++
            [.flock_lock (aot_cache_lock h), .fs_exists (aot_cache_file be h vm)] ++
            load_events (aot_cache_file be h vm) f ++ oevs) })
  /-- Cache hit, `addObjectFile` fails. -/
  | load_rejected (pre : List Event) (fsp : Fs) (f : File)
      (hpro : PrologueEffect be h vm s.fs fsp pre) (hready : CacheRootReady h s.fs fsp)
      (hstatus : h.stat_fails (aot_cache_file be h vm) = false)
      (hexists : fsp.exists_ (aot_cache_file be h vm) = true)
      (hloads : fsp.loads (aot_cache_file be h vm) f)
      (hrej : be.addObjectFile_ok (initialized_jit b vm) f.bytes = false) :
      AotRun b be h vm s (.throw (.runtime_error "Failed to load AOT object")
        { jit := none, fs := fsp,
          trace := s.trace ++ (aot_head ++ pre ++
            [.flock_lock (aot_cache_lock h), .fs_exists (aot_cache_file be h vm)] ++
            load_events (aot_cache_file be h vm) f ++ create_events b vm ++
            [.addObjectFile f.bytes, .flock_unlock (aot_cache_lock h), .spin_unlock]) })
  /-- Cache hit, the object is added, `bpf_main` is not found. -/
  | load_unlinked (pre : List Event) (fsp : Fs) (f : File)
      (hpro : PrologueEffect be h vm s.fs fsp pre) (hready : CacheRootReady h s.fs fsp)
      (hstatus : h.stat_fails (aot_cache_file be h vm) = false)
      (hexists : fsp.exists_ (aot_cache_file be h vm) = true)
      (hloads : fsp.loads (aot_cache_file be h vm) f)
      (hacc : be.addObjectFile_ok (initialized_jit b vm) f.bytes = true)
      (hlook : be.lookup (object_jit b vm f.bytes) "bpf_main" = none) :
      AotRun b be h vm s (.throw (.runtime_error "Unable to link symbol `bpf_main`")
        { jit := some (object_jit b vm f.bytes), fs := fsp,
          trace := s.trace ++ (aot_head ++ pre ++
            [.flock_lock (aot_cache_lock h), .fs_exists (aot_cache_file be h vm)] ++
            load_events (aot_cache_file be h vm) f ++ load_object_events b vm f.bytes ++
            [.flock_unlock (aot_cache_lock h), .spin_unlock]) })
  /-- Cache hit, the object is added and `bpf_main` resolved. -/
  | load_returns (pre : List Event) (fsp : Fs) (f : File) (a : Nat)
      (hpro : PrologueEffect be h vm s.fs fsp pre) (hready : CacheRootReady h s.fs fsp)
      (hstatus : h.stat_fails (aot_cache_file be h vm) = false)
      (hexists : fsp.exists_ (aot_cache_file be h vm) = true)
      (hloads : fsp.loads (aot_cache_file be h vm) f)
      (hacc : be.addObjectFile_ok (initialized_jit b vm) f.bytes = true)
      (hlook : be.lookup (object_jit b vm f.bytes) "bpf_main" = some a) :
      AotRun b be h vm s (.ok a
        { jit := some (object_jit b vm f.bytes), fs := fsp,
          trace := s.trace ++ (aot_head ++ pre ++
            [.flock_lock (aot_cache_lock h), .fs_exists (aot_cache_file be h vm)] ++
            load_events (aot_cache_file be h vm) f ++ load_object_events b vm f.bytes ++
            [.flock_unlock (aot_cache_lock h), .lookup "bpf_main", .spin_unlock]) })
  /-- Cache entry present but not loadable, `do_jit_compile` exits the process. -/
  | fallback_exits (pre : List Event) (fsp : Fs) (levs jevs : List Event)
      (hpro : PrologueEffect be h vm s.fs fsp pre) (hready : CacheRootReady h s.fs fsp)
      (hstatus : h.stat_fails (aot_cache_file be h vm) = false)
      (hexists : fsp.exists_ (aot_cache_file be h vm) = true)
      (hfails : fsp.load_fails (aot_cache_file be h vm))
      (hlevs : ∀ e ∈ levs, e = .ifstream_open (aot_cache_file be h vm) ∨
        ∃ n, e = .ifstream_read (aot_cache_file be h vm) n)
      (hevs : jevs <+: jit_compile_events b vm)
      (hjit : ∀ s', do_jit_compile b be vm s' = .exit 1 { s' with trace := s'.trace ++ jevs }) :
      AotRun b be h vm s (.exit 1
        { jit := none, fs := fsp,
          trace := s.trace ++ (aot_head ++ pre ++
            [.flock_lock (aot_cache_lock h), .fs_exists (aot_cache_file be h vm)] ++
            levs ++ jevs) })
  /-- Cache entry present but not loadable, `do_jit_compile` returns, `bpf_main` is not
  found. -/
  | fallback_unlinked (pre : List Event) (fsp : Fs) (levs : List Event) (m : Module)
      (hpro : PrologueEffect be h vm s.fs fsp pre) (hready : CacheRootReady h s.fs fsp)
      (hstatus : h.stat_fails (aot_cache_file be h vm) = false)
      (hexists : fsp.exists_ (aot_cache_file be h vm) = true)
      (hfails : fsp.load_fails (aot_cache_file be h vm))
      (hlevs : ∀ e ∈ levs, e = .ifstream_open (aot_cache_file be h vm) ∨
        ∃ n, e = .ifstream_read (aot_cache_file be h vm) n)
      (hgen : be.generateModule vm (bind_ext_funcs vm).2 (bind_lddw_helpers b vm).2 = .ok m)
      (hjit : ∀ s', do_jit_compile b be vm s' = .ok ()
        { s' with jit := some (module_jit b be vm m),
                  trace := s'.trace ++ jit_compile_events b vm })
      (hlook : be.lookup (module_jit b be vm m) "bpf_main" = none) :
      AotRun b be h vm s (.throw (.runtime_error "Unable to link symbol `bpf_main`")
        { jit := some (module_jit b be vm m), fs := fsp,
          trace := s.trace ++ (aot_head ++ pre ++
            [.flock_lock (aot_cache_lock h), .fs_exists (aot_cache_file be h vm)] ++
            levs ++ jit_compile_events b vm ++
            [.flock_unlock (aot_cache_lock h), .lookup "bpf_main", .spin_unlock]) })
  /-- Cache entry present but not loadable, `do_jit_compile` returns and `bpf_main` is
  resolved. -/
  | fallback_returns (pre : List Event) (fsp : Fs) (levs : List Event) (m : Module) (a : Nat)
      (hpro : PrologueEffect be h vm s.fs fsp pre) (hready : CacheRootReady h s.fs fsp)
      (hstatus : h.stat_fails (aot_cache_file be h vm) = false)
      (hexists : fsp.exists_ (aot_cache_file be h vm) = true)
      (hfails : fsp.load_fails (aot_cache_file be h vm))
      (hlevs : ∀ e ∈ levs, e = .ifstream_open (aot_cache_file be h vm) ∨
        ∃ n, e = .ifstream_read (aot_cache_file be h vm) n)
      (hgen : be.generateModule vm (bind_ext_funcs vm).2 (bind_lddw_helpers b vm).2 = .ok m)
      (hjit : ∀ s', do_jit_compile b be vm s' = .ok ()
        { s' with jit := some (module_jit b be vm m),
                  trace := s'.trace ++ jit_compile_events b vm })
      (hlook : be.lookup (module_jit b be vm m) "bpf_main" = some a) :
      AotRun b be h vm s (.ok a
        { jit := some (module_jit b be vm m), fs := fsp,
          trace := s.trace ++ (aot_head ++ pre ++
            [.flock_lock (aot_cache_lock h), .fs_exists (aot_cache_file be h vm)] ++
            levs ++ jit_compile_events b vm ++
            [.flock_unlock (aot_cache_lock h), .lookup "bpf_main", .spin_unlock]) })
  /-- Cache miss, `do_aot_compile` throws. -/
  | miss_throws (pre : List Event) (fsp : Fs) (aevs : List Event) (e : Exn)
      (hpro : PrologueEffect be h vm s.fs fsp pre) (hready : CacheRootReady h s.fs fsp)
      (hstatus : h.stat_fails (aot_cache_file be h vm) = false)
      (hexists : fsp.exists_ (aot_cache_file be h vm) = false)
      (hevs : aevs <+: aot_compile_events b vm) (he : e ∈ aot_compile_errors)
      (haot : ∀ s', do_aot_compile b be vm s' = .throw e { s' with trace := s'.trace ++ aevs }) :
      AotRun b be h vm s (.throw e
        { jit := none, fs := fsp,
          trace := s.trace ++ (aot_head ++ pre ++
            [.flock_lock (aot_cache_lock h), .fs_exists (aot_cache_file be h vm)] ++
            aevs ++ [.flock_unlock (aot_cache_lock h), .spin_unlock]) })
  /-- Cache miss, the object is emitted and written, `do_jit_compile` exits the process. -/
  | miss_exits (pre : List Event) (fsp : Fs) (obj : List Nat) (jevs : List Event)
      (hpro : PrologueEffect be h vm s.fs fsp pre) (hready : CacheRootReady h s.fs fsp)
      (hstatus : h.stat_fails (aot_cache_file be h vm) = false)
      (hexists : fsp.exists_ (aot_cache_file be h vm) = false)
      (haot : ∀ s', do_aot_compile b be vm s' = .ok obj
        { s' with trace := s'.trace ++ aot_compile_events b vm })
      (hevs : jevs <+: jit_compile_events b vm)
      (hjit : ∀ s', do_jit_compile b be vm s' = .exit 1 { s' with trace := s'.trace ++ jevs }) :
      AotRun b be h vm s (.exit 1
        { jit := none, fs := fsp.after_unflushed_write h (aot_cache_file be h vm) obj,
          trace := s.trace ++ (aot_head ++ pre ++
            [.flock_lock (aot_cache_lock h), .fs_exists (aot_cache_file be h vm)] ++
            aot_compile_events b vm ++ write_events (aot_cache_file be h vm) obj ++ jevs) })
  /-- Cache miss, the object is emitted and written, `do_jit_compile` returns, `bpf_main`
  is not found. -/
  | miss_unlinked (pre : List Event) (fsp : Fs) (obj : List Nat) (m : Module)
      (hpro : PrologueEffect be h vm s.fs fsp pre) (hready : CacheRootReady h s.fs fsp)
      (hstatus : h.stat_fails (aot_cache_file be h vm) = false)
      (hexists : fsp.exists_ (aot_cache_file be h vm) = false)
      (haot : ∀ s', do_aot_compile b be vm s' = .ok obj
        { s' with trace := s'.trace ++ aot_compile_events b vm })
      (hgen : be.generateModule vm (bind_ext_funcs vm).2 (bind_lddw_helpers b vm).2 = .ok m)
      (hjit : ∀ s', do_jit_compile b be vm s' = .ok ()
        { s' with jit := some (module_jit b be vm m),
                  trace := s'.trace ++ jit_compile_events b vm })
      (hlook : be.lookup (module_jit b be vm m) "bpf_main" = none) :
      AotRun b be h vm s (.throw (.runtime_error "Unable to link symbol `bpf_main`")
        { jit := some (module_jit b be vm m),
          fs := fsp.after_write h (aot_cache_file be h vm) obj,
          trace := s.trace ++ (aot_head ++ pre ++
            [.flock_lock (aot_cache_lock h), .fs_exists (aot_cache_file be h vm)] ++
            aot_compile_events b vm ++ write_events (aot_cache_file be h vm) obj ++
            jit_compile_events b vm ++
            [.flock_unlock (aot_cache_lock h), .lookup "bpf_main", .spin_unlock]) })
  /-- Cache miss, the object is emitted and written, `do_jit_compile` returns and `bpf_main`
  is resolved. -/
  | miss_returns (pre : List Event) (fsp : Fs) (obj : List Nat) (m : Module) (a : Nat)
      (hpro : PrologueEffect be h vm s.fs fsp pre) (hready : CacheRootReady h s.fs fsp)
      (hstatus : h.stat_fails (aot_cache_file be h vm) = false)
      (hexists : fsp.exists_ (aot_cache_file be h vm) = false)
      (haot : ∀ s', do_aot_compile b be vm s' = .ok obj
        { s' with trace := s'.trace ++ aot_compile_events b vm })
      (hgen : be.generateModule vm (bind_ext_funcs vm).2 (bind_lddw_helpers b vm).2 = .ok m)
      (hjit : ∀ s', do_jit_compile b be vm s' = .ok ()
        { s' with jit := some (module_jit b be vm m),
                  trace := s'.trace ++ jit_compile_events b vm })
      (hlook : be.lookup (module_jit b be vm m) "bpf_main" = some a) :
      AotRun b be h vm s (.ok a
        { jit := some (module_jit b be vm m),
          fs := fsp.after_write h (aot_cache_file be h vm) obj,
          trace := s.trace ++ (aot_head ++ pre ++
            [.flock_lock (aot_cache_lock h), .fs_exists (aot_cache_file be h vm)] ++
            aot_compile_events b vm ++ write_events (aot_cache_file be h vm) obj ++
            jit_compile_events b vm ++
            [.flock_unlock (aot_cache_lock h), .lookup "bpf_main", .spin_unlock]) })

/-- The runs of `compile` on an uncompiled context when `BPFTIME_ENABLE_AOT` is not set. -/
inductive JitRun (b : Build) (be : Backend) (vm : ebpf_vm) (s : St) : Res Nat → Prop where
  /-- Here `do_jit_compile` exits the process. -/
  | exits (jevs : List Event) (hevs : jevs <+: jit_compile_events b vm)
      (hjit : ∀ s', do_jit_compile b be vm s' = .exit 1 { s' with trace := s'.trace ++ jevs }) :
      JitRun b be vm s (.exit 1
        { jit := none, fs := s.fs, trace := s.trace ++ (aot_head ++ jevs) })
  /-- Here `do_jit_compile` returns, `bpf_main` is not found. -/
  | unlinked (m : Module)
      (hgen : be.generateModule vm (bind_ext_funcs vm).2 (bind_lddw_helpers b vm).2 = .ok m)
      (hjit : ∀ s', do_jit_compile b be vm s' = .ok ()
        { s' with jit := some (module_jit b be vm m),
                  trace := s'.trace ++ jit_compile_events b vm })
      (hlook : be.lookup (module_jit b be vm m) "bpf_main" = none) :
      JitRun b be vm s (.throw (.runtime_error "Unable to link symbol `bpf_main`")
        { jit := some (module_jit b be vm m), fs := s.fs,
          trace := s.trace ++ (aot_head ++ jit_compile_events b vm ++
            [.lookup "bpf_main", .spin_unlock]) })
  /-- Here `do_jit_compile` returns and `bpf_main` is resolved. -/
  | returns (m : Module) (a : Nat)
      (hgen : be.generateModule vm (bind_ext_funcs vm).2 (bind_lddw_helpers b vm).2 = .ok m)
      (hjit : ∀ s', do_jit_compile b be vm s' = .ok ()
        { s' with jit := some (module_jit b be vm m),
                  trace := s'.trace ++ jit_compile_events b vm })
      (hlook : be.lookup (module_jit b be vm m) "bpf_main" = some a) :
      JitRun b be vm s (.ok a
        { jit := some (module_jit b be vm m), fs := s.fs,
          trace := s.trace ++ (aot_head ++ jit_compile_events b vm ++
            [.lookup "bpf_main", .spin_unlock]) })

/-- The indices of the non-null entries of the external function table, increasing. -/
def bound_indices (vm : ebpf_vm) : List Nat :=
  (List.range vm.ext_funcs.length).filter (fun i => vm.ext_funcs.getD i 0 != 0)

/-- The external names the spec asks for: `ext_func_sym i` for each non-null entry, in
increasing index order. -/
def spec_ext_names (vm : ebpf_vm) : List String :=
  (bound_indices vm).map ext_func_sym

/-- The external bindings the spec asks for: `{name, address, callable, exported}` for each
non-null entry. -/
def spec_ext_bindings (vm : ebpf_vm) : SymbolMap :=
  (bound_indices vm).map (fun i =>
    (ext_func_sym i, { address := vm.ext_funcs.getD i 0, callable := true, exported := true }))

/-- The five LDDW helpers in their fixed order, each with its pointer. -/
def lddw_table (b : Build) (vm : ebpf_vm) : List (String × Nat) :=
  [(b.LDDW_HELPER_MAP_BY_FD, vm.map_by_fd), (b.LDDW_HELPER_MAP_BY_IDX, vm.map_by_idx),
   (b.LDDW_HELPER_MAP_VAL, vm.map_val), (b.LDDW_HELPER_CODE_ADDR, vm.code_addr),
   (b.LDDW_HELPER_VAR_ADDR, vm.var_addr)]

/-- The LDDW names the spec asks for: the helpers whose pointer is non-null. -/
def spec_lddw_names (b : Build) (vm : ebpf_vm) : List String :=
  ((lddw_table b vm).filter (fun e => e.2 != 0)).map (fun e => e.1)

/-- Which entries of the helper tables of a program are non-null: the external function
table entry by entry, then the five LDDW helper pointers in their fixed order. -/
def null_pattern (vm : ebpf_vm) : List Bool × List Bool :=
  (vm.ext_funcs.map (fun p => p != 0),
    [vm.map_by_fd != 0, vm.map_by_idx != 0, vm.map_val != 0, vm.code_addr != 0,
      vm.var_addr != 0])

/-- The symbol the ARM32 block binds. -/
def aeabi_binding (b : Build) : SymbolMap :=
  if b.arm then
    [("__aeabi_unwind_cpp_pr1",
      { address := b.aeabi_unwind_cpp_pr1, callable := false, exported := true })]
  else []

/-- The value of a string of decimal digits. -/
def digits_value (cs : List Char) : Nat :=
  cs.foldl (fun a c => a * 10 + (c.toNat - 48)) 0

/-! ## Concrete instances -/

/-- A build for a target other than 32-bit ARM. -/
def demo_build : Build :=
  { LDDW_HELPER_MAP_BY_FD := "lddw_map_by_fd"
    LDDW_HELPER_MAP_BY_IDX := "lddw_map_by_idx"
    LDDW_HELPER_MAP_VAL := "lddw_map_val"
    LDDW_HELPER_CODE_ADDR := "lddw_code_addr"
    LDDW_HELPER_VAR_ADDR := "lddw_var_addr"
    arm := false
    aeabi_unwind_cpp_pr1 := 0 }

/-- The same build for 32-bit ARM. -/
def demo_arm_build : Build := { demo_build with arm := true, aeabi_unwind_cpp_pr1 := 36864 }

/-- A backend on which everything succeeds; an engine holding an object file resolves
`bpf_main` to another address than one holding an IR module. -/
def demo_backend : Backend :=
  { sha256 := fun bytes => [bytes.length % 256, 171]
    lljit_create_ok := true
    define_ok := fun _ _ => true
    generateModule := fun _ _ _ => .ok { body := [1], targetTriple := "", dataLayout := "" }
    optimizeModule := fun m => m
    addIRModule_ok := fun _ _ => true
    addObjectFile_ok := fun _ buf => buf == [127, 69, 76, 70]
    lookup := fun j _ => if j.objectFiles = [] then some 4096 else some 8192
    getDefaultTargetTriple := "x86_64-unknown-linux-gnu"
    lookupTarget_ok := fun _ => true
    createTargetMachine_ok := fun _ => true
    createDataLayout := fun _ => "e-m:e"
    addPassesToEmitFile := fun _ => false
    emit := fun _ => [127, 69, 76, 70] }

/-- A backend whose engines never resolve `bpf_main`. -/
def demo_backend_unlinked : Backend := { demo_backend with lookup := fun _ _ => none }

/-- The hexadecimal digest of the instruction bytes of `demo_vm` under `demo_backend`. -/
def demo_digest : String := "10ab000000000000000000000000000000000000000000000000000000000000"

/-- A host with `HOME=/root` and `BPFTIME_ENABLE_AOT` set, on which no operation fails. -/
def demo_host : Host :=
  { HOME := some "/root"
    BPFTIME_ENABLE_AOT := some "1"
    create_directories_ok := fun _ => true
    stat_fails := fun _ => false
    ofstream_ok := fun _ => true
    write_len := fun _ size => size
    write_through := fun _ size => size
    file_lock_ok := fun _ => true
    flock_ok := fun _ => true }

/-- The same host without `BPFTIME_ENABLE_AOT`. -/
def demo_host_jit : Host := { demo_host with BPFTIME_ENABLE_AOT := none }

/-- The same host on which only the lock file can be opened for writing. -/
def demo_host_readonly : Host :=
  { demo_host with ofstream_ok := fun p => p == ["/root", ".bpftime", "aot-cache", "lock"] }

/-- A two-instruction program (`r0 = 42; exit`) with helper 3 and the `map_by_idx` LDDW
helper bound. -/
def demo_vm : ebpf_vm :=
  { insnsi := [183, 0, 0, 0, 42, 0, 0, 0, 149, 0, 0, 0, 0, 0, 0, 0]
    num_insts := 2
    ext_funcs := [0, 0, 0, 77, 0]
    map_by_fd := 0
    map_by_idx := 5
    map_val := 0
    code_addr := 0
    var_addr := 0 }

/-- A program without helpers. -/
def demo_vm_bare : ebpf_vm :=
  { demo_vm with ext_funcs := [0, 0, 0, 0, 0], map_by_idx := 0 }

/-- The same host on which the file lock cannot be constructed on the lock file. -/
def demo_host_unlockable : Host := { demo_host with file_lock_ok := fun _ => false }

/-- The same host on which writes to the cache entry of `demo_vm` stop after two bytes. -/
def demo_host_short_write : Host :=
  { demo_host with
    write_len := fun p size =>
      if p = ["/root", ".bpftime", "aot-cache", demo_digest] then min 2 size else size }

/-- A fresh context on a file system that has the home directory and nothing else. -/
def demo_state : St :=
  { jit := none, fs := { entries := [(["/root"], .dir)] }, trace := [] }

/-- A file system with the cache root, an empty lock file and the given object as the cache
entry of `demo_vm`. -/
def demo_fs (entry : Node) : Fs :=
  { entries :=
      [(["/root"], .dir), (["/root", ".bpftime"], .dir),
        (["/root", ".bpftime", "aot-cache"], .dir),
        (["/root", ".bpftime", "aot-cache", "lock"],
          .file { bytes := [], openable := true, read_fault := none }),
        (["/root", ".bpftime", "aot-cache", demo_digest], entry)] }

/-- A fresh context on a file system whose cache entry for `demo_vm` holds corrupt bytes. -/
def demo_state_corrupt : St :=
  { jit := none
    fs := demo_fs (.file { bytes := [1, 2, 3], openable := true, read_fault := none })
    trace := [] }

/-- A fresh context on a file system whose cache entry for `demo_vm` cannot be read in full. -/
def demo_state_short : St :=
  { jit := none
    fs := demo_fs (.file { bytes := [127, 69, 76, 70], openable := true, read_fault := some 2 })
    trace := [] }

/-- A fresh context on a file system in which the path of the cache entry of `demo_vm` is a
directory. -/
def demo_state_directory : St :=
  { jit := none, fs := demo_fs .dir, trace := [] }

/-! ## Theorems -/

theorem digitChar_value (k : Nat) (h : k < 10) : (Nat.digitChar k).toNat - 48 = k := by
  interval_cases k <;> rfl

theorem digits_value_append (L : List Char) (c : Char) :
    digits_value (L ++ [c]) = digits_value L * 10 + (c.toNat - 48) := by
  simp [digits_value, List.foldl_append]

theorem toDigitsCore_value : ∀ (fuel n : Nat) (ds : List Char), n < fuel →
    ∃ L, Nat.toDigitsCore 10 fuel n ds = L ++ ds ∧ digits_value L = n := by
  intro fuel
  induction fuel with
  | zero => intro n ds h; omega
  | succ f ih =>
    intro n ds h
    simp only [Nat.toDigitsCore]
    split
    · rename_i h0
      refine ⟨[Nat.digitChar (n % 10)], rfl, ?_⟩
      have : n < 10 := by omega
      have h2 := digitChar_value (n % 10) (Nat.mod_lt _ (by decide))
      simp [digits_value, h2]
      omega
    · rename_i h0
      obtain ⟨L, hL, hv⟩ := ih (n / 10) (Nat.digitChar (n % 10) :: ds) (by omega)
      refine ⟨L ++ [Nat.digitChar (n % 10)], by simp [hL], ?_⟩
      rw [digits_value_append, hv, digitChar_value (n % 10) (Nat.mod_lt _ (by decide))]
      omega

theorem repr_value (n : Nat) : digits_value (Nat.repr n).data = n := by
  obtain ⟨L, hL, hv⟩ := toDigitsCore_value (n + 1) n [] (by omega)
  simp [Nat.repr, Nat.toDigits, hL, List.asString, hv]

theorem ext_func_sym_injective : Function.Injective ext_func_sym := by
  intro i j h
  have h1 : (ext_func_sym i).data = (ext_func_sym j).data := by rw [h]
  simp only [ext_func_sym, String.data_append, List.append_cancel_left_eq] at h1
  have h2 : digits_value (Nat.repr i).data = digits_value (Nat.repr j).data := by
    show digits_value (toString i).data = digits_value (toString j).data
    rw [h1]
  rwa [repr_value, repr_value] at h2

theorem ext_func_sym_ne_aeabi (i : Nat) : ext_func_sym i ≠ "__aeabi_unwind_cpp_pr1" := by
  intro h
  have h1 : (ext_func_sym i).data = ("__aeabi_unwind_cpp_pr1" : String).data := by rw [h]
  simp [ext_func_sym, String.data_append] at h1

theorem try_emplace_fresh (m : SymbolMap) (k : String) (v : JITEvaluatedSymbol)
    (h : k ∉ m.map Prod.fst) : try_emplace m k v = m ++ [(k, v)] := by
  unfold try_emplace
  have : m.any (fun e => e.1 == k) = false := by
    rw [Bool.eq_false_iff]
    intro hany
    rw [List.any_eq_true] at hany
    obtain ⟨e, he, hk⟩ := hany
    exact h (List.mem_map.mpr ⟨e, he, by simpa using hk⟩)
  simp [this]

theorem try_emplace_keys (m : SymbolMap) (k : String) (v : JITEvaluatedSymbol) (x : String) :
    x ∈ (try_emplace m k v).map Prod.fst ↔ x ∈ m.map Prod.fst ∨ x = k := by
  unfold try_emplace
  split
  · rename_i hany
    rw [List.any_eq_true] at hany
    obtain ⟨e, he, hk⟩ := hany
    constructor
    · intro hx; exact Or.inl hx
    · rintro (hx | hx)
      · exact hx
      · subst hx
        exact List.mem_map.mpr ⟨e, he, by simpa using hk⟩
  · simp

theorem ext_fold (p : Nat → Bool) (addr : Nat → Nat) :
    ∀ (l : List Nat) (acc : SymbolMap × List String),
    l.Nodup → (∀ i ∈ l, ext_func_sym i ∉ acc.1.map Prod.fst) →
    l.foldl
      (fun acc i =>
        if p i then
          (try_emplace acc.1 (ext_func_sym i)
              { address := addr i, callable := true, exported := true },
            acc.2 ++ [ext_func_sym i])
        else acc) acc
    = (acc.1 ++ (l.filter p).map (fun i =>
          (ext_func_sym i, { address := addr i, callable := true, exported := true })),
       acc.2 ++ (l.filter p).map ext_func_sym) := by
  intro l
  induction l with
  | nil => intro acc _ _; simp
  | cons i l ih =>
    intro acc hnd hfresh
    rw [List.nodup_cons] at hnd
    rw [List.foldl_cons]
    by_cases hi : p i = true
    · rw [if_pos hi, ih _ hnd.2]
      · rw [try_emplace_fresh _ _ _ (hfresh i (List.mem_cons_self _ _))]
        simp [List.filter_cons, hi]
      · intro j hj
        rw [try_emplace_keys]
        rintro (h1 | h1)
        · exact hfresh j (List.mem_cons_of_mem _ hj) h1
        · have := ext_func_sym_injective h1
          subst this
          exact hnd.1 hj
    · rw [if_neg hi, ih _ hnd.2 (fun j hj => hfresh j (List.mem_cons_of_mem _ hj))]
      simp [List.filter_cons, hi]

theorem bind_ext_funcs_eq (vm : ebpf_vm) :
    bind_ext_funcs vm = (spec_ext_bindings vm, spec_ext_names vm) := by
  unfold bind_ext_funcs spec_ext_bindings spec_ext_names bound_indices
  rw [ext_fold (fun i => vm.ext_funcs.getD i 0 != 0) (fun i => vm.ext_funcs.getD i 0) _ _
    (List.nodup_range _) (by simp)]
  simp

theorem aot_ext_fold (p : Nat → Bool) : ∀ (l : List Nat) (acc : List String),
    l.foldl (fun extNames i => if p i then extNames ++ [ext_func_sym i] else extNames) acc
    = acc ++ (l.filter p).map ext_func_sym := by
  intro l
  induction l with
  | nil => intro acc; simp
  | cons i l ih =>
    intro acc
    rw [List.foldl_cons, ih]
    by_cases hi : p i = true
    · simp [List.filter_cons, hi]
    · simp [List.filter_cons, hi]

theorem aot_ext_names_eq (vm : ebpf_vm) : aot_ext_names vm = spec_ext_names vm := by
  unfold aot_ext_names spec_ext_names bound_indices
  rw [aot_ext_fold (fun i => vm.ext_funcs.getD i 0 != 0)]
  simp

theorem tryDefineLddwHelper_names (name : String) (func : Nat) (acc : SymbolMap × List String) :
    (tryDefineLddwHelper name func acc).2 = acc.2 ++ (if func != 0 then [name] else []) := by
  unfold tryDefineLddwHelper
  split <;> simp

theorem tryDefineLddwHelper_keys (name : String) (func : Nat) (acc : SymbolMap × List String)
    (h : ∀ x, x ∈ acc.1.map Prod.fst ↔ x ∈ acc.2) (x : String) :
    x ∈ (tryDefineLddwHelper name func acc).1.map Prod.fst ↔
      x ∈ (tryDefineLddwHelper name func acc).2 := by
  unfold tryDefineLddwHelper
  split
  · rw [try_emplace_keys, h]; simp
  · exact h x

theorem bind_lddw_helpers_names (b : Build) (vm : ebpf_vm) :
    (bind_lddw_helpers b vm).2 = spec_lddw_names b vm := by
  unfold bind_lddw_helpers spec_lddw_names lddw_table
  simp only [tryDefineLddwHelper_names, List.filter_cons, List.filter_nil]
  by_cases h1 : vm.map_by_fd = 0 <;> by_cases h2 : vm.map_by_idx = 0 <;>
    by_cases h3 : vm.map_val = 0 <;> by_cases h4 : vm.code_addr = 0 <;>
    by_cases h5 : vm.var_addr = 0 <;> simp [h1, h2, h3, h4, h5]

theorem bind_lddw_helpers_keys (b : Build) (vm : ebpf_vm) (x : String) :
    x ∈ (bind_lddw_helpers b vm).1.map Prod.fst ↔ x ∈ (bind_lddw_helpers b vm).2 := by
  unfold bind_lddw_helpers
  refine tryDefineLddwHelper_keys _ _ _ (fun x => ?_) x
  refine tryDefineLddwHelper_keys _ _ _ (fun x => ?_) x
  refine tryDefineLddwHelper_keys _ _ _ (fun x => ?_) x
  refine tryDefineLddwHelper_keys _ _ _ (fun x => ?_) x
  refine tryDefineLddwHelper_keys _ _ _ (fun x => ?_) x
  simp

theorem aot_lddw_names_eq (b : Build) (vm : ebpf_vm) :
    aot_lddw_names b vm = spec_lddw_names b vm := by
  unfold aot_lddw_names aot_tryDefineLddwHelper spec_lddw_names lddw_table
  by_cases h1 : vm.map_by_fd = 0 <;> by_cases h2 : vm.map_by_idx = 0 <;>
    by_cases h3 : vm.map_val = 0 <;> by_cases h4 : vm.code_addr = 0 <;>
    by_cases h5 : vm.var_addr = 0 <;> simp [h1, h2, h3, h4, h5, List.filter_cons]

theorem define_aeabi_eq (b : Build) (vm : ebpf_vm) :
    define_aeabi b (spec_ext_bindings vm) = spec_ext_bindings vm ++ aeabi_binding b := by
  unfold define_aeabi aeabi_binding
  split
  · apply try_emplace_fresh
    simp only [spec_ext_bindings, List.map_map, List.mem_map, not_exists, not_and]
    intro i _ h
    exact ext_func_sym_ne_aeabi i h
  · simp

/-! ### File system lemmas -/

theorem lookup_filter_keep (q : Path) (l : List (Path × Node)) (keep : Path → Bool)
    (h : keep q = true) :
    List.lookup q (l.filter (fun e => keep e.1)) = List.lookup q l := by
  induction l with
  | nil => rfl
  | cons e l ih =>
    obtain ⟨k, n⟩ := e
    by_cases hk : keep k = true
    · simp only [List.filter_cons, hk, if_true, List.lookup_cons, ih]
    · have hqk : (q == k) = false := by
        apply beq_false_of_ne
        intro heq
        rw [heq] at h
        exact hk h
      simp [List.filter_cons, hk, List.lookup_cons, hqk, ih]

theorem lookup_filter_drop (q : Path) (l : List (Path × Node)) (keep : Path → Bool)
    (h : keep q = false) :
    List.lookup q (l.filter (fun e => keep e.1)) = none := by
  induction l with
  | nil => rfl
  | cons e l ih =>
    obtain ⟨k, n⟩ := e
    by_cases hk : keep k = true
    · have hqk : (q == k) = false := by
        apply beq_false_of_ne
        intro heq
        rw [heq, hk] at h
        cases h
      simp [List.filter_cons, hk, List.lookup_cons, hqk, ih]
    · simp [List.filter_cons, hk, ih]

theorem node_put (fs : Fs) (p q : Path) (n : Node) :
    (fs.put p n).node q = if q = p then some n else fs.node q := by
  unfold Fs.put Fs.node
  by_cases h : q = p
  · subst h
    simp [List.lookup_cons]
  · have hq : (q == p) = false := beq_false_of_ne h
    simp only [List.lookup_cons, hq, h, if_false]
    exact lookup_filter_keep q _ (fun k => k != p) (by simpa using h)

theorem node_mkdir (fs : Fs) (x r : Path) :
    (fs.mkdir x).node r = if r = x then some .dir else if x <+: r then none else fs.node r := by
  unfold Fs.mkdir Fs.node
  by_cases h : r = x
  · subst h
    simp [List.lookup_cons]
  · have hq : (r == x) = false := beq_false_of_ne h
    simp only [List.lookup_cons, hq, h, if_false]
    by_cases hp : x <+: r
    · rw [if_pos hp]
      exact lookup_filter_drop r _ (fun k => !x.isPrefixOf k) (by simpa using hp)
    · rw [if_neg hp]
      have hb : x.isPrefixOf r = false := by
        cases hx : x.isPrefixOf r with
        | false => rfl
        | true => exact absurd (List.isPrefixOf_iff_prefix.mp hx) hp
      exact lookup_filter_keep r _ (fun k => !x.isPrefixOf k) (by simp [hb])

theorem step_fold_fst (fs : Fs) (p : Path) (acc : Path × Lookup) :
    (p.foldl fs.step acc).1 = acc.1 ++ p := by
  induction p generalizing acc with
  | nil => simp
  | cons c p ih => simp [List.foldl_cons, ih, Fs.step]

theorem resolve_nil (fs : Fs) : fs.resolve [] = .found .dir := rfl

theorem resolve_snoc (fs : Fs) (p : Path) (c : String) :
    fs.resolve (p ++ [c]) =
      match fs.resolve p with
      | .found .dir =>
        (match fs.node (p ++ [c]) with
          | some n => .found n
          | none => .ENOENT)
      | .found (.file _) => .ENOTDIR
      | .ENOENT => .ENOENT
      | .ENOTDIR => .ENOTDIR := by
  unfold Fs.resolve
  rw [List.foldl_append]
  simp only [List.foldl_cons, List.foldl_nil]
  have h1 := step_fold_fst fs p ([], .found .dir)
  simp only [List.nil_append] at h1
  generalize List.foldl fs.step ([], Lookup.found Node.dir) p = acc at h1
  obtain ⟨q, l⟩ := acc
  simp only at h1
  subst h1
  rfl

theorem resolve_congr (fs fs2 : Fs) (q : Path)
    (h : ∀ r, r <+: q → fs2.node r = fs.node r) : fs2.resolve q = fs.resolve q := by
  induction q using List.reverseRecOn with
  | nil => rfl
  | append_singleton p c ih =>
    rw [resolve_snoc, resolve_snoc, ih (fun r hr => h r (hr.trans (List.prefix_append _ _))),
      h _ (List.prefix_refl _)]

theorem resolve_put_elsewhere (fs : Fs) (p q : Path) (n : Node) (h : ¬ p <+: q) :
    (fs.put p n).resolve q = fs.resolve q := by
  apply resolve_congr
  intro r hr
  rw [node_put, if_neg]
  intro heq
  subst heq
  exact h hr

theorem resolve_mkdir_elsewhere (fs : Fs) (x q : Path) (h : ¬ x <+: q) :
    (fs.mkdir x).resolve q = fs.resolve q := by
  apply resolve_congr
  intro r hr
  have h1 : ¬ x <+: r := fun hxr => h (hxr.trans hr)
  have h2 : r ≠ x := by
    intro heq
    subst heq
    exact h hr
  rw [node_mkdir, if_neg h2, if_neg h1]

theorem append_singleton_not_initial (d : Path) (x : String) : ¬ (d ++ [x]) <+: d := by
  intro h
  have := h.length_le
  simp at this

theorem dir_ne_append (d : Path) (x : String) : d ≠ d ++ [x] := by
  intro h
  have := congrArg List.length h
  simp at this

theorem sibling_not_initial (d : Path) (x y : String) (h : x ≠ y) :
    ¬ (d ++ [x]) <+: (d ++ [y]) := by
  intro hp
  have hlen : (d ++ [x]).length = (d ++ [y]).length := by simp
  have := List.IsPrefix.eq_of_length hp hlen
  exact h (by simpa using this)

/-! ### `create_directories` -/

theorem mkdirs_fold_fst (p : Path) (acc : Path × Fs) :
    (p.foldl Fs.mkdirs_step acc).1 = acc.1 ++ p := by
  induction p generalizing acc with
  | nil => simp
  | cons c p ih => simp [List.foldl_cons, ih, Fs.mkdirs_step]

theorem mkdirs_nil (fs : Fs) : fs.mkdirs [] = fs := rfl

theorem mkdirs_snoc (fs : Fs) (p : Path) (c : String) :
    fs.mkdirs (p ++ [c]) =
      match (fs.mkdirs p).resolve (p ++ [c]) with
      | .ENOENT => (fs.mkdirs p).mkdir (p ++ [c])
      | _ => fs.mkdirs p := by
  unfold Fs.mkdirs
  rw [List.foldl_append]
  simp only [List.foldl_cons, List.foldl_nil]
  have h1 := mkdirs_fold_fst p ([], fs)
  simp only [List.nil_append] at h1
  generalize List.foldl Fs.mkdirs_step ([], fs) p = acc at h1
  obtain ⟨q, l⟩ := acc
  simp only at h1
  subst h1
  simp only [Fs.mkdirs_step]

theorem resolve_snoc_dir (fs : Fs) (p : Path) (c : String)
    (h : fs.resolve (p ++ [c]) = .found .dir) : fs.resolve p = .found .dir := by
  rw [resolve_snoc] at h
  cases hp : fs.resolve p with
  | found n =>
    cases n with
    | dir => rfl
    | file f => simp [hp] at h
  | ENOENT => simp [hp] at h
  | ENOTDIR => simp [hp] at h

theorem mkdirs_of_dir (fs : Fs) (p : Path) (h : fs.resolve p = .found .dir) :
    fs.mkdirs p = fs := by
  induction p using List.reverseRecOn with
  | nil => rfl
  | append_singleton p c ih =>
    have hp := resolve_snoc_dir fs p c h
    rw [mkdirs_snoc, ih hp, h]

theorem resolve_mkdir_self (fs : Fs) (p : Path) (c : String)
    (hp : fs.resolve p = .found .dir) :
    (fs.mkdir (p ++ [c])).resolve (p ++ [c]) = .found .dir := by
  rw [resolve_snoc, resolve_mkdir_elsewhere _ _ _ (append_singleton_not_initial p c), hp,
    node_mkdir]
  simp

theorem node_mkdir_below (fs : Fs) (x r : Path) (h : x <+: r) (hne : r ≠ x) :
    (fs.mkdir x).node r = none := by
  rw [node_mkdir, if_neg hne, if_pos h]

theorem mkdirs_spec (fs : Fs) (p : Path) (h : fs.resolve p = .ENOENT) :
    (fs.mkdirs p).resolve p = .found .dir ∧
      ∀ r, p <+: r → r ≠ p → (fs.mkdirs p).node r = none := by
  induction p using List.reverseRecOn with
  | nil => simp [resolve_nil] at h
  | append_singleton p c ih =>
    have hsn := resolve_snoc fs p c
    rw [h] at hsn
    have key : (fs.mkdirs p).resolve p = .found .dir ∧
        (fs.mkdirs p).resolve (p ++ [c]) = .ENOENT := by
      cases hp : fs.resolve p with
      | found n =>
        cases n with
        | dir =>
          rw [mkdirs_of_dir fs p hp]
          exact ⟨hp, h⟩
        | file f => simp [hp] at hsn
      | ENOENT =>
        obtain ⟨h1, h2⟩ := ih hp
        refine ⟨h1, ?_⟩
        rw [resolve_snoc, h1, h2 _ (List.prefix_append _ _) (dir_ne_append p c).symm]
      | ENOTDIR => simp [hp] at hsn
    rw [mkdirs_snoc, key.2]
    exact ⟨resolve_mkdir_self _ p c key.1, fun r hr hne => node_mkdir_below _ _ _ hr hne⟩

/-! ### Reading through resolution -/

theorem resolve_child (fs : Fs) (d : Path) (x : String) (hd : fs.is_directory d = true) :
    fs.resolve (d ++ [x]) =
      match fs.node (d ++ [x]) with
      | some n => .found n
      | none => .ENOENT := by
  unfold Fs.is_directory at hd
  rw [resolve_snoc]
  cases hr : fs.resolve d with
  | found n =>
    cases n with
    | dir => rfl
    | file f => simp [hr] at hd
  | ENOENT => simp [hr] at hd
  | ENOTDIR => simp [hr] at hd

theorem is_directory_iff (fs : Fs) (p : Path) :
    fs.is_directory p = true ↔ fs.resolve p = .found .dir := by
  unfold Fs.is_directory
  cases hr : fs.resolve p with
  | found n => cases n <;> simp
  | ENOENT => simp
  | ENOTDIR => simp

theorem file_eq_some (fs : Fs) (p : Path) (f : File) :
    fs.file p = some f ↔ fs.resolve p = .found (.file f) := by
  unfold Fs.file
  cases hr : fs.resolve p with
  | found n => cases n <;> simp
  | ENOENT => simp
  | ENOTDIR => simp

theorem exists_of_file (fs : Fs) (p : Path) (f : File) (h : fs.file p = some f) :
    fs.exists_ p = true := by
  rw [file_eq_some] at h
  unfold Fs.exists_
  cases p with
  | nil => simp [resolve_nil] at h
  | cons c p => simp [h]

theorem file_none_of_not_exists (fs : Fs) (p : Path) (h : fs.exists_ p = false) :
    fs.file p = none := by
  cases hf : fs.file p with
  | none => rfl
  | some f => rw [exists_of_file fs p f hf] at h; cases h

theorem parent_of_exists (fs : Fs) (d : Path) (x : String)
    (h : fs.exists_ (d ++ [x]) = true) : fs.is_directory d = true := by
  unfold Fs.exists_ at h
  rw [resolve_snoc] at h
  rw [is_directory_iff]
  cases hr : fs.resolve d with
  | found n =>
    cases n with
    | dir => rfl
    | file f => simp [hr] at h
  | ENOENT => simp [hr] at h
  | ENOTDIR => simp [hr] at h

theorem digitChar_ne_l (k : Nat) (hk : k < 16) : Nat.digitChar k ≠ 'l' := by
  interval_cases k <;> decide

theorem hex_ne_lock (digest : List Nat) : get_hash_hex_string digest ≠ "lock" := by
  intro h
  have h1 : (get_hash_hex_string digest).data = ("lock" : String).data := by rw [h]
  unfold get_hash_hex_string at h1
  cases digest with
  | nil => simp at h1
  | cons byte rest =>
    have h2 : Nat.digitChar (byte / 16 % 16) = 'l' := by
      simp only [List.flatMap_cons, List.cons_append] at h1
      exact (List.cons.inj h1).1
    exact digitChar_ne_l _ (Nat.mod_lt _ (by decide)) h2

theorem cache_lock_ne_file (be : Backend) (h : Host) (vm : ebpf_vm) :
    aot_cache_file be h vm ≠ aot_cache_lock h := by
  unfold aot_cache_file aot_cache_lock
  intro heq
  have := List.append_cancel_left heq
  simp only [List.cons.injEq, and_true] at this
  exact hex_ne_lock _ this

/-! ### The state monad -/

@[simp] theorem bind_apply {α β : Type} (x : M α) (f : α → M β) (s : St) :
    (x >>= f) s = match x s with
      | .ok a s1 => f a s1
      | .throw e s1 => .throw e s1
      | .exit c s1 => .exit c s1 := rfl

@[simp] theorem mbind_apply {α β : Type} (x : M α) (f : α → M β) (s : St) :
    (M.bind x f) s = match x s with
      | .ok a s1 => f a s1
      | .throw e s1 => .throw e s1
      | .exit c s1 => .exit c s1 := rfl

@[simp] theorem pure_apply {α : Type} (a : α) (s : St) : (pure a : M α) s = .ok a s := rfl

theorem ite_apply_M {α : Type} (c : Prop) [Decidable c] (x y : M α) (s : St) :
    (if c then x else y) s = if c then x s else y s := by
  split <;> rfl

/-! ### Backend calls: what they do does not depend on the state -/

@[simp] theorem initialized_jit_irModules (b : Build) (vm : ebpf_vm) :
    (initialized_jit b vm).irModules = [] := rfl

@[simp] theorem initialized_jit_objectFiles (b : Build) (vm : ebpf_vm) :
    (initialized_jit b vm).objectFiles = [] := rfl

theorem create_shape (b : Build) (be : Backend) (vm : ebpf_vm) :
    ∃ evs, evs <+: create_events b vm ∧
      ((∀ s, create_and_initialize_lljit_instance b be vm s
          = .exit 1 { s with trace := s.trace ++ evs }) ∨
       (evs = create_events b vm ∧
        ∀ s, create_and_initialize_lljit_instance b be vm s
          = .ok (initialized_jit b vm, (bind_ext_funcs vm).2, (bind_lddw_helpers b vm).2)
              { s with trace := s.trace ++ evs })) := by
  by_cases h1 : be.lljit_create_ok = true
  · by_cases h2 : be.define_ok
        { extSymbols := [], lddwSyms := [], irModules := [], objectFiles := [] }
        (define_aeabi b (bind_ext_funcs vm).1) = true
    · by_cases h3 : be.define_ok
          { extSymbols := define_aeabi b (bind_ext_funcs vm).1, lddwSyms := [], irModules := [],
            objectFiles := [] }
          (bind_lddw_helpers b vm).1 = true
      · refine ⟨create_events b vm, List.prefix_refl _, Or.inr ⟨rfl, fun s => ?_⟩⟩
        simp [create_and_initialize_lljit_instance, log, exit_, ExitOnErr, ite_apply_M, h1, h2,
          h3, create_events, initialized_jit]
      · refine ⟨create_events b vm, List.prefix_refl _, Or.inl (fun s => ?_)⟩
        simp [create_and_initialize_lljit_instance, log, exit_, ExitOnErr, ite_apply_M, h1, h2,
          h3, create_events, initialized_jit]
    · refine ⟨[.lljit_create, .define (initialized_jit b vm).extSymbols], ?_, Or.inl (fun s => ?_)⟩
      · exact ⟨[.define (initialized_jit b vm).lddwSyms], rfl⟩
      · simp [create_and_initialize_lljit_instance, log, exit_, ExitOnErr, ite_apply_M, h1, h2,
          initialized_jit]
  · refine ⟨[.lljit_create], ?_, Or.inl (fun s => ?_)⟩
    · exact ⟨[.define (initialized_jit b vm).extSymbols, .define (initialized_jit b vm).lddwSyms],
        rfl⟩
    · simp [create_and_initialize_lljit_instance, log, exit_, ExitOnErr, ite_apply_M, h1]

theorem get_entry_address_none (be : Backend) (s : St) (hj : s.jit = none) :
    get_entry_address be s = .throw (.runtime_error "Not compiled yet") s := by
  simp [get_entry_address, get_jit, throw_, hj]

theorem get_entry_address_some (be : Backend) (s : St) (j : LLJIT) (hj : s.jit = some j) :
    get_entry_address be s =
      match be.lookup j "bpf_main" with
      | none => .throw (.runtime_error "Unable to link symbol `bpf_main`")
          { s with trace := s.trace ++ [.lookup "bpf_main"] }
      | some addr => .ok addr { s with trace := s.trace ++ [.lookup "bpf_main"] } := by
  simp only [get_entry_address, get_jit, bind_apply, hj, log]
  cases be.lookup j "bpf_main" <;> simp [throw_]

theorem do_jit_compile_shape (b : Build) (be : Backend) (vm : ebpf_vm) :
    ∃ evs, evs <+: jit_compile_events b vm ∧
      ((∀ s, do_jit_compile b be vm s = .exit 1 { s with trace := s.trace ++ evs }) ∨
       (evs = jit_compile_events b vm ∧
        ∃ m, be.generateModule vm (bind_ext_funcs vm).2 (bind_lddw_helpers b vm).2 = .ok m ∧
          ∀ s, do_jit_compile b be vm s
            = .ok () { s with jit := some (module_jit b be vm m), trace := s.trace ++ evs })) := by
  obtain ⟨evs, hpre, hc⟩ := create_shape b be vm
  rcases hc with hc | ⟨hevs, hc⟩
  · refine ⟨evs, hpre.trans (List.prefix_append _ _), Or.inl (fun s => ?_)⟩
    simp [do_jit_compile, hc]
  · subst hevs
    cases hg : be.generateModule vm (bind_ext_funcs vm).2 (bind_lddw_helpers b vm).2 with
    | error msg =>
      refine ⟨create_events b vm ++
        [.generateModule (bind_ext_funcs vm).2 (bind_lddw_helpers b vm).2], ?_,
        Or.inl (fun s => ?_)⟩
      · exact ⟨[.optimizeModule, .addIRModule], by simp [jit_compile_events]⟩
      · simp [do_jit_compile, hc, log, ExitOnErrE, hg, exit_]
    | ok m =>
      by_cases h4 : be.addIRModule_ok (initialized_jit b vm) (be.optimizeModule m) = true
      · refine ⟨jit_compile_events b vm, List.prefix_refl _, Or.inr ⟨rfl, m, rfl, fun s => ?_⟩⟩
        simp [do_jit_compile, hc, log, ExitOnErrE, ExitOnErr, hg, h4, set_jit,
          jit_compile_events, module_jit, ite_apply_M]
      · refine ⟨jit_compile_events b vm, List.prefix_refl _, Or.inl (fun s => ?_)⟩
        simp [do_jit_compile, hc, log, ExitOnErrE, ExitOnErr, hg, h4, exit_,
          jit_compile_events, ite_apply_M]

theorem do_aot_compile_shape (b : Build) (be : Backend) (vm : ebpf_vm) :
    ∃ evs, evs <+: aot_compile_events b vm ∧
      ((∃ e, e ∈ aot_compile_errors ∧
          ∀ s, do_aot_compile b be vm s = .throw e { s with trace := s.trace ++ evs }) ∨
       (evs = aot_compile_events b vm ∧
        ∃ obj, ∀ s, do_aot_compile b be vm s = .ok obj { s with trace := s.trace ++ evs })) := by
  cases hg : be.generateModule vm (aot_ext_names vm) (aot_lddw_names b vm) with
  | error msg =>
    refine ⟨[.generateModule (aot_ext_names vm) (aot_lddw_names b vm)], ⟨_, rfl⟩,
      Or.inl ⟨.runtime_error "Unable to generate llvm module", by simp [aot_compile_errors], fun s => ?_⟩⟩
    simp only [do_aot_compile, do_aot_compile_with, log, bind_apply, hg, throw_]
  | ok m =>
    by_cases h1 : be.lookupTarget_ok be.getDefaultTargetTriple = true
    · by_cases h2 : be.createTargetMachine_ok be.getDefaultTargetTriple = true
      · by_cases h3 : be.addPassesToEmitFile be.getDefaultTargetTriple = true
        · refine ⟨[.generateModule (aot_ext_names vm) (aot_lddw_names b vm), .optimizeModule,
            .lookupTarget, .createTargetMachine, .addPassesToEmitFile], ⟨[.emit], rfl⟩,
            Or.inl ⟨.runtime_error "Unable to emit module for target machine", by simp [aot_compile_errors], fun s => ?_⟩⟩
          simp [do_aot_compile, do_aot_compile_with, log, hg, throw_, h1, h2, h3, ite_apply_M]
        · refine ⟨aot_compile_events b vm, List.prefix_refl _, Or.inr ⟨rfl,
            be.emit { be.optimizeModule m with
              targetTriple := be.getDefaultTargetTriple
              dataLayout := be.createDataLayout be.getDefaultTargetTriple }, fun s => ?_⟩⟩
          simp [do_aot_compile, do_aot_compile_with, log, hg, throw_, h1, h2, h3, ite_apply_M,
            aot_compile_events]
      · refine ⟨[.generateModule (aot_ext_names vm) (aot_lddw_names b vm), .optimizeModule,
          .lookupTarget, .createTargetMachine], ⟨[.addPassesToEmitFile, .emit], rfl⟩,
          Or.inl ⟨.runtime_error "Unable to create target machine", by simp [aot_compile_errors], fun s => ?_⟩⟩
        simp [do_aot_compile, do_aot_compile_with, log, hg, throw_, h1, h2, ite_apply_M]
    · refine ⟨[.generateModule (aot_ext_names vm) (aot_lddw_names b vm), .optimizeModule,
        .lookupTarget], ⟨[.createTargetMachine, .addPassesToEmitFile, .emit], rfl⟩,
        Or.inl ⟨.runtime_error "Unable to get local target", by simp [aot_compile_errors], fun s => ?_⟩⟩
      simp [do_aot_compile, do_aot_compile_with, log, hg, throw_, h1, ite_apply_M]

theorem object_jit_eq (b : Build) (vm : ebpf_vm) (buf : List Nat) :
    object_jit b vm buf =
      { extSymbols := (initialized_jit b vm).extSymbols
        lddwSyms := (initialized_jit b vm).lddwSyms
        irModules := []
        objectFiles := [buf] } := rfl

theorem load_aot_object_shape (b : Build) (be : Backend) (vm : ebpf_vm) (buf : List Nat) :
    ∃ evs, evs <+: load_object_events b vm buf ∧
      ((evs <+: create_events b vm ∧
        (∀ s, create_and_initialize_lljit_instance b be vm s
          = .exit 1 { s with trace := s.trace ++ evs }) ∧
        ∀ s, s.jit = none →
          load_aot_object b be vm buf s = .exit 1 { s with trace := s.trace ++ evs }) ∨
       (be.addObjectFile_ok (initialized_jit b vm) buf = false ∧
        evs = create_events b vm ++ [.addObjectFile buf] ∧
        ∀ s, s.jit = none →
          load_aot_object b be vm buf s = .throw (.runtime_error "Failed to load AOT object")
            { s with trace := s.trace ++ evs }) ∨
       (evs = load_object_events b vm buf ∧
        be.addObjectFile_ok (initialized_jit b vm) buf = true ∧
        be.lookup (object_jit b vm buf) "bpf_main" = none ∧
        ∀ s, s.jit = none →
          load_aot_object b be vm buf s
            = .throw (.runtime_error "Unable to link symbol `bpf_main`")
                { s with jit := some (object_jit b vm buf), trace := s.trace ++ evs }) ∨
       (evs = load_object_events b vm buf ∧
        be.addObjectFile_ok (initialized_jit b vm) buf = true ∧
        (be.lookup (object_jit b vm buf) "bpf_main").isSome = true ∧
        ∀ s, s.jit = none →
          load_aot_object b be vm buf s
            = .ok () { s with jit := some (object_jit b vm buf), trace := s.trace ++ evs })) := by
  obtain ⟨evs, hpre, hc⟩ := create_shape b be vm
  rcases hc with hc | ⟨hevs, hc⟩
  · refine ⟨evs, hpre.trans (List.prefix_append _ _), Or.inl ⟨hpre, hc, fun s hj => ?_⟩⟩
    simp [load_aot_object, get_jit, hj, hc]
  · subst hevs
    by_cases h4 : be.addObjectFile_ok (initialized_jit b vm) buf = true
    · have hcase : be.lookup (object_jit b vm buf) "bpf_main" = none ∨
          ∃ a, be.lookup (object_jit b vm buf) "bpf_main" = some a := by
        cases be.lookup (object_jit b vm buf) "bpf_main" <;> simp
      rcases hcase with hl | ⟨a, hl⟩
      · refine ⟨load_object_events b vm buf, List.prefix_refl _,
          Or.inr (Or.inr (Or.inl ⟨rfl, h4, hl, fun s hj => ?_⟩))⟩
        rw [object_jit_eq] at hl
        simp [load_aot_object, get_jit, hj, hc, log, h4, set_jit, get_entry_address, throw_,
          hl, load_object_events, object_jit]
      · refine ⟨load_object_events b vm buf, List.prefix_refl _,
          Or.inr (Or.inr (Or.inr ⟨rfl, h4, by simp [hl], fun s hj => ?_⟩))⟩
        rw [object_jit_eq] at hl
        simp [load_aot_object, get_jit, hj, hc, log, h4, set_jit, get_entry_address, throw_,
          hl, load_object_events, object_jit]
    · refine ⟨create_events b vm ++ [.addObjectFile buf], ⟨[.lookup "bpf_main"], by
          simp [load_object_events]⟩,
        Or.inr (Or.inl ⟨by simpa using h4, rfl, fun s hj => ?_⟩)⟩
      simp [load_aot_object, get_jit, hj, hc, log, h4, throw_]

/-! ### File system calls -/

theorem put_put (fs : Fs) (p : Path) (a c : Node) : (fs.put p a).put p c = fs.put p c := by
  unfold Fs.put
  simp [List.filter_cons, List.filter_filter]

theorem ofstream_eq (h : Host) (p : Path) (s : St) :
    ofstream h p s =
      if (h.ofstream_ok p && s.fs.creatable p) = true then
        .ok (some (s.fs.truncated p))
          { s with
            fs := s.fs.put p (.file (s.fs.truncated p))
            trace := s.trace ++ [.ofstream_open p] }
      else .ok none { s with trace := s.trace ++ [.ofstream_open p] } := by
  by_cases hw : (h.ofstream_ok p && s.fs.creatable p) = true
  · rw [if_pos hw]
    simp only [ofstream, log, get_fs, set_fs, bind_apply, hw, if_true, pure_apply]
  · rw [if_neg hw]
    simp only [ofstream, log, get_fs, set_fs, bind_apply, hw, pure_apply]
    rfl

theorem fs_exists_eq (h : Host) (p : Path) (s : St) :
    fs_exists h p s =
      if h.stat_fails p = true then
        .throw .filesystem_error { s with trace := s.trace ++ [.fs_exists p] }
      else .ok (s.fs.exists_ p) { s with trace := s.trace ++ [.fs_exists p] } := by
  by_cases hs : h.stat_fails p = true
  · simp [fs_exists, log, get_fs, throw_, hs]
  · simp [fs_exists, log, get_fs, hs]

theorem load_aot_cache_spec (p : Path) (s : St) :
    (s.fs.is_directory p = true ∧
      load_aot_cache p s = .throw .bad_alloc { s with trace := s.trace ++ [.ifstream_open p] }) ∨
    (s.fs.is_directory p = false ∧
      ∃ evs v, load_aot_cache p s = .ok v { s with trace := s.trace ++ evs } ∧
        (∀ e ∈ evs, e = .ifstream_open p ∨ ∃ n, e = .ifstream_read p n) ∧
        (s.fs.file p = none → v = none) ∧
        (s.fs.load_fails p → v = none) ∧
        (∀ f, s.fs.loads p f → v = some f.bytes ∧ evs = load_events p f)) := by
  simp only [load_aot_cache, log, get_fs, bind_apply]
  unfold Fs.load_fails Fs.loads Fs.is_directory Fs.file
  cases hf : s.fs.resolve p with
  | ENOENT => exact Or.inr ⟨rfl, [.ifstream_open p], none, by simp, by simp, by simp, by simp,
      by simp⟩
  | ENOTDIR => exact Or.inr ⟨rfl, [.ifstream_open p], none, by simp, by simp, by simp, by simp,
      by simp⟩
  | found n =>
    cases n with
    | dir => exact Or.inl ⟨rfl, by simp [throw_]⟩
    | file f =>
      refine Or.inr ⟨rfl, ?_⟩
      by_cases ho : f.openable = true
      · cases hr : f.read_fault with
        | none =>
          refine ⟨[.ifstream_open p, .ifstream_read p f.bytes.length], some f.bytes,
            by simp [ho, hr, ite_apply_M, log], by simp, by simp, ?_, ?_⟩
          · rintro ⟨g, hg, h1 | ⟨k, hk, _⟩⟩
            · cases hg; rw [ho] at h1; cases h1
            · cases hg; rw [hr] at hk; cases hk
          · rintro g ⟨hg, _, _⟩
            cases hg
            exact ⟨rfl, rfl⟩
        | some k =>
          by_cases hk : k < f.bytes.length
          · refine ⟨[.ifstream_open p, .ifstream_read p f.bytes.length], none,
              by simp [ho, hr, hk, ite_apply_M, log], by simp, by simp, by simp, ?_⟩
            rintro g ⟨hg, _, hle⟩
            cases hg
            have := hle k hr
            omega
          · refine ⟨[.ifstream_open p, .ifstream_read p f.bytes.length], some f.bytes,
              by simp [ho, hr, hk, ite_apply_M, log], by simp, by simp, ?_, ?_⟩
            · rintro ⟨g, hg, h1 | ⟨k2, hk2, hlt⟩⟩
              · cases hg; rw [ho] at h1; cases h1
              · cases hg
                rw [hr] at hk2
                cases hk2
                exact absurd hlt hk
            · rintro g ⟨hg, _, _⟩
              cases hg
              exact ⟨rfl, rfl⟩
      · refine ⟨[.ifstream_open p], none, by simp [ho, ite_apply_M], by simp, by simp,
          by simp, ?_⟩
        rintro g ⟨hg, hopen, _⟩
        cases hg
        exact absurd hopen ho

/-! ### The cache root and the lock file -/

theorem cache_dir_not_empty (h : Host) : (aot_cache_dir h).isEmpty = false := by
  unfold aot_cache_dir path
  split <;> simp

theorem exists_of_is_directory (fs : Fs) (p : Path) (hp : p.isEmpty = false)
    (h : fs.is_directory p = true) : fs.exists_ p = true := by
  rw [is_directory_iff] at h
  simp [Fs.exists_, hp, h]

theorem resolve_child_of_missing (fs : Fs) (d : Path) (x : String)
    (h : fs.resolve d = .ENOENT) : fs.resolve (d ++ [x]) = .ENOENT := by
  rw [resolve_snoc, h]

theorem ensure_dir_cases (h : Host) (d : Path) (s : St) :
    ∃ evs, (∀ e ∈ evs, e = .fs_exists d ∨ e = .create_directories d) ∧
      ((ensure_dir h d s = .ok () { s with trace := s.trace ++ evs } ∧
          h.stat_fails d = false ∧ s.fs.exists_ d = true) ∨
       (ensure_dir h d s
          = .ok () { s with fs := s.fs.mkdirs d, trace := s.trace ++ evs } ∧
          h.stat_fails d = false ∧ s.fs.resolve d = .ENOENT) ∨
       ∃ e, e ∈ prologue_errors ∧
        ensure_dir h d s = .throw e { s with trace := s.trace ++ evs }) := by
  by_cases hst : h.stat_fails d = true
  · refine ⟨[.fs_exists d], by simp, Or.inr (Or.inr ⟨.filesystem_error, by simp [prologue_errors],
      ?_⟩)⟩
    simp [ensure_dir, fs_exists, log, get_fs, throw_, hst]
  have hst2 : h.stat_fails d = false := by simpa using hst
  by_cases hx : s.fs.exists_ d = true
  · refine ⟨[.fs_exists d], by simp, Or.inl ⟨?_, hst2, hx⟩⟩
    simp [ensure_dir, fs_exists, log, get_fs, hx, hst2]
  · by_cases hc : h.create_directories_ok d = true ∧ s.fs.resolve d = .ENOENT
    · refine ⟨[.fs_exists d, .create_directories d], by simp,
        Or.inr (Or.inl ⟨?_, hst2, hc.2⟩)⟩
      simp [ensure_dir, fs_exists, log, get_fs, set_fs, hx, hc, hst2, ite_apply_M]
    · refine ⟨[.fs_exists d, .create_directories d], by simp,
        Or.inr (Or.inr ⟨.runtime_error "Unable to create aot cache", by simp [prologue_errors],
          ?_⟩)⟩
      simp [ensure_dir, fs_exists, log, get_fs, set_fs, throw_, hx, hc, hst2, ite_apply_M]

theorem ensure_lock_cases (h : Host) (l : Path) (s : St) :
    (ensure_lock h l s = .ok () { s with trace := s.trace ++ [.stat l] } ∧
        h.stat_fails l = false ∧ ∃ n, s.fs.resolve l = .found n) ∨
    (ensure_lock h l s
        = .ok ()
            { s with
              fs := if (h.ofstream_ok l && s.fs.creatable l) = true then
                  s.fs.put l (.file (s.fs.truncated l))
                else s.fs
              trace := s.trace ++ [.stat l, .ofstream_open l] } ∧
        h.stat_fails l = false ∧ s.fs.resolve l = .ENOENT) ∨
    ensure_lock h l s
      = .throw (.runtime_error "Failed to check") { s with trace := s.trace ++ [.stat l] } := by
  by_cases hs : h.stat_fails l = true
  · refine Or.inr (Or.inr ?_)
    simp [ensure_lock, log, get_fs, Fs.stat, hs, throw_]
  · have hs2 : h.stat_fails l = false := by simpa using hs
    cases hr : s.fs.resolve l with
    | found n =>
      refine Or.inl ⟨?_, hs2, n, rfl⟩
      simp [ensure_lock, log, get_fs, Fs.stat, hs2, hr]
    | ENOENT =>
      refine Or.inr (Or.inl ⟨?_, hs2, rfl⟩)
      simp only [ensure_lock, log, get_fs, Fs.stat, hs2, hr, bind_apply]
      simp only [Bool.false_eq_true, if_false, bind_apply, ofstream_eq]
      by_cases hw : (h.ofstream_ok l && s.fs.creatable l) = true
      · simp [hw]
      · simp [hw]
    | ENOTDIR =>
      refine Or.inr (Or.inr ?_)
      simp [ensure_lock, log, get_fs, Fs.stat, hs2, hr, throw_]

theorem is_directory_of_child (fs : Fs) (d : Path) (x : String) (hd : fs.exists_ d = true)
    (hc : fs.resolve (d ++ [x]) ≠ .ENOTDIR) : fs.is_directory d = true := by
  unfold Fs.exists_ at hd
  rw [resolve_snoc] at hc
  rw [is_directory_iff]
  cases hr : fs.resolve d with
  | found n =>
    cases n with
    | dir => rfl
    | file f => simp [hr] at hc
  | ENOENT => simp [hr] at hd
  | ENOTDIR => simp [hr] at hd

theorem dropLast_child (d : Path) (x : String) : (d ++ [x]).dropLast = d := by
  simp

theorem creatable_child (fs : Fs) (d : Path) (x : String) (hd : fs.is_directory d = true)
    (hc : fs.resolve (d ++ [x]) = .ENOENT) : fs.creatable (d ++ [x]) = true := by
  unfold Fs.creatable
  rw [dropLast_child, hd]
  have : fs.is_directory (d ++ [x]) = false := by
    unfold Fs.is_directory
    rw [hc]
  simp [this]

theorem truncated_of_missing (fs : Fs) (p : Path) (hc : fs.resolve p = .ENOENT) :
    fs.truncated p = { bytes := [], openable := true, read_fault := none } := by
  unfold Fs.truncated Fs.file
  rw [hc]

theorem is_directory_put_child (fs : Fs) (d : Path) (x : String) (n : Node) :
    (fs.put (d ++ [x]) n).is_directory d = fs.is_directory d := by
  unfold Fs.is_directory
  rw [resolve_put_elsewhere _ _ _ _ (append_singleton_not_initial d x)]

theorem resolve_put_sibling (fs : Fs) (d : Path) (x y : String) (n : Node) (h : x ≠ y) :
    (fs.put (d ++ [x]) n).resolve (d ++ [y]) = fs.resolve (d ++ [y]) :=
  resolve_put_elsewhere _ _ _ _ (sibling_not_initial d x y h)

theorem resolve_put_self (fs : Fs) (d : Path) (x : String) (n : Node)
    (hd : fs.is_directory d = true) : (fs.put (d ++ [x]) n).resolve (d ++ [x]) = .found n := by
  rw [resolve_child _ _ _ (by rw [is_directory_put_child]; exact hd), node_put]
  simp

theorem file_put_self (fs : Fs) (d : Path) (x : String) (f : File)
    (hd : fs.is_directory d = true) : (fs.put (d ++ [x]) (.file f)).file (d ++ [x]) = some f := by
  rw [file_eq_some]
  exact resolve_put_self fs d x _ hd

/-- What `ensure_aot_cache_dir_and_cache_file` does, whatever state it starts from. -/
theorem ensure_spec (h : Host) (s : St) :
    (ensure_aot_cache_dir_and_cache_file h s).state.jit = s.jit ∧
    (∃ evs, (ensure_aot_cache_dir_and_cache_file h s).state.trace = s.trace ++ evs ∧
      ∀ e ∈ evs, e.is_flock = false ∧ e.is_backend = false ∧
        ∀ p, p ≠ aot_cache_dir h → p ≠ aot_cache_lock h → e.touches p = false) ∧
    (∀ x, x ≠ "lock" →
      (ensure_aot_cache_dir_and_cache_file h s).state.fs.resolve (aot_cache_dir h ++ [x])
        = s.fs.resolve (aot_cache_dir h ++ [x])) ∧
    (∀ c, (ensure_aot_cache_dir_and_cache_file h s).outcome ≠ .exited c) ∧
    (∀ e, (ensure_aot_cache_dir_and_cache_file h s).outcome = .thrown e →
      e ∈ prologue_errors) ∧
    (∀ v, (ensure_aot_cache_dir_and_cache_file h s).outcome = .returned v →
      v = (aot_cache_dir h, aot_cache_lock h) ∧
      (ensure_aot_cache_dir_and_cache_file h s).state.fs.is_directory (aot_cache_dir h) = true ∧
      h.stat_fails (aot_cache_dir h) = false ∧
      h.stat_fails (aot_cache_lock h) = false ∧
      ∀ f, (ensure_aot_cache_dir_and_cache_file h s).state.fs.file (aot_cache_lock h) = some f →
        s.fs.exists_ (aot_cache_lock h) = false → f.bytes = []) := by
  have hne := cache_dir_not_empty h
  unfold aot_cache_lock
  generalize hR : aot_cache_dir h = R at hne
  have hunf : ensure_aot_cache_dir_and_cache_file h s =
      match ensure_dir h R { s with trace := s.trace ++ [.getenv "HOME"] } with
      | .ok _ s1 =>
        (match ensure_lock h (R ++ ["lock"]) s1 with
          | .ok _ s2 => .ok (R, R ++ ["lock"]) s2
          | .throw e s2 => .throw e s2
          | .exit c s2 => .exit c s2)
      | .throw e s1 => .throw e s1
      | .exit c s1 => .exit c s1 := by
    simp only [ensure_aot_cache_dir_and_cache_file, getenv, log, bind_apply, pure_apply, hR]
    cases ensure_dir h R { s with trace := s.trace ++ [.getenv "HOME"] } with
    | ok u s1 =>
      simp only
      cases ensure_lock h (R ++ ["lock"]) s1 <;> rfl
    | throw e s1 => rfl
    | exit c s1 => rfl
  rw [hunf]
  obtain ⟨evs, hevs, hd⟩ := ensure_dir_cases h R { s with trace := s.trace ++ [.getenv "HOME"] }
  have hq1 : ∀ e ∈ Event.getenv "HOME" :: evs, e.is_flock = false ∧ e.is_backend = false ∧
      ∀ p, p ≠ R → p ≠ R ++ ["lock"] → e.touches p = false := by
    intro e he
    rcases List.mem_cons.mp he with rfl | he
    · exact ⟨rfl, rfl, fun _ _ _ => rfl⟩
    · rcases hevs e he with rfl | rfl
      · exact ⟨rfl, rfl, fun p hp _ => by simpa [Event.touches] using hp⟩
      · exact ⟨rfl, rfl, fun p hp _ => by simpa [Event.touches] using hp⟩
  have hq2 : ∀ e ∈ Event.getenv "HOME" :: (evs ++ [.stat (R ++ ["lock"])]),
      e.is_flock = false ∧ e.is_backend = false ∧
      ∀ p, p ≠ R → p ≠ R ++ ["lock"] → e.touches p = false := by
    intro e he
    rw [← List.cons_append, List.mem_append, List.mem_singleton] at he
    rcases he with he | rfl
    · exact hq1 e he
    · exact ⟨rfl, rfl, fun p _ hp => by simpa [Event.touches] using hp⟩
  have hq3 : ∀ e ∈ Event.getenv "HOME" ::
        (evs ++ [.stat (R ++ ["lock"]), .ofstream_open (R ++ ["lock"])]),
      e.is_flock = false ∧ e.is_backend = false ∧
      ∀ p, p ≠ R → p ≠ R ++ ["lock"] → e.touches p = false := by
    intro e he
    have he2 : e ∈ (Event.getenv "HOME" :: (evs ++ [.stat (R ++ ["lock"])])) ++
        [.ofstream_open (R ++ ["lock"])] := by simpa using he
    rw [List.mem_append, List.mem_singleton] at he2
    rcases he2 with he2 | rfl
    · exact hq2 e he2
    · exact ⟨rfl, rfl, fun p _ hp => by simpa [Event.touches] using hp⟩
  -- the file system after the directory step
  have hstep : ∀ fs1 : Fs, h.stat_fails R = false → fs1.exists_ R = true →
      (∀ x, fs1.resolve (R ++ [x]) = s.fs.resolve (R ++ [x])) →
      ∀ t1 : List Event,
      (∀ e ∈ t1, e.is_flock = false ∧ e.is_backend = false ∧
        ∀ p, p ≠ R → p ≠ R ++ ["lock"] → e.touches p = false) →
      (∀ e ∈ t1 ++ [.stat (R ++ ["lock"])], e.is_flock = false ∧ e.is_backend = false ∧
        ∀ p, p ≠ R → p ≠ R ++ ["lock"] → e.touches p = false) →
      (∀ e ∈ t1 ++ [.stat (R ++ ["lock"]), .ofstream_open (R ++ ["lock"])],
        e.is_flock = false ∧ e.is_backend = false ∧
        ∀ p, p ≠ R → p ≠ R ++ ["lock"] → e.touches p = false) →
      ∀ r, r = (match ensure_lock h (R ++ ["lock"])
            { jit := s.jit, fs := fs1, trace := s.trace ++ t1 } with
          | .ok _ s2 => Res.ok (R, R ++ ["lock"]) s2
          | .throw e s2 => .throw e s2
          | .exit c s2 => .exit c s2) →
      r.state.jit = s.jit ∧
      (∃ evs, r.state.trace = s.trace ++ evs ∧
        ∀ e ∈ evs, e.is_flock = false ∧ e.is_backend = false ∧
          ∀ p, p ≠ R → p ≠ R ++ ["lock"] → e.touches p = false) ∧
      (∀ x, x ≠ "lock" → r.state.fs.resolve (R ++ [x]) = s.fs.resolve (R ++ [x])) ∧
      (∀ c, r.outcome ≠ .exited c) ∧
      (∀ e, r.outcome = .thrown e → e ∈ prologue_errors) ∧
      (∀ v, r.outcome = .returned v →
        v = (R, R ++ ["lock"]) ∧ r.state.fs.is_directory R = true ∧
        h.stat_fails R = false ∧ h.stat_fails (R ++ ["lock"]) = false ∧
        ∀ f, r.state.fs.file (R ++ ["lock"]) = some f →
          s.fs.exists_ (R ++ ["lock"]) = false → f.bytes = []) := by
    intro fs1 hstd hex hres t1 ht1 ht2 ht3 r hr
    rcases ensure_lock_cases h (R ++ ["lock"]) { jit := s.jit, fs := fs1, trace := s.trace ++ t1 }
      with ⟨heq, hst, n, hn⟩ | ⟨heq, hst, hn⟩ | heq
    · rw [heq] at hr
      subst hr
      have hdir : fs1.is_directory R = true :=
        is_directory_of_child fs1 R "lock" hex (by rw [hn]; simp)
      refine ⟨rfl, ⟨t1 ++ [.stat (R ++ ["lock"])], by simp [Res.state], ht2⟩,
        fun x _ => hres x, by simp [Res.outcome], by simp [Res.outcome], ?_⟩
      intro v hv
      simp only [Res.outcome, Outcome.returned.injEq] at hv
      subst hv
      refine ⟨rfl, hdir, hstd, hst, ?_⟩
      intro f _ hno
      have : s.fs.exists_ (R ++ ["lock"]) = true := by
        unfold Fs.exists_
        rw [← hres "lock", hn]
        simp
      rw [this] at hno
      cases hno
    · rw [heq] at hr
      subst hr
      have hdir : fs1.is_directory R = true :=
        is_directory_of_child fs1 R "lock" hex (by rw [hn]; simp)
      have hcr := creatable_child fs1 R "lock" hdir hn
      have htr := truncated_of_missing fs1 _ hn
      refine ⟨rfl, ⟨t1 ++ [.stat (R ++ ["lock"]), .ofstream_open (R ++ ["lock"])],
        by simp [Res.state], ht3⟩, ?_, by simp [Res.outcome], by simp [Res.outcome], ?_⟩
      · intro x hx
        simp only [Res.state, hcr, Bool.and_true]
        split
        · rw [resolve_put_sibling _ _ _ _ _ (Ne.symm hx)]
          exact hres x
        · exact hres x
      · intro v hv
        simp only [Res.outcome, Outcome.returned.injEq] at hv
        subst hv
        simp only [Res.state, hcr, Bool.and_true]
        refine ⟨trivial, ?_, hstd, hst, ?_⟩
        · split
          · rw [is_directory_put_child]; exact hdir
          · exact hdir
        · intro f hf _
          split at hf
          · rw [file_put_self _ _ _ _ hdir, htr] at hf
            cases hf
            rfl
          · rw [file_eq_some, hn] at hf
            cases hf
    · rw [heq] at hr
      subst hr
      refine ⟨rfl, ⟨t1 ++ [.stat (R ++ ["lock"])], by simp [Res.state], ht2⟩,
        fun x _ => hres x, by simp [Res.outcome], ?_, by simp [Res.outcome]⟩
      intro e he
      simp only [Res.outcome, Outcome.thrown.injEq] at he
      subst he
      simp [prologue_errors]
  rcases hd with ⟨heq, hstd, hex⟩ | ⟨heq, hstd, hmiss⟩ | ⟨e0, he0, heq⟩
  · rw [heq]
    exact hstep s.fs hstd hex (fun _ => rfl) (.getenv "HOME" :: evs) hq1 hq2 hq3 _
      (by simp)
  · rw [heq]
    obtain ⟨hmk, hbelow⟩ := mkdirs_spec s.fs R hmiss
    have hdir : (s.fs.mkdirs R).is_directory R = true := (is_directory_iff _ _).mpr hmk
    refine hstep (s.fs.mkdirs R) hstd (exists_of_is_directory _ _ hne hdir) ?_
      (.getenv "HOME" :: evs) hq1 hq2 hq3 _ (by simp)
    intro x
    rw [resolve_child _ _ _ hdir, hbelow _ (List.prefix_append _ _) (dir_ne_append R x).symm,
      resolve_child_of_missing _ _ _ hmiss]
  · rw [heq]
    refine ⟨rfl, ⟨.getenv "HOME" :: evs, by simp [Res.state], hq1⟩, fun _ _ => rfl,
      by simp [Res.outcome], ?_, by simp [Res.outcome]⟩
    intro e he
    simp only [Res.outcome, Outcome.thrown.injEq] at he
    subst he
    exact he0

theorem cache_dir_ne_file (be : Backend) (h : Host) (vm : ebpf_vm) :
    aot_cache_dir h ≠ aot_cache_file be h vm := dir_ne_append _ _

/-- What the part of `compile` before the file lock does, whatever state it starts from. -/
theorem aot_prologue_spec (be : Backend) (h : Host) (vm : ebpf_vm) (s : St) :
    (aot_prologue be h vm s).state.jit = s.jit ∧
    (∃ evs, (aot_prologue be h vm s).state.trace = s.trace ++ evs ∧
      ∀ e ∈ evs, e.is_flock = false ∧ e.is_backend = false ∧
        e.touches (aot_cache_file be h vm) = false) ∧
    (aot_prologue be h vm s).state.fs.resolve (aot_cache_file be h vm)
      = s.fs.resolve (aot_cache_file be h vm) ∧
    (∀ c, (aot_prologue be h vm s).outcome ≠ .exited c) ∧
    (∀ e, (aot_prologue be h vm s).outcome = .thrown e → e ∈ prologue_errors) ∧
    (∀ v, (aot_prologue be h vm s).outcome = .returned v →
      v = (aot_cache_dir h, aot_cache_lock h, get_hash_hex_string (hash256 be (raw_insns vm))) ∧
      (aot_prologue be h vm s).state.fs.is_directory (aot_cache_dir h) = true ∧
      h.stat_fails (aot_cache_dir h) = false ∧
      h.stat_fails (aot_cache_lock h) = false ∧
      h.file_lock_ok (aot_cache_lock h) = true ∧
      ∃ f, (aot_prologue be h vm s).state.fs.file (aot_cache_lock h) = some f ∧
        (s.fs.exists_ (aot_cache_lock h) = false → f.bytes = [])) := by
  have hne1 := (cache_dir_ne_file be h vm).symm
  have hne2 := cache_lock_ne_file be h vm
  obtain ⟨hj, ⟨evs, htr, hev⟩, hentry, hnoexit, hthrown, hret⟩ :=
    ensure_spec h { s with trace := s.trace ++ [.hash (raw_insns vm)] }
  have hentry2 := hentry (get_hash_hex_string (hash256 be (raw_insns vm))) (hex_ne_lock _)
  generalize hr : aot_prologue be h vm s = r
  simp only [aot_prologue, hash_ebpf_program, file_lock_open, log, get_fs, throw_, bind_apply,
    pure_apply, ite_apply_M] at hr
  cases he : ensure_aot_cache_dir_and_cache_file h
      { s with trace := s.trace ++ [.hash (raw_insns vm)] } with
  | exit c s1 => simp [he, Res.outcome] at hnoexit
  | throw e s1 =>
    simp only [he, Res.state, Res.outcome] at hr hj htr hentry2 hthrown
    subst hr
    refine ⟨hj, ⟨.hash (raw_insns vm) :: evs, by simp [Res.state, htr], ?_⟩, hentry2,
      by simp [Res.outcome], ?_, by simp [Res.outcome]⟩
    · intro e he2
      rcases List.mem_cons.mp he2 with rfl | he2
      · simp [Event.is_flock, Event.is_backend, Event.touches]
      · exact ⟨(hev e he2).1, (hev e he2).2.1, (hev e he2).2.2 _ hne1 hne2⟩
    · intro e2 he2
      simp only [Res.outcome, Outcome.thrown.injEq] at he2
      subst he2
      exact hthrown e rfl
  | ok v s1 =>
    simp only [he, Res.state, Res.outcome] at hr hj htr hentry2 hret
    obtain ⟨hv, hdir, hstd, hstat, hbytes⟩ := hret v rfl
    subst hv
    simp only at hr
    by_cases hl0 : ((s1.fs.file (aot_cache_lock h)).isSome &&
        h.file_lock_ok (aot_cache_lock h)) = true
    · simp only [hl0, if_true] at hr
      subst hr
      have hl := (Bool.and_eq_true _ _).mp hl0
      obtain ⟨f, hf⟩ := Option.isSome_iff_exists.mp hl.1
      refine ⟨hj, ⟨.hash (raw_insns vm) :: (evs ++ [.file_lock_open (aot_cache_lock h)]),
        by simp [Res.state, htr], ?_⟩, hentry2, by simp [Res.outcome], by simp [Res.outcome],
        ?_⟩
      · intro e he2
        rcases List.mem_cons.mp he2 with rfl | he2
        · simp [Event.is_flock, Event.is_backend, Event.touches]
        · rcases List.mem_append.mp he2 with he2 | he2
          · exact ⟨(hev e he2).1, (hev e he2).2.1, (hev e he2).2.2 _ hne1 hne2⟩
          · rw [List.mem_singleton] at he2
            subst he2
            simp [Event.is_flock, Event.is_backend, Event.touches]
      · intro v hv
        simp only [Res.outcome, Outcome.returned.injEq] at hv
        subst hv
        exact ⟨rfl, hdir, hstd, hstat, hl.2, f, hf, hbytes f hf⟩
    · simp only [hl0, Bool.false_eq_true, if_false] at hr
      subst hr
      refine ⟨hj, ⟨.hash (raw_insns vm) :: (evs ++ [.file_lock_open (aot_cache_lock h)]),
        by simp [Res.state, htr], ?_⟩, hentry2, by simp [Res.outcome], ?_,
        by simp [Res.outcome]⟩
      · intro e he2
        rcases List.mem_cons.mp he2 with rfl | he2
        · simp [Event.is_flock, Event.is_backend, Event.touches]
        · rcases List.mem_append.mp he2 with he2 | he2
          · exact ⟨(hev e he2).1, (hev e he2).2.1, (hev e he2).2.2 _ hne1 hne2⟩
          · rw [List.mem_singleton] at he2
            subst he2
            simp [Event.is_flock, Event.is_backend, Event.touches]
      · intro e2 he2
        simp only [Res.outcome, Outcome.thrown.injEq] at he2
        subst he2
        simp [prologue_errors]

/-- When the lock file is there, the status of the cache root and of the lock file can be
determined and the lock file can be opened, the part of `compile` before the file lock changes
nothing. -/
theorem aot_prologue_ready (be : Backend) (h : Host) (vm : ebpf_vm) (st : St) (lf : File)
    (hstd : h.stat_fails (aot_cache_dir h) = false)
    (hstat : h.stat_fails (aot_cache_lock h) = false)
    (hlf : st.fs.file (aot_cache_lock h) = some lf)
    (hok : h.file_lock_ok (aot_cache_lock h) = true) :
    aot_prologue be h vm st = .ok
      (aot_cache_dir h, aot_cache_lock h, get_hash_hex_string (hash256 be (raw_insns vm)))
      { st with
        trace := st.trace ++
          [.hash (raw_insns vm), .getenv "HOME", .fs_exists (aot_cache_dir h),
            .stat (aot_cache_lock h), .file_lock_open (aot_cache_lock h)] } := by
  unfold aot_cache_lock at *
  have hex := exists_of_file _ _ _ hlf
  have hdir := parent_of_exists _ _ _ hex
  have hexd := exists_of_is_directory _ _ (cache_dir_not_empty h) hdir
  have hres := (file_eq_some _ _ _).mp hlf
  simp [aot_prologue, hash_ebpf_program, file_lock_open, ensure_aot_cache_dir_and_cache_file,
    ensure_dir, ensure_lock, fs_exists, getenv, log, get_fs, ite_apply_M, Fs.stat, hexd, hstd,
    hstat, hlf, hok, hres]

/-! ### The structure of `compile` -/

theorem compile_eq (b : Build) (be : Backend) (h : Host) (vm : ebpf_vm) (s : St) :
    compile b be h vm s =
      finish be (compile_once b be h vm { s with trace := s.trace ++ [.spin_lock] }) := by
  unfold compile raii finish
  simp only [mbind_apply]
  cases compile_once b be h vm { s with trace := s.trace ++ [.spin_lock] } <;> rfl

theorem compile_once_compiled (b : Build) (be : Backend) (h : Host) (vm : ebpf_vm) (s : St)
    (j : LLJIT) (hj : s.jit = some j) : compile_once b be h vm s = .ok () s := by
  simp [compile_once, get_jit, hj]

theorem compile_once_jit (b : Build) (be : Backend) (h : Host) (vm : ebpf_vm) (s : St)
    (hj : s.jit = none) (ha : h.BPFTIME_ENABLE_AOT = none) :
    compile_once b be h vm s =
      do_jit_compile b be vm { s with trace := s.trace ++ [.getenv "BPFTIME_ENABLE_AOT"] } := by
  simp [compile_once, get_jit, hj, getenv, log, ha]

theorem compile_once_aot (b : Build) (be : Backend) (h : Host) (vm : ebpf_vm) (s : St)
    (hj : s.jit = none) (ha : h.BPFTIME_ENABLE_AOT.isSome = true) :
    compile_once b be h vm s =
      compile_aot b be h vm { s with trace := s.trace ++ [.getenv "BPFTIME_ENABLE_AOT"] } := by
  simp [compile_once, get_jit, hj, getenv, log, ha]

theorem compile_aot_cases (b : Build) (be : Backend) (h : Host) (vm : ebpf_vm) (s : St) :
    ∃ pre sp, AfterPrologue be h vm s sp pre ∧
      ((∃ e, e ∈ prologue_errors ∧
          (h.stat_fails (aot_cache_dir h) = false →
            h.stat_fails (aot_cache_lock h) = false →
            h.file_lock_ok (aot_cache_lock h) = true →
            h.flock_ok (aot_cache_lock h) = true →
            (s.fs.file (aot_cache_lock h)).isSome = true → False) ∧
          compile_aot b be h vm s = .throw e sp) ∨
       (LockReady h s sp ∧ h.flock_ok (aot_cache_lock h) = true ∧
        compile_aot b be h vm s =
          (aot_locked b be h vm (aot_cache_dir h) (get_hash_hex_string (hash256 be (raw_insns vm)))
            { sp with trace := sp.trace ++ [.flock_lock (aot_cache_lock h)] }).released
            (.flock_unlock (aot_cache_lock h)))) := by
  obtain ⟨hj, ⟨pre, htr, hq⟩, hentry, hnoexit, hthrown, hret⟩ := aot_prologue_spec be h vm s
  cases hp : aot_prologue be h vm s with
  | exit c sp => simp [hp, Res.outcome] at hnoexit
  | throw e sp =>
    simp only [hp, Res.state, Res.outcome] at hj htr hentry hthrown
    refine ⟨pre, sp, ⟨hj, htr, hq, hentry⟩,
      Or.inl ⟨e, hthrown e rfl, ?_, by simp [compile_aot, hp]⟩⟩
    intro hstd hstat hlk _ hsome
    obtain ⟨lf, hlf⟩ := Option.isSome_iff_exists.mp hsome
    rw [aot_prologue_ready be h vm s lf hstd hstat hlf hlk] at hp
    cases hp
  | ok v sp =>
    simp only [hp, Res.state, Res.outcome] at hj htr hentry hret
    obtain ⟨hv, hdir, hstd, hstat, hlk, hlock⟩ := hret v rfl
    subst hv
    by_cases hfl : h.flock_ok (aot_cache_lock h) = true
    · exact ⟨pre, sp, ⟨hj, htr, hq, hentry⟩, Or.inr ⟨⟨hdir, hstd, hstat, hlk, hlock⟩, hfl,
        by simp [compile_aot, hp, scoped_lock, hfl, raii]⟩⟩
    · refine ⟨pre ++ [.flock_lock_failed (aot_cache_lock h)],
        { sp with trace := sp.trace ++ [.flock_lock_failed (aot_cache_lock h)] },
        ⟨hj, by simp [htr], ?_, hentry⟩,
        Or.inl ⟨.interprocess_exception, by simp [prologue_errors], ?_, ?_⟩⟩
      · intro e he
        rcases List.mem_append.mp he with he | he
        · exact hq e he
        · rw [List.mem_singleton] at he
          subst he
          simp [Event.is_flock, Event.is_backend, Event.touches]
      · intro _ _ _ hfl2 _
        exact hfl hfl2
      · simp [compile_aot, hp, scoped_lock, hfl, log, throw_]

theorem exists_child_eq (fs : Fs) (d : Path) (x : String) :
    fs.exists_ (d ++ [x]) =
      match fs.resolve (d ++ [x]) with
      | .found _ => true
      | _ => false := by
  unfold Fs.exists_
  simp

theorem aot_locked_cases (b : Build) (be : Backend) (h : Host) (vm : ebpf_vm) (sx : St) :
    (h.stat_fails (aot_cache_file be h vm) = true ∧
      aot_locked b be h vm (aot_cache_dir h) (get_hash_hex_string (hash256 be (raw_insns vm))) sx
        = .throw .filesystem_error
            { sx with trace := sx.trace ++ [.fs_exists (aot_cache_file be h vm)] }) ∨
    h.stat_fails (aot_cache_file be h vm) = false ∧
    ((∃ f, sx.fs.exists_ (aot_cache_file be h vm) = true ∧
      sx.fs.file (aot_cache_file be h vm) = some f ∧ f.openable = true ∧
      (∀ k, f.read_fault = some k → f.bytes.length ≤ k) ∧
      aot_locked b be h vm (aot_cache_dir h) (get_hash_hex_string (hash256 be (raw_insns vm))) sx
        = load_aot_object b be vm f.bytes
            { sx with
              trace := sx.trace ++
                [.fs_exists (aot_cache_file be h vm), .ifstream_open (aot_cache_file be h vm),
                  .ifstream_read (aot_cache_file be h vm) f.bytes.length] }) ∨
    (sx.fs.exists_ (aot_cache_file be h vm) = true ∧
      sx.fs.is_directory (aot_cache_file be h vm) = true ∧
      aot_locked b be h vm (aot_cache_dir h) (get_hash_hex_string (hash256 be (raw_insns vm))) sx
        = .throw .bad_alloc
            { sx with
              trace := sx.trace ++
                [.fs_exists (aot_cache_file be h vm), .ifstream_open (aot_cache_file be h vm)] }) ∨
    (sx.fs.exists_ (aot_cache_file be h vm) = true ∧
      sx.fs.load_fails (aot_cache_file be h vm) ∧
      ∃ levs, (∀ e ∈ levs, e = .ifstream_open (aot_cache_file be h vm) ∨
          ∃ n, e = .ifstream_read (aot_cache_file be h vm) n) ∧
        aot_locked b be h vm (aot_cache_dir h) (get_hash_hex_string (hash256 be (raw_insns vm))) sx
          = do_jit_compile b be vm
              { sx with
                trace := sx.trace ++ Event.fs_exists (aot_cache_file be h vm) :: levs }) ∨
    (sx.fs.exists_ (aot_cache_file be h vm) = false ∧
      ∃ aevs e, aevs <+: aot_compile_events b vm ∧ e ∈ aot_compile_errors ∧
        (∀ s', do_aot_compile b be vm s' = .throw e { s' with trace := s'.trace ++ aevs }) ∧
        aot_locked b be h vm (aot_cache_dir h) (get_hash_hex_string (hash256 be (raw_insns vm))) sx
          = .throw e
              { sx with
                trace := sx.trace ++ Event.fs_exists (aot_cache_file be h vm) :: aevs }) ∨
    (sx.fs.exists_ (aot_cache_file be h vm) = false ∧
      ∃ obj, (∀ s', do_aot_compile b be vm s'
          = .ok obj { s' with trace := s'.trace ++ aot_compile_events b vm }) ∧
        ∃ jevs, jevs <+: jit_compile_events b vm ∧
          (((∀ s', do_jit_compile b be vm s'
                = .exit 1 { s' with trace := s'.trace ++ jevs }) ∧
            aot_locked b be h vm (aot_cache_dir h)
                (get_hash_hex_string (hash256 be (raw_insns vm))) sx
              = .exit 1 { sx with
                  fs := sx.fs.after_unflushed_write h (aot_cache_file be h vm) obj,
                  trace := sx.trace ++ .fs_exists (aot_cache_file be h vm) ::
                    (aot_compile_events b vm ++ write_events (aot_cache_file be h vm) obj ++
                      jevs) }) ∨
           (∃ m, be.generateModule vm (bind_ext_funcs vm).2 (bind_lddw_helpers b vm).2 = .ok m ∧
            (∀ s', do_jit_compile b be vm s' = .ok ()
              { s' with jit := some (module_jit b be vm m),
                        trace := s'.trace ++ jit_compile_events b vm }) ∧
            aot_locked b be h vm (aot_cache_dir h)
                (get_hash_hex_string (hash256 be (raw_insns vm))) sx
              = .ok () { sx with
                  jit := some (module_jit b be vm m),
                  fs := sx.fs.after_write h (aot_cache_file be h vm) obj,
                  trace := sx.trace ++ .fs_exists (aot_cache_file be h vm) ::
                    (aot_compile_events b vm ++ write_events (aot_cache_file be h vm) obj ++
                      jit_compile_events b vm) })))) := by
  unfold aot_cache_file
  generalize hcf : aot_cache_dir h ++ [get_hash_hex_string (hash256 be (raw_insns vm))] = cf
  by_cases hst : h.stat_fails cf = true
  · refine Or.inl ⟨hst, ?_⟩
    simp [aot_locked, fs_exists, log, get_fs, throw_, hcf, hst]
  have hst2 : h.stat_fails cf = false := by simpa using hst
  refine Or.inr ⟨hst2, ?_⟩
  have hxe : sx.fs.exists_ cf = match sx.fs.resolve cf with
      | .found _ => true
      | _ => false := by
    rw [← hcf]; exact exists_child_eq _ _ _
  have hmiss : sx.fs.exists_ cf = false →
      (sx.fs.exists_ cf = false ∧
        ∃ aevs e, aevs <+: aot_compile_events b vm ∧ e ∈ aot_compile_errors ∧
          (∀ s', do_aot_compile b be vm s' = .throw e { s' with trace := s'.trace ++ aevs }) ∧
          aot_locked b be h vm (aot_cache_dir h)
              (get_hash_hex_string (hash256 be (raw_insns vm))) sx
            = .throw e { sx with trace := sx.trace ++ Event.fs_exists cf :: aevs }) ∨
      (sx.fs.exists_ cf = false ∧
        ∃ obj, (∀ s', do_aot_compile b be vm s'
            = .ok obj { s' with trace := s'.trace ++ aot_compile_events b vm }) ∧
          ∃ jevs, jevs <+: jit_compile_events b vm ∧
            (((∀ s', do_jit_compile b be vm s'
                  = .exit 1 { s' with trace := s'.trace ++ jevs }) ∧
              aot_locked b be h vm (aot_cache_dir h)
                  (get_hash_hex_string (hash256 be (raw_insns vm))) sx
                = .exit 1 { sx with
                    fs := sx.fs.after_unflushed_write h cf obj,
                    trace := sx.trace ++ .fs_exists cf ::
                      (aot_compile_events b vm ++ write_events cf obj ++ jevs) }) ∨
             (∃ m, be.generateModule vm (bind_ext_funcs vm).2 (bind_lddw_helpers b vm).2
                = .ok m ∧
              (∀ s', do_jit_compile b be vm s' = .ok ()
                { s' with jit := some (module_jit b be vm m),
                          trace := s'.trace ++ jit_compile_events b vm }) ∧
              aot_locked b be h vm (aot_cache_dir h)
                  (get_hash_hex_string (hash256 be (raw_insns vm))) sx
                = .ok () { sx with
                    jit := some (module_jit b be vm m),
                    fs := sx.fs.after_write h cf obj,
                    trace := sx.trace ++ .fs_exists cf ::
                      (aot_compile_events b vm ++ write_events cf obj ++
                        jit_compile_events b vm) }))) := by
    intro hx2
    obtain ⟨aevs, hpre, hc⟩ := do_aot_compile_shape b be vm
    rcases hc with ⟨e, he, hc⟩ | ⟨hfull, obj, hc⟩
    · refine Or.inl ⟨hx2, aevs, e, hpre, he, hc, ?_⟩
      simp [aot_locked, fs_exists, log, get_fs, hcf, hx2, hc, hst2]
    · subst hfull
      refine Or.inr ⟨hx2, obj, hc, ?_⟩
      obtain ⟨jevs, hjpre, hshape⟩ := do_jit_compile_shape b be vm
      refine ⟨jevs, hjpre, ?_⟩
      rcases hshape with hs | ⟨hjevs, m, hgen, hs⟩
      · refine Or.inl ⟨hs, ?_⟩
        simp only [aot_locked, fs_exists, log, get_fs, hcf, bind_apply, hx2, hc, hst2,
          Bool.false_eq_true, if_false, ofstream_eq, pure_apply]
        unfold Fs.after_unflushed_write write_events
        by_cases hw : (h.ofstream_ok cf && sx.fs.creatable cf) = true
        · simp [hw, ofstream_write, until_close, hs, log, get_fs, set_fs, put_put]
        · simp [hw, ofstream_write, until_close, hs, log]
      · subst hjevs
        refine Or.inr ⟨m, hgen, hs, ?_⟩
        simp only [aot_locked, fs_exists, log, get_fs, hcf, bind_apply, hx2, hc, hst2,
          Bool.false_eq_true, if_false, ofstream_eq, pure_apply]
        unfold Fs.after_write write_events
        by_cases hw : (h.ofstream_ok cf && sx.fs.creatable cf) = true
        · simp [hw, ofstream_write, until_close, ofstream_close, hs, log, get_fs, set_fs,
            put_put]
        · simp [hw, ofstream_write, until_close, ofstream_close, hs, log]
  cases hres : sx.fs.resolve cf with
  | ENOENT =>
    have hx2 : sx.fs.exists_ cf = false := by rw [hxe, hres]
    exact Or.inr (Or.inr (Or.inr (hmiss hx2)))
  | ENOTDIR =>
    have hx2 : sx.fs.exists_ cf = false := by rw [hxe, hres]
    exact Or.inr (Or.inr (Or.inr (hmiss hx2)))
  | found n =>
    have hx : sx.fs.exists_ cf = true := by rw [hxe, hres]
    cases n with
    | dir =>
      refine Or.inr (Or.inl ⟨hx, (is_directory_iff _ _).mpr hres, ?_⟩)
      simp [aot_locked, fs_exists, load_aot_cache, log, get_fs, hcf, hx, hres, throw_, hst2]
    | file f =>
      have hf : sx.fs.file cf = some f := (file_eq_some _ _ _).mpr hres
      by_cases ho : f.openable = true
      · cases hr : f.read_fault with
        | none =>
          refine Or.inl ⟨f, hx, hf, ho, by simp [hr], ?_⟩
          simp [aot_locked, fs_exists, load_aot_cache, log, get_fs, hcf, hx, hres, ho, hr,
            hst2, ite_apply_M]
        | some k =>
          by_cases hk : k < f.bytes.length
          · refine Or.inr (Or.inr (Or.inl ⟨hx, ⟨f, hf, Or.inr ⟨k, hr, hk⟩⟩,
              [.ifstream_open cf, .ifstream_read cf f.bytes.length], by simp, ?_⟩))
            simp [aot_locked, fs_exists, load_aot_cache, log, get_fs, hcf, hx, hres, ho, hr, hk,
              hst2, ite_apply_M]
          · refine Or.inl ⟨f, hx, hf, ho, by simp [hr]; omega, ?_⟩
            simp [aot_locked, fs_exists, load_aot_cache, log, get_fs, hcf, hx, hres, ho, hr, hk,
              hst2, ite_apply_M]
      · refine Or.inr (Or.inr (Or.inl ⟨hx, ⟨f, hf, Or.inl (by simpa using ho)⟩,
          [.ifstream_open cf], by simp, ?_⟩))
        simp [aot_locked, fs_exists, load_aot_cache, log, get_fs, hcf, hx, hres, ho, hst2,
          ite_apply_M]

theorem get_entry_address_mk (be : Backend) (j : LLJIT) (fs : Fs) (t : List Event) :
    get_entry_address be { jit := some j, fs := fs, trace := t } =
      match be.lookup j "bpf_main" with
      | none => .throw (.runtime_error "Unable to link symbol `bpf_main`")
          { jit := some j, fs := fs, trace := t ++ [.lookup "bpf_main"] }
      | some addr => .ok addr { jit := some j, fs := fs, trace := t ++ [.lookup "bpf_main"] } :=
  get_entry_address_some be _ j rfl

theorem compile_aot_run (b : Build) (be : Backend) (h : Host) (vm : ebpf_vm) (s : St)
    (hj : s.jit = none) (ha : h.BPFTIME_ENABLE_AOT.isSome = true) :
    AotRun b be h vm s (compile b be h vm s) := by
  rw [compile_eq, compile_once_aot b be h vm { s with trace := s.trace ++ [.spin_lock] } hj ha]
  obtain ⟨pre, sp, hap, hcase⟩ := compile_aot_cases b be h vm
    { s with trace := s.trace ++ [.spin_lock] ++ [.getenv "BPFTIME_ENABLE_AOT"] }
  obtain ⟨jp, fsp, tp⟩ := sp
  have hjp : jp = none := by have := hap.jit; simpa [hj] using this
  have htp : tp = s.trace ++ [.spin_lock] ++ [.getenv "BPFTIME_ENABLE_AOT"] ++ pre := hap.trace
  subst hjp htp
  have hpro : PrologueEffect be h vm s.fs fsp pre := ⟨hap.quiet, hap.entry⟩
  rcases hcase with ⟨e, he, hnot, heq⟩ | ⟨hlr, hfl, heq⟩
  · rw [heq]
    have := AotRun.prologue_throws (b := b) (s := s) e pre fsp hpro he hnot
    simpa [finish, Res.released, aot_head] using this
  · have hready : CacheRootReady h s.fs fsp :=
      ⟨hlr.dir, hlr.status_ok, hlr.stat_ok, hlr.lock_ok, hfl, hlr.lock⟩
    rw [heq]
    rcases aot_locked_cases b be h vm
      { jit := none, fs := fsp,
        trace := s.trace ++ [.spin_lock] ++ [.getenv "BPFTIME_ENABLE_AOT"] ++ pre ++
          [.flock_lock (aot_cache_lock h)] } with
      ⟨hst, hl⟩ | ⟨hst, ⟨f, hx, hf, ho, hk, hl⟩ | ⟨hx, hisdir, hl⟩ |
        ⟨hx, hfail, levs, hlevs, hl⟩ | ⟨hx, aevs, e, hpre, he, haot, hl⟩ |
        ⟨hx, obj, haot, jevs, hpre, ⟨hs, hl⟩ | ⟨m, hgen, hs, hl⟩⟩⟩
    · rw [hl]
      have := AotRun.exists_throws (b := b) (s := s) pre fsp hpro hready hst
      simpa [finish, Res.released, aot_head] using this
    · rw [hl]
      obtain ⟨oevs, _, hshape⟩ := load_aot_object_shape b be vm f.bytes
      rcases hshape with ⟨hpre, hcr, hs⟩ | ⟨hrej, hoevs, hs⟩ | ⟨hoevs, hacc, hlook, hs⟩ |
        ⟨hoevs, hacc, hlook, hs⟩
      · rw [hs _ rfl]
        have := AotRun.load_exits (b := b) (s := s) pre fsp f oevs hpro hready hst hx ⟨hf, ho, hk⟩
          hpre hcr
        simpa [finish, Res.released, aot_head, load_events] using this
      · rw [hs _ rfl, hoevs]
        have := AotRun.load_rejected (b := b) (s := s) pre fsp f
          hpro hready hst hx ⟨hf, ho, hk⟩ hrej
        simpa [finish, Res.released, aot_head, load_events] using this
      · rw [hs _ rfl, hoevs]
        have := AotRun.load_unlinked (b := b) (s := s) pre fsp f hpro hready hst hx ⟨hf, ho, hk⟩
          hacc hlook
        simpa [finish, Res.released, aot_head, load_events] using this
      · rw [hs _ rfl, hoevs]
        obtain ⟨a, ha2⟩ := Option.isSome_iff_exists.mp hlook
        have := AotRun.load_returns (b := b) (s := s) pre fsp f a hpro hready hst hx ⟨hf, ho, hk⟩
          hacc ha2
        simpa [finish, Res.released, aot_head, load_events,
          get_entry_address_mk, ha2] using this
    · rw [hl]
      have := AotRun.load_throws (b := b) (s := s) pre fsp hpro hready hst hx hisdir
      simpa [finish, Res.released, aot_head] using this
    · rw [hl]
      obtain ⟨jevs, hpre, hshape⟩ := do_jit_compile_shape b be vm
      rcases hshape with hs | ⟨hjevs, m, hgen, hs⟩
      · rw [hs]
        have := AotRun.fallback_exits (b := b) (s := s) pre fsp levs jevs hpro hready hst hx hfail
          hlevs hpre hs
        simpa [finish, Res.released, aot_head] using this
      · subst hjevs
        rw [hs]
        cases hlook : be.lookup (module_jit b be vm m) "bpf_main" with
        | none =>
          have := AotRun.fallback_unlinked (b := b) (s := s) pre fsp levs m hpro hready hst hx
            hfail hlevs hgen hs hlook
          simpa [finish, Res.released, aot_head,
            get_entry_address_mk, hlook] using this
        | some a =>
          have := AotRun.fallback_returns (b := b) (s := s) pre fsp levs m a hpro hready hst hx
            hfail hlevs hgen hs hlook
          simpa [finish, Res.released, aot_head,
            get_entry_address_mk, hlook] using this
    · rw [hl]
      have := AotRun.miss_throws (b := b) (s := s) pre fsp aevs e hpro hready hst hx hpre he haot
      simpa [finish, Res.released, aot_head] using this
    · rw [hl]
      have := AotRun.miss_exits (b := b) (s := s) pre fsp obj jevs hpro hready hst hx haot hpre hs
      simpa [finish, Res.released, aot_head] using this
    · rw [hl]
      cases hlook : be.lookup (module_jit b be vm m) "bpf_main" with
      | none =>
        have := AotRun.miss_unlinked (b := b) (s := s) pre fsp obj m hpro hready hst hx haot hgen
          hs hlook
        simpa [finish, Res.released, aot_head,
          get_entry_address_mk, hlook] using this
      | some a =>
        have := AotRun.miss_returns (b := b) (s := s) pre fsp obj m a hpro hready hst hx haot hgen
          hs hlook
        simpa [finish, Res.released, aot_head,
          get_entry_address_mk, hlook] using this

theorem compile_jit_run (b : Build) (be : Backend) (h : Host) (vm : ebpf_vm) (s : St)
    (hj : s.jit = none) (ha : h.BPFTIME_ENABLE_AOT = none) :
    JitRun b be vm s (compile b be h vm s) := by
  rw [compile_eq, compile_once_jit b be h vm { s with trace := s.trace ++ [.spin_lock] } hj ha]
  obtain ⟨jevs, hpre, hshape⟩ := do_jit_compile_shape b be vm
  rcases hshape with hs | ⟨hjevs, m, hgen, hs⟩
  · rw [hs]
    have := JitRun.exits (s := s) jevs hpre hs
    simpa [finish, Res.released, aot_head, hj] using this
  · subst hjevs
    rw [hs]
    cases hlook : be.lookup (module_jit b be vm m) "bpf_main" with
    | none =>
      have := JitRun.unlinked (s := s) m hgen hs hlook
      simpa [finish, Res.released, aot_head,
        get_entry_address_mk, hlook] using this
    | some a =>
      have := JitRun.returns (s := s) m a hgen hs hlook
      simpa [finish, Res.released, aot_head,
        get_entry_address_mk, hlook] using this

theorem finish_ok (be : Backend) (r : Res Unit) (a : Nat) (s1 : St)
    (h : finish be r = .ok a s1) :
    ∃ s2 j, r = .ok () s2 ∧ s2.jit = some j ∧ be.lookup j "bpf_main" = some a ∧
      s1 = { s2 with trace := s2.trace ++ [.lookup "bpf_main", .spin_unlock] } := by
  unfold finish at h
  cases r with
  | throw e s2 => simp [Res.released] at h
  | exit c s2 => simp [Res.released] at h
  | ok u s2 =>
    cases hj : s2.jit with
    | none => simp [get_entry_address_none be s2 hj, Res.released] at h
    | some j =>
      simp only [get_entry_address_some be s2 j hj] at h
      cases hl : be.lookup j "bpf_main" with
      | none => simp [hl, Res.released] at h
      | some a2 =>
        simp only [hl, Res.released, Res.ok.injEq] at h
        refine ⟨s2, j, rfl, hj, ?_, ?_⟩
        · rw [← h.1]; exact hl
        · rw [← h.2]; simp

/-- C1. Idempotence of `compile`: after a call that returned an entry address, a second call
(whatever the environment says about `BPFTIME_ENABLE_AOT`) returns the same address, leaves
the engine slot and the file system as they are, and does nothing but take the spin lock, look
`bpf_main` up and release the spin lock: no translation, no code generation, no engine
creation, no cache I/O. -/
theorem compile_idempotent (b : Build) (be : Backend) (h h2 : Host) (vm : ebpf_vm)
    (s s1 : St) (a : Nat) (hfirst : compile b be h vm s = .ok a s1) :
    compile b be h2 vm s1
      = .ok a { s1 with trace := s1.trace ++ [.spin_lock, .lookup "bpf_main", .spin_unlock] } ∧
    (compile b be h2 vm s1).state.jit = s1.jit ∧
    (compile b be h2 vm s1).state.fs = s1.fs ∧
    new_events s1 (compile b be h2 vm s1) = [.spin_lock, .lookup "bpf_main", .spin_unlock] := by
  rw [compile_eq] at hfirst
  obtain ⟨s2, j, _, hj, hl, hs1⟩ := finish_ok be _ a s1 hfirst
  have hj1 : s1.jit = some j := by rw [hs1]; exact hj
  have key : compile b be h2 vm s1
      = .ok a { s1 with trace := s1.trace ++ [.spin_lock, .lookup "bpf_main", .spin_unlock] } := by
    rw [compile_eq, compile_once_compiled b be h2 vm _ j (by exact hj1)]
    rw [finish, get_entry_address_some be _ j (by exact hj1)]
    simp [hl, Res.released]
  refine ⟨key, ?_, ?_, ?_⟩ <;> simp [key, Res.state, new_events]

/-! ### Reading the trace of a run -/

@[simp] theorem new_events_ok {α : Type} (s : St) (a : α) (j : Option LLJIT) (fs : Fs)
    (evs : List Event) :
    new_events s (Res.ok a { jit := j, fs := fs, trace := s.trace ++ evs }) = evs := by
  simp [new_events, Res.state]

@[simp] theorem new_events_throw {α : Type} (s : St) (e : Exn) (j : Option LLJIT) (fs : Fs)
    (evs : List Event) :
    new_events s (Res.throw e { jit := j, fs := fs, trace := s.trace ++ evs } : Res α) = evs := by
  simp [new_events, Res.state]

@[simp] theorem new_events_exit {α : Type} (s : St) (c : Nat) (j : Option LLJIT) (fs : Fs)
    (evs : List Event) :
    new_events s (Res.exit c { jit := j, fs := fs, trace := s.trace ++ evs } : Res α) = evs := by
  simp [new_events, Res.state]

theorem mem_create_events (b : Build) (vm : ebpf_vm) (e : Event) (evs : List Event)
    (hp : evs <+: create_events b vm) (he : e ∈ evs) :
    e = .lljit_create ∨ ∃ m, e = .define m := by
  have := hp.subset he
  simp only [create_events, List.mem_cons, List.mem_singleton, List.not_mem_nil, or_false] at this
  rcases this with h | h | h
  · exact Or.inl h
  · exact Or.inr ⟨_, h⟩
  · exact Or.inr ⟨_, h⟩

theorem mem_jit_compile_events (b : Build) (vm : ebpf_vm) (e : Event) (evs : List Event)
    (hp : evs <+: jit_compile_events b vm) (he : e ∈ evs) :
    e = .lljit_create ∨ (∃ m, e = .define m) ∨
      e = .generateModule (bind_ext_funcs vm).2 (bind_lddw_helpers b vm).2 ∨
      e = .optimizeModule ∨ e = .addIRModule := by
  have := hp.subset he
  simp only [jit_compile_events, create_events, List.mem_cons, List.mem_singleton,
    List.not_mem_nil, or_false, List.mem_append] at this
  rcases this with (h | h | h) | h | h | h
  · exact Or.inl h
  · exact Or.inr (Or.inl ⟨_, h⟩)
  · exact Or.inr (Or.inl ⟨_, h⟩)
  · exact Or.inr (Or.inr (Or.inl h))
  · exact Or.inr (Or.inr (Or.inr (Or.inl h)))
  · exact Or.inr (Or.inr (Or.inr (Or.inr h)))

theorem mem_aot_compile_events (b : Build) (vm : ebpf_vm) (e : Event) (evs : List Event)
    (hp : evs <+: aot_compile_events b vm) (he : e ∈ evs) :
    e = .generateModule (aot_ext_names vm) (aot_lddw_names b vm) ∨ e = .optimizeModule ∨
      e = .lookupTarget ∨ e = .createTargetMachine ∨ e = .addPassesToEmitFile ∨ e = .emit := by
  have := hp.subset he
  simpa [aot_compile_events] using this

theorem mem_write_events (p : Path) (bytes : List Nat) (e : Event)
    (he : e ∈ write_events p bytes) : e = .ofstream_open p ∨ e = .ofstream_write p bytes := by
  simpa [write_events] using he

theorem not_mem_pre {be : Backend} {h : Host} {vm : ebpf_vm} {fs fsp : Fs} {pre : List Event}
    (hpro : PrologueEffect be h vm fs fsp pre) (e : Event) (hb : e.is_backend = true) :
    e ∉ pre := by
  intro he
  have := (hpro.quiet e he).2.1
  rw [hb] at this
  exact absurd this (by decide)

theorem not_mem_levs {p : Path} {levs : List Event}
    (hlevs : ∀ e ∈ levs, e = .ifstream_open p ∨ ∃ n, e = .ifstream_read p n)
    (e : Event) (hb : e.is_backend = true) : e ∉ levs := by
  intro he
  rcases hlevs e he with h1 | ⟨n, h1⟩ <;> subst h1 <;> simp [Event.is_backend] at hb

theorem not_mem_write (p : Path) (bytes : List Nat) (e : Event)
    (hb : e.is_backend = true) : e ∉ write_events p bytes := by
  intro he
  rcases mem_write_events p bytes e he with h1 | h1 <;> subst h1 <;>
    simp [Event.is_backend] at hb

theorem addObjectFile_not_mem_jit {b : Build} {vm : ebpf_vm} {evs : List Event}
    (hp : evs <+: jit_compile_events b vm) (buf : List Nat) : Event.addObjectFile buf ∉ evs := by
  intro he
  have := mem_jit_compile_events b vm _ evs hp he
  simp at this

theorem addObjectFile_not_mem_aot {b : Build} {vm : ebpf_vm} {evs : List Event}
    (hp : evs <+: aot_compile_events b vm) (buf : List Nat) : Event.addObjectFile buf ∉ evs := by
  intro he
  have := mem_aot_compile_events b vm _ evs hp he
  simp at this

theorem addObjectFile_not_mem_write (p : Path) (bytes buf : List Nat) :
    Event.addObjectFile buf ∉ write_events p bytes :=
  not_mem_write p bytes _ rfl

theorem generateModule_not_mem_create {b : Build} {vm : ebpf_vm} {evs : List Event}
    (hp : evs <+: create_events b vm) (ext lddw : List String) :
    Event.generateModule ext lddw ∉ evs := by
  intro he
  have := mem_create_events b vm _ evs hp he
  simp at this

theorem generateModule_not_mem_pre {be : Backend} {h : Host} {vm : ebpf_vm} {fs fsp : Fs}
    {pre : List Event} (hpro : PrologueEffect be h vm fs fsp pre) (ext lddw : List String) :
    Event.generateModule ext lddw ∉ pre :=
  not_mem_pre hpro _ rfl

theorem do_aot_compile_error (b : Build) (be : Backend) (vm : ebpf_vm) (msg : String)
    (hg : be.generateModule vm (aot_ext_names vm) (aot_lddw_names b vm) = .error msg) (s : St) :
    do_aot_compile b be vm s = .throw (.runtime_error "Unable to generate llvm module")
      { s with trace := s.trace ++
          [.generateModule (aot_ext_names vm) (aot_lddw_names b vm)] } := by
  simp only [do_aot_compile, do_aot_compile_with, log, bind_apply, hg, throw_]

/-! ### The cache entry across the prologue and the write -/

theorem cache_file_present {be : Backend} {h : Host} {vm : ebpf_vm} {fs fsp : Fs}
    {pre : List Event} (hpro : PrologueEffect be h vm fs fsp pre) :
    fsp.exists_ (aot_cache_file be h vm) = fs.exists_ (aot_cache_file be h vm) := by
  unfold Fs.exists_
  rw [hpro.entry]

theorem cache_file_kept {be : Backend} {h : Host} {vm : ebpf_vm} {fs fsp : Fs}
    {pre : List Event} (hpro : PrologueEffect be h vm fs fsp pre) :
    fsp.file (aot_cache_file be h vm) = fs.file (aot_cache_file be h vm) := by
  unfold Fs.file
  rw [hpro.entry]

theorem cache_file_is_directory {be : Backend} {h : Host} {vm : ebpf_vm} {fs fsp : Fs}
    {pre : List Event} (hpro : PrologueEffect be h vm fs fsp pre) :
    fsp.is_directory (aot_cache_file be h vm) = fs.is_directory (aot_cache_file be h vm) := by
  unfold Fs.is_directory
  rw [hpro.entry]

theorem not_directory_of_file (fs : Fs) (p : Path) (f : File) (hf : fs.file p = some f) :
    fs.is_directory p = false := by
  rw [file_eq_some] at hf
  unfold Fs.is_directory
  rw [hf]

theorem loads_not_load_fails (fs : Fs) (p : Path) (f : File) (hl : fs.loads p f) :
    ¬ fs.load_fails p := by
  obtain ⟨hf, ho, hk⟩ := hl
  rintro ⟨g, hg, hbad⟩
  rw [hf] at hg
  cases hg
  rcases hbad with hb | ⟨k, hr, hlt⟩
  · rw [ho] at hb
    cases hb
  · have := hk k hr
    omega

theorem load_fails_after_prologue {be : Backend} {h : Host} {vm : ebpf_vm} {fs fsp : Fs}
    {pre : List Event} (hpro : PrologueEffect be h vm fs fsp pre)
    (hf : fs.load_fails (aot_cache_file be h vm)) :
    fsp.load_fails (aot_cache_file be h vm) := by
  unfold Fs.load_fails at *
  rw [cache_file_kept hpro]
  exact hf

theorem load_fails_before_prologue {be : Backend} {h : Host} {vm : ebpf_vm} {fs fsp : Fs}
    {pre : List Event} (hpro : PrologueEffect be h vm fs fsp pre)
    (hf : fsp.load_fails (aot_cache_file be h vm)) :
    fs.load_fails (aot_cache_file be h vm) := by
  unfold Fs.load_fails at *
  rw [← cache_file_kept hpro]
  exact hf

theorem loads_after_prologue {be : Backend} {h : Host} {vm : ebpf_vm} {fs fsp : Fs}
    {pre : List Event} (hpro : PrologueEffect be h vm fs fsp pre) (f g : File)
    (hf : fs.loads (aot_cache_file be h vm) f) (hg : fsp.loads (aot_cache_file be h vm) g) :
    g = f := by
  have h1 := hg.1
  rw [cache_file_kept hpro, hf.1] at h1
  exact (Option.some.inj h1).symm

theorem resolve_missing_child (fs : Fs) (d : Path) (x : String)
    (hd : fs.is_directory d = true) (hmiss : fs.exists_ (d ++ [x]) = false) :
    fs.resolve (d ++ [x]) = .ENOENT := by
  rw [exists_child_eq, resolve_child _ _ _ hd] at hmiss
  rw [resolve_child _ _ _ hd]
  cases hn : fs.node (d ++ [x]) with
  | none => rfl
  | some n => simp [hn] at hmiss

theorem after_write_entry (h : Host) (fs : Fs) (d : Path) (x : String) (obj : List Nat)
    (hd : fs.is_directory d = true) (hmiss : fs.exists_ (d ++ [x]) = false) :
    (h.ofstream_ok (d ++ [x]) = true → (fs.after_write h (d ++ [x]) obj).file (d ++ [x])
        = some { bytes := obj.take (h.write_len (d ++ [x]) obj.length), openable := true,
                 read_fault := none }) ∧
    (h.ofstream_ok (d ++ [x]) = false → (fs.after_write h (d ++ [x]) obj).file (d ++ [x])
        = none) := by
  have hres := resolve_missing_child fs d x hd hmiss
  have hcr := creatable_child fs d x hd hres
  have htr := truncated_of_missing fs _ hres
  unfold Fs.after_write
  constructor
  · intro hw
    simp only [hw, hcr, Bool.and_self, if_true]
    rw [file_put_self _ _ _ _ hd, htr]
  · intro hw
    simp only [hw, Bool.false_and, Bool.false_eq_true, if_false]
    exact file_none_of_not_exists _ _ hmiss

theorem after_write_resolve_sibling (h : Host) (fs : Fs) (d : Path) (x y : String)
    (obj : List Nat) (hxy : x ≠ y) :
    (fs.after_write h (d ++ [x]) obj).resolve (d ++ [y]) = fs.resolve (d ++ [y]) := by
  unfold Fs.after_write
  split
  · exact resolve_put_sibling _ _ _ _ _ hxy
  · rfl

theorem after_write_is_directory (h : Host) (fs : Fs) (d : Path) (x : String) (obj : List Nat) :
    (fs.after_write h (d ++ [x]) obj).is_directory d = fs.is_directory d := by
  unfold Fs.after_write
  split
  · exact is_directory_put_child _ _ _ _
  · rfl

theorem after_write_lock (be : Backend) (h : Host) (vm : ebpf_vm) (fs : Fs) (obj : List Nat) :
    (fs.after_write h (aot_cache_file be h vm) obj).file (aot_cache_lock h)
      = fs.file (aot_cache_lock h) := by
  unfold Fs.file aot_cache_file aot_cache_lock
  rw [after_write_resolve_sibling _ _ _ _ _ _ (hex_ne_lock _)]

theorem create_ok_of_jit_ok (b : Build) (be : Backend) (vm : ebpf_vm) (st st' : St)
    (hjit : do_jit_compile b be vm st = .ok () st') :
    ∀ s, create_and_initialize_lljit_instance b be vm s
      = .ok (initialized_jit b vm, (bind_ext_funcs vm).2, (bind_lddw_helpers b vm).2)
          { s with trace := s.trace ++ create_events b vm } := by
  obtain ⟨evs, _, hc⟩ := create_shape b be vm
  rcases hc with hc | ⟨hevs, hc⟩
  · simp [do_jit_compile, hc] at hjit
  · subst hevs
    exact hc

/-! ### Events that take or release the file lock -/

theorem not_flock_of_backend (e : Event) (hb : e.is_backend = true) : e.is_flock = false := by
  cases e <;> simp [Event.is_backend, Event.is_flock] at hb ⊢

theorem before_lock_quiet {be : Backend} {h : Host} {vm : ebpf_vm} {fs fsp : Fs}
    {pre : List Event} (hpro : PrologueEffect be h vm fs fsp pre) :
    ∀ e ∈ aot_head ++ pre, e.is_flock = false ∧ e.touches (aot_cache_file be h vm) = false := by
  intro e he
  rcases List.mem_append.mp he with h1 | h1
  · simp only [aot_head, List.mem_cons, List.mem_singleton, List.not_mem_nil, or_false] at h1
    rcases h1 with h1 | h1 <;> subst h1 <;> exact ⟨rfl, rfl⟩
  · exact ⟨(hpro.quiet e h1).1, (hpro.quiet e h1).2.2⟩

theorem flock_lock_not_mem_before {be : Backend} {h : Host} {vm : ebpf_vm} {fs fsp : Fs}
    {pre : List Event} (hpro : PrologueEffect be h vm fs fsp pre) (p : Path) :
    Event.flock_lock p ∉ aot_head ++ pre := by
  intro he
  have := (before_lock_quiet hpro _ he).1
  cases this

theorem touching_not_mem_before {be : Backend} {h : Host} {vm : ebpf_vm} {fs fsp : Fs}
    {pre : List Event} (hpro : PrologueEffect be h vm fs fsp pre) (e : Event)
    (ht : e.touches (aot_cache_file be h vm) = true) : e ∉ aot_head ++ pre := by
  intro he
  have := (before_lock_quiet hpro _ he).2
  rw [ht] at this
  cases this

/-! ### Runs that reach the cache entry -/

theorem create_ok_of_compile_jit (b : Build) (be : Backend) (h : Host) (vm : ebpf_vm) (s : St)
    (a : Nat) (hj : s.jit = none) (ha : h.BPFTIME_ENABLE_AOT = none)
    (hout : (compile b be h vm s).outcome = .returned a) :
    ∀ s', create_and_initialize_lljit_instance b be vm s'
      = .ok (initialized_jit b vm, (bind_ext_funcs vm).2, (bind_lddw_helpers b vm).2)
          { s' with trace := s'.trace ++ create_events b vm } := by
  have hr := compile_jit_run b be h vm s hj ha
  generalize compile b be h vm s = r at hr hout
  cases hr with
  | exits jevs hevs hjit => simp [Res.outcome] at hout
  | unlinked m hgen hjit hlook => simp [Res.outcome] at hout
  | returns m a2 hgen hjit hlook => exact create_ok_of_jit_ok b be vm s _ (hjit s)

/-- What `compile` does on an uncompiled context when the cache is in working order and the
cache entry is read in full: it hands the bytes to `load_aot_object` under the lock. -/
theorem compile_of_loaded_entry (b : Build) (be : Backend) (h : Host) (vm : ebpf_vm) (s : St)
    (f : File) (hj : s.jit = none) (ha : h.BPFTIME_ENABLE_AOT.isSome = true)
    (hloads : s.fs.loads (aot_cache_file be h vm) f) (hu : CacheUsable be h vm s.fs) :
    compile b be h vm s
      = finish be ((load_aot_object b be vm f.bytes
          { jit := none, fs := s.fs,
            trace := s.trace ++
              [.spin_lock, .getenv "BPFTIME_ENABLE_AOT", .hash (raw_insns vm),
                .getenv "HOME", .fs_exists (aot_cache_dir h), .stat (aot_cache_lock h),
                .file_lock_open (aot_cache_lock h), .flock_lock (aot_cache_lock h),
                .fs_exists (aot_cache_file be h vm), .ifstream_open (aot_cache_file be h vm),
                .ifstream_read (aot_cache_file be h vm) f.bytes.length] }).released
          (.flock_unlock (aot_cache_lock h))) := by
  obtain ⟨hf, ho, hk⟩ := hloads
  obtain ⟨hstd, hstat, hste, hlsome, hlk, hfl⟩ := hu
  obtain ⟨lf, hlf⟩ := Option.isSome_iff_exists.mp hlsome
  have hex := exists_of_file _ _ _ hf
  have hres := (file_eq_some _ _ _).mp hf
  have hread : (match f.read_fault with
      | none => (pure (some f.bytes) : M (Option (List Nat)))
      | some k => if k < f.bytes.length then pure none else pure (some f.bytes))
      = pure (some f.bytes) := by
    cases hrf : f.read_fault with
    | none => rfl
    | some k =>
      have := hk k hrf
      simp only
      rw [if_neg (by omega)]
  rw [compile_eq, compile_once_aot b be h vm { s with trace := s.trace ++ [.spin_lock] } hj ha]
  unfold compile_aot
  rw [mbind_apply, aot_prologue_ready be h vm
    { jit := s.jit, fs := s.fs,
      trace := s.trace ++ [.spin_lock] ++ [.getenv "BPFTIME_ENABLE_AOT"] } lf hstd hstat hlf
    hlk]
  unfold aot_cache_file at hex hres hste
  simp [scoped_lock, hfl, raii, aot_locked, fs_exists, hste, log, get_fs, load_aot_cache, hex,
    hres, ho, hread, ite_apply_M, aot_cache_file, hj]

/-- C1, witness: after the cache-miss compile of the demonstration program, a second call
with AOT disabled returns the same address `4096`. -/
theorem compile_idempotent_witness :
    compile demo_build demo_backend demo_host demo_vm demo_state
      = .ok 4096 (compile demo_build demo_backend demo_host demo_vm demo_state).state ∧
    (compile demo_build demo_backend demo_host_jit demo_vm
      (compile demo_build demo_backend demo_host demo_vm demo_state).state).outcome
      = .returned 4096 :=
  have h := compile_idempotent demo_build demo_backend demo_host demo_host_jit demo_vm
    demo_state (compile demo_build demo_backend demo_host demo_vm demo_state).state 4096
    (by rfl)
  ⟨by rfl, by rw [h.1]; rfl⟩

/-- C2, counterexample. The cache entry of `demo_vm` holds the corrupt bytes `[1, 2, 3]`, it
can be read, the engine refuses them as an object file, and plain JIT compilation of the same
context succeeds: `compile` with AOT enabled throws the object-load error instead of falling
back. -/
theorem compile_corrupt_cache_counterexample :
    demo_state_corrupt.jit = none ∧
    demo_host.BPFTIME_ENABLE_AOT.isSome = true ∧
    demo_state_corrupt.fs.loads (aot_cache_file demo_backend demo_host demo_vm)
      { bytes := [1, 2, 3], openable := true, read_fault := none } ∧
    demo_backend.addObjectFile_ok (initialized_jit demo_build demo_vm) [1, 2, 3] = false ∧
    (compile demo_build demo_backend demo_host_jit demo_vm demo_state_corrupt).outcome
      = .returned 4096 ∧
    (compile demo_build demo_backend demo_host demo_vm demo_state_corrupt).outcome
      = .thrown (.runtime_error "Failed to load AOT object") := by
  refine ⟨rfl, rfl, ⟨by decide, rfl, by simp⟩, by decide, by decide, by decide⟩

/-- C2, amended. Let the context be uncompiled, AOT enabled, the cache entry of the program a
regular file that is read in full, its bytes refused by the engine as an object file, and let
plain JIT compilation of the context succeed.  Then `compile` throws: the error is
`runtime_error("Failed to load AOT object")`, thrown after the bytes were handed to
`addObjectFile`, unless an earlier step (creating the cache root, checking the lock file,
constructing or taking the file lock, or an existence check) threw before the cache entry was
opened; the former is the case whenever the cache is in working order (`CacheUsable`).  In no
case does `compile` fall back to `do_jit_compile`: no translation is run, the engine slot stays
empty, and the cache file is left as it was. -/
theorem compile_rejected_object_throws (b : Build) (be : Backend) (h : Host) (vm : ebpf_vm)
    (s : St) (f : File) (a : Nat) (hj : s.jit = none)
    (ha : h.BPFTIME_ENABLE_AOT.isSome = true)
    (hloads : s.fs.loads (aot_cache_file be h vm) f)
    (hrej : be.addObjectFile_ok (initialized_jit b vm) f.bytes = false)
    (hjit : (compile b be { h with BPFTIME_ENABLE_AOT := none } vm s).outcome = .returned a) :
    (∃ e, (compile b be h vm s).outcome = .thrown e ∧
      ((e = .runtime_error "Failed to load AOT object" ∧
          Event.addObjectFile f.bytes ∈ new_events s (compile b be h vm s)) ∨
        (e ∈ prologue_errors ∧
          Event.ifstream_open (aot_cache_file be h vm) ∉ new_events s (compile b be h vm s)))) ∧
    (CacheUsable be h vm s.fs →
      (compile b be h vm s).outcome = .thrown (.runtime_error "Failed to load AOT object")) ∧
    (compile b be h vm s).state.jit = none ∧
    (compile b be h vm s).state.fs.file (aot_cache_file be h vm) = some f ∧
    (∀ ext lddw, Event.generateModule ext lddw ∉ new_events s (compile b be h vm s)) := by
  have hc := create_ok_of_compile_jit b be { h with BPFTIME_ENABLE_AOT := none } vm s a hj rfl hjit
  have hexs : s.fs.exists_ (aot_cache_file be h vm) = true := exists_of_file _ _ _ hloads.1
  have hsecond : CacheUsable be h vm s.fs →
      (compile b be h vm s).outcome = .thrown (.runtime_error "Failed to load AOT object") := by
    intro hu
    rw [compile_of_loaded_entry b be h vm s f hj ha hloads hu]
    simp [load_aot_object, get_jit, hc, log, hrej, finish, Res.released, Res.outcome, throw_]
  refine ⟨?_, hsecond, ?_⟩
  all_goals
    have hr := compile_aot_run b be h vm s hj ha
    generalize compile b be h vm s = r at hr ⊢
    cases hr with
    | prologue_throws e pre fsp hpro he hnot =>
      first
      | refine ⟨e, rfl, Or.inr ⟨he, ?_⟩⟩
        simp only [new_events_throw]
        intro hmem
        rcases List.mem_append.mp hmem with h1 | h1
        · exact touching_not_mem_before hpro _ (by simp [Event.touches]) h1
        · simp at h1
      | refine ⟨rfl, ?_, ?_⟩
        · simp only [Res.state]
          rw [cache_file_kept hpro]
          exact hloads.1
        · intro ext lddw
          simp [aot_head, generateModule_not_mem_pre hpro]
    | exists_throws pre fsp hpro hready hstatus =>
      first
      | refine ⟨_, rfl, Or.inr ⟨by simp [prologue_errors], ?_⟩⟩
        simp only [new_events_throw]
        intro hmem
        rcases List.mem_append.mp hmem with h1 | h1
        · rcases List.mem_append.mp h1 with h2 | h2
          · exact touching_not_mem_before hpro _ (by simp [Event.touches]) h2
          · simp at h2
        · simp at h1
      | refine ⟨rfl, ?_, ?_⟩
        · simp only [Res.state]
          rw [cache_file_kept hpro]
          exact hloads.1
        · intro ext lddw
          simp [aot_head, generateModule_not_mem_pre hpro]
    | load_throws pre fsp hpro hready hst hexists hdir =>
      rw [cache_file_is_directory hpro, not_directory_of_file _ _ _ hloads.1] at hdir
      cases hdir
    | load_exits pre fsp g oevs hpro hready hst hexists hloads2 hevs hcreate =>
      have h1 := hcreate s
      rw [hc s] at h1
      cases h1
    | load_rejected pre fsp g hpro hready hst hexists hloads2 hrej2 =>
      have hg := loads_after_prologue hpro f g hloads hloads2
      subst hg
      first
      | exact ⟨_, rfl, Or.inl ⟨rfl, by simp [aot_head, load_events]⟩⟩
      | refine ⟨rfl, hloads2.1, ?_⟩
        intro ext lddw
        simp [aot_head, load_events, generateModule_not_mem_pre hpro,
          generateModule_not_mem_create (List.prefix_refl _)]
    | load_unlinked pre fsp g hpro hready hst hexists hloads2 hacc hlook =>
      have hg := loads_after_prologue hpro f g hloads hloads2
      subst hg
      rw [hacc] at hrej
      cases hrej
    | load_returns pre fsp g a2 hpro hready hst hexists hloads2 hacc hlook =>
      have hg := loads_after_prologue hpro f g hloads hloads2
      subst hg
      rw [hacc] at hrej
      cases hrej
    | fallback_exits pre fsp levs jevs hpro hready hst hexists hfails hlevs hevs hjit2 =>
      exact absurd (load_fails_before_prologue hpro hfails)
        (loads_not_load_fails _ _ _ hloads)
    | fallback_unlinked pre fsp levs m hpro hready hst hexists hfails hlevs hgen hjit2 hlook =>
      exact absurd (load_fails_before_prologue hpro hfails)
        (loads_not_load_fails _ _ _ hloads)
    | fallback_returns pre fsp levs m a2 hpro hready hst hexists hfails hlevs hgen hjit2 hlook =>
      exact absurd (load_fails_before_prologue hpro hfails)
        (loads_not_load_fails _ _ _ hloads)
    | miss_throws pre fsp aevs e hpro hready hst hexists hevs he haot =>
      rw [cache_file_present hpro, hexs] at hexists
      cases hexists
    | miss_exits pre fsp obj jevs hpro hready hst hexists haot hevs hjit2 =>
      rw [cache_file_present hpro, hexs] at hexists
      cases hexists
    | miss_unlinked pre fsp obj m hpro hready hst hexists haot hgen hjit2 hlook =>
      rw [cache_file_present hpro, hexs] at hexists
      cases hexists
    | miss_returns pre fsp obj m a2 hpro hready hst hexists haot hgen hjit2 hlook =>
      rw [cache_file_present hpro, hexs] at hexists
      cases hexists

/-- C2, witness: the amended theorem applies to the corrupt cache entry of `demo_vm`. -/
theorem compile_rejected_object_throws_witness :
    (compile demo_build demo_backend demo_host demo_vm demo_state_corrupt).outcome
      = .thrown (.runtime_error "Failed to load AOT object") ∧
    (compile demo_build demo_backend demo_host demo_vm demo_state_corrupt).state.jit = none ∧
    (compile demo_build demo_backend demo_host demo_vm demo_state_corrupt).state.fs.file
        (aot_cache_file demo_backend demo_host demo_vm)
      = some { bytes := [1, 2, 3], openable := true, read_fault := none } :=
  have h := compile_rejected_object_throws demo_build demo_backend demo_host demo_vm
    demo_state_corrupt { bytes := [1, 2, 3], openable := true, read_fault := none } 4096 rfl rfl
    ⟨by decide, rfl, by simp⟩ (by decide) (by decide)
  ⟨h.2.1 ⟨rfl, rfl, rfl, by decide, rfl, rfl⟩, h.2.2.1, h.2.2.2.1⟩

theorem lookup_not_mem_create {b : Build} {vm : ebpf_vm} {evs : List Event}
    (hp : evs <+: create_events b vm) (name : String) : Event.lookup name ∉ evs := by
  intro he
  have := mem_create_events b vm _ evs hp he
  simp at this

theorem lookup_not_mem_jit {b : Build} {vm : ebpf_vm} {evs : List Event}
    (hp : evs <+: jit_compile_events b vm) (name : String) : Event.lookup name ∉ evs := by
  intro he
  have := mem_jit_compile_events b vm _ evs hp he
  simp at this

theorem lookup_not_mem_aot {b : Build} {vm : ebpf_vm} {evs : List Event}
    (hp : evs <+: aot_compile_events b vm) (name : String) : Event.lookup name ∉ evs := by
  intro he
  have := mem_aot_compile_events b vm _ evs hp he
  simp at this

theorem prologue_error_ne_link (e : Exn) (he : e ∈ prologue_errors) :
    e ≠ .runtime_error "Unable to link symbol `bpf_main`" := by
  simp only [prologue_errors, List.mem_cons, List.mem_singleton, List.not_mem_nil,
    or_false] at he
  rcases he with rfl | rfl | rfl | rfl <;> decide

theorem aot_compile_error_ne_link (e : Exn) (he : e ∈ aot_compile_errors) :
    e ≠ .runtime_error "Unable to link symbol `bpf_main`" := by
  simp only [aot_compile_errors, List.mem_cons, List.mem_singleton, List.not_mem_nil,
    or_false] at he
  rcases he with rfl | rfl | rfl | rfl <;> decide

/-- C3, counterexample. With a backend whose engine does not resolve `bpf_main`, `compile`
on an uncompiled context throws, and afterwards the engine slot is not empty: the context is
in the `Compiled` state although no entry address was ever resolved. -/
theorem compile_unlinked_counterexample :
    demo_state.jit = none ∧
    (compile demo_build demo_backend_unlinked demo_host_jit demo_vm demo_state).outcome
      = .thrown (.runtime_error "Unable to link symbol `bpf_main`") ∧
    (compile demo_build demo_backend_unlinked demo_host_jit demo_vm demo_state).state.jit.isSome
      = true := by
  decide

/-- C3, amended. On an uncompiled context, on every path of `compile` (AOT disabled, cache
hit, cache miss, fallback after a failed load) the engine is stored in the slot before
`bpf_main` is looked up in it: `get_entry_address` on an empty slot throws
`runtime_error("Not compiled yet")` without a lookup, and after `compile` the slot is non-empty
exactly when a lookup of `bpf_main` was made.  If `compile` returns an address, the slot holds
an engine that resolves `bpf_main` to that address.  If `compile` throws the failed lookup of
`bpf_main`, the slot holds the engine in which the lookup failed; if it throws any other
error, or if the process exits, the slot is empty. -/
theorem compile_slot_by_outcome (b : Build) (be : Backend) (h : Host) (vm : ebpf_vm) (s : St)
    (hj : s.jit = none) :
    (∀ a, (compile b be h vm s).outcome = .returned a →
      ∃ j, (compile b be h vm s).state.jit = some j ∧ be.lookup j "bpf_main" = some a) ∧
    (∀ e, (compile b be h vm s).outcome = .thrown e →
      (e = .runtime_error "Unable to link symbol `bpf_main`" ∧
        ∃ j, (compile b be h vm s).state.jit = some j ∧ be.lookup j "bpf_main" = none) ∨
      (e ≠ .runtime_error "Unable to link symbol `bpf_main`" ∧
        (compile b be h vm s).state.jit = none)) ∧
    (∀ c, (compile b be h vm s).outcome = .exited c →
      (compile b be h vm s).state.jit = none) ∧
    ((compile b be h vm s).state.jit.isSome = true ↔
      Event.lookup "bpf_main" ∈ new_events s (compile b be h vm s)) ∧
    (∀ s0 : St, s0.jit = none →
      get_entry_address be s0 = .throw (.runtime_error "Not compiled yet") s0) := by
  refine ⟨?_, ?_, ?_, ?_, fun s0 h0 => get_entry_address_none be s0 h0⟩
  all_goals
    cases ha : h.BPFTIME_ENABLE_AOT with
    | none =>
      have hr := compile_jit_run b be h vm s hj ha
      generalize compile b be h vm s = r at hr ⊢
      cases hr with
      | exits jevs hevs hjit =>
        simp [Res.outcome, Res.state, aot_head, lookup_not_mem_jit hevs]
      | unlinked m hgen hjit hlook =>
        simp [Res.outcome, Res.state, hlook]
      | returns m a hgen hjit hlook =>
        simp [Res.outcome, Res.state, hlook]
    | some v =>
      have hr := compile_aot_run b be h vm s hj (by simp [ha])
      generalize compile b be h vm s = r at hr ⊢
      cases hr with
      | prologue_throws e pre fsp hpro he hnot =>
        simp [Res.outcome, Res.state, aot_head, not_mem_pre hpro (.lookup "bpf_main") rfl,
          prologue_error_ne_link e he]
      | exists_throws pre fsp hpro hready hstatus =>
        simp [Res.outcome, Res.state, aot_head, not_mem_pre hpro (.lookup "bpf_main") rfl]
      | load_throws pre fsp hpro hready hst hexists hdir =>
        simp [Res.outcome, Res.state, aot_head, not_mem_pre hpro (.lookup "bpf_main") rfl]
      | load_exits pre fsp f oevs hpro hready hst hexists hloads hevs hcreate =>
        simp [Res.outcome, Res.state, aot_head, load_events,
          not_mem_pre hpro (.lookup "bpf_main") rfl, lookup_not_mem_create hevs]
      | load_rejected pre fsp f hpro hready hst hexists hloads hrej2 =>
        simp [Res.outcome, Res.state, aot_head, load_events,
          not_mem_pre hpro (.lookup "bpf_main") rfl,
          lookup_not_mem_create (List.prefix_refl (create_events b vm))]
      | load_unlinked pre fsp f hpro hready hst hexists hloads hacc hlook =>
        simp [Res.outcome, Res.state, hlook, load_object_events]
      | load_returns pre fsp f a hpro hready hst hexists hloads hacc hlook =>
        simp [Res.outcome, Res.state, hlook]
      | fallback_exits pre fsp levs jevs hpro hready hst hexists hfails hlevs hevs hjit =>
        simp [Res.outcome, Res.state, aot_head, not_mem_pre hpro (.lookup "bpf_main") rfl,
          not_mem_levs hlevs (.lookup "bpf_main") rfl, lookup_not_mem_jit hevs]
      | fallback_unlinked pre fsp levs m hpro hready hst hexists hfails hlevs hgen hjit hlook =>
        simp [Res.outcome, Res.state, hlook]
      | fallback_returns pre fsp levs m a hpro hready hst hexists hfails hlevs hgen hjit hlook =>
        simp [Res.outcome, Res.state, hlook]
      | miss_throws pre fsp aevs e hpro hready hst hexists hevs he haot =>
        simp [Res.outcome, Res.state, aot_head, not_mem_pre hpro (.lookup "bpf_main") rfl,
          lookup_not_mem_aot hevs, aot_compile_error_ne_link e he]
      | miss_exits pre fsp obj jevs hpro hready hst hexists haot hevs hjit =>
        simp [Res.outcome, Res.state, aot_head, write_events,
          not_mem_pre hpro (.lookup "bpf_main") rfl,
          lookup_not_mem_aot (List.prefix_refl (aot_compile_events b vm)),
          lookup_not_mem_jit hevs]
      | miss_unlinked pre fsp obj m hpro hready hst hexists haot hgen hjit hlook =>
        simp [Res.outcome, Res.state, hlook]
      | miss_returns pre fsp obj m a hpro hready hst hexists haot hgen hjit hlook =>
        simp [Res.outcome, Res.state, hlook]

/-- C3, witness: the amended theorem applies to the fresh context `demo_state` with a backend
that does not resolve `bpf_main`. -/
theorem compile_slot_by_outcome_witness :
    (compile demo_build demo_backend_unlinked demo_host_jit demo_vm demo_state).state.jit.isSome
      = true ∧
    Event.lookup "bpf_main" ∈ new_events demo_state
      (compile demo_build demo_backend_unlinked demo_host_jit demo_vm demo_state) :=
  have h := compile_slot_by_outcome demo_build demo_backend_unlinked demo_host_jit demo_vm
    demo_state rfl
  ⟨by decide, h.2.2.2.1.mp (by decide)⟩

theorem bound_indices_only (vm : ebpf_vm) (k : Nat)
    (honly : ∀ i, vm.ext_funcs.getD i 0 ≠ 0 ↔ i = k) : bound_indices vm = [k] := by
  have hk : vm.ext_funcs.getD k 0 ≠ 0 := (honly k).mpr rfl
  have hlen : k < vm.ext_funcs.length := by
    by_contra hge
    exact hk (List.getD_eq_default _ _ (Nat.le_of_not_lt hge))
  unfold bound_indices
  have hpred : (fun i => vm.ext_funcs.getD i 0 != 0) = (fun i => i == k) := by
    funext i
    have := honly i
    show (vm.ext_funcs.getD i 0 != 0) = (i == k)
    by_cases hi : i = k
    · subst hi
      rw [beq_self_eq_true, bne_iff_ne]
      exact hk
    · have h0 : vm.ext_funcs.getD i 0 = 0 := by
        by_contra hne
        exact hi (this.mp hne)
      rw [h0]
      simp [hi]
  rw [hpred, List.filter_beq,
    List.count_eq_one_of_mem (List.nodup_range _) (List.mem_range.mpr hlen)]
  rfl

theorem bound_indices_none (vm : ebpf_vm) (hnone : ∀ i, vm.ext_funcs.getD i 0 = 0) :
    bound_indices vm = [] := by
  unfold bound_indices
  rw [List.filter_eq_nil_iff]
  intro i _
  show ¬ (vm.ext_funcs.getD i 0 != 0) = true
  rw [hnone i]
  simp

theorem create_returns (b : Build) (be : Backend) (vm : ebpf_vm) (s s' : St)
    (r : LLJIT × List String × List String)
    (hret : create_and_initialize_lljit_instance b be vm s = .ok r s') :
    r = (initialized_jit b vm, (bind_ext_funcs vm).2, (bind_lddw_helpers b vm).2) := by
  obtain ⟨evs, _, hc⟩ := create_shape b be vm
  rcases hc with hc | ⟨_, hc⟩
  · rw [hc s] at hret
    cases hret
  · rw [hc s] at hret
    simp only [Res.ok.injEq] at hret
    exact hret.1.symm

/-- C5, counterexample. On a build for 32-bit ARM, a table with no helper and no LDDW helper
yields two empty name lists, but the external symbol map is not empty: it binds
`__aeabi_unwind_cpp_pr1`. -/
theorem create_instance_arm_counterexample :
    (∀ i, demo_vm_bare.ext_funcs.getD i 0 = 0) ∧
    (∀ e ∈ lddw_table demo_arm_build demo_vm_bare, e.2 = 0) ∧
    (create_and_initialize_lljit_instance demo_arm_build demo_backend demo_vm_bare
        demo_state).outcome
      = .returned
          ({ extSymbols :=
               [("__aeabi_unwind_cpp_pr1",
                 { address := 36864, callable := false, exported := true })]
             lddwSyms := []
             irModules := []
             objectFiles := [] }, [], []) := by
  refine ⟨fun i => ?_, by decide, by decide⟩
  by_cases hi : i < 5
  · interval_cases i <;> rfl
  · exact List.getD_eq_default _ _ (Nat.le_of_not_lt hi)

/-- C5, amended. What `create_and_initialize_lljit_instance` returns: the external names are
`ext_func_sym i` for the non-null entries in increasing index order; the external symbol map
binds exactly these names, each to the address of its entry with the flags callable and
exported, followed on 32-bit ARM builds by `__aeabi_unwind_cpp_pr1`; the LDDW names are those
of the five helpers whose pointer is non-null, in the fixed order, and they are the keys of the
LDDW symbol map.  With only index 3 populated the external names are `ext_func_3`; with nothing
populated both lists are empty and, off 32-bit ARM, so are both symbol maps. -/
theorem create_instance_bindings (b : Build) (be : Backend) (vm : ebpf_vm) (s s' : St)
    (jit : LLJIT) (extFuncNames definedLddwHelpers : List String)
    (hret : create_and_initialize_lljit_instance b be vm s
      = .ok (jit, extFuncNames, definedLddwHelpers) s') :
    extFuncNames = spec_ext_names vm ∧
    jit.extSymbols = spec_ext_bindings vm ++ aeabi_binding b ∧
    definedLddwHelpers = spec_lddw_names b vm ∧
    (∀ x, x ∈ jit.lddwSyms.map Prod.fst ↔ x ∈ spec_lddw_names b vm) ∧
    ((∀ i, vm.ext_funcs.getD i 0 ≠ 0 ↔ i = 3) → extFuncNames = ["ext_func_3"]) ∧
    ((∀ i, vm.ext_funcs.getD i 0 = 0) → (∀ e ∈ lddw_table b vm, e.2 = 0) →
      extFuncNames = [] ∧ definedLddwHelpers = [] ∧ jit.lddwSyms = [] ∧
      (b.arm = false → jit.extSymbols = [])) := by
  have hr := create_returns b be vm s s' _ hret
  simp only [Prod.mk.injEq] at hr
  obtain ⟨hjit, hext, hlddw⟩ := hr
  subst hjit hext hlddw
  have hkeys : ∀ x, x ∈ (initialized_jit b vm).lddwSyms.map Prod.fst ↔
      x ∈ spec_lddw_names b vm := by
    intro x
    rw [← bind_lddw_helpers_names]
    exact bind_lddw_helpers_keys b vm x
  have hsyms : (initialized_jit b vm).extSymbols = spec_ext_bindings vm ++ aeabi_binding b := by
    show define_aeabi b (bind_ext_funcs vm).1 = _
    rw [bind_ext_funcs_eq]
    exact define_aeabi_eq b vm
  refine ⟨by rw [bind_ext_funcs_eq], hsyms, bind_lddw_helpers_names b vm, hkeys, ?_, ?_⟩
  · intro honly
    rw [bind_ext_funcs_eq]
    show spec_ext_names vm = _
    rw [spec_ext_names, bound_indices_only vm 3 honly]
    rfl
  · intro hnone hnull
    have hl : spec_lddw_names b vm = [] := by
      unfold spec_lddw_names
      rw [List.map_eq_nil_iff, List.filter_eq_nil_iff]
      intro e he
      simp [hnull e he]
    refine ⟨?_, ?_, ?_, ?_⟩
    · rw [bind_ext_funcs_eq]
      show spec_ext_names vm = _
      rw [spec_ext_names, bound_indices_none vm hnone]
      rfl
    · rw [bind_lddw_helpers_names, hl]
    · have h1 := hkeys
      rw [hl] at h1
      cases hm : (initialized_jit b vm).lddwSyms with
      | nil => rfl
      | cons e rest =>
        rw [hm] at h1
        exact absurd ((h1 e.1).mp (by simp)) (by simp)
    · intro harm
      rw [hsyms, spec_ext_bindings, bound_indices_none vm hnone]
      simp [aeabi_binding, harm]

/-- C5, witness: the amended theorem applies to `demo_vm`, whose table has only index 3
populated. -/
theorem create_instance_bindings_witness :
    (initialized_jit demo_build demo_vm).extSymbols
      = spec_ext_bindings demo_vm ++ aeabi_binding demo_build ∧
    (bind_ext_funcs demo_vm).2 = ["ext_func_3"] :=
  have h := create_instance_bindings demo_build demo_backend demo_vm demo_state
    { demo_state with trace := create_events demo_build demo_vm }
    (initialized_jit demo_build demo_vm) (bind_ext_funcs demo_vm).2
    (bind_lddw_helpers demo_build demo_vm).2 (by rfl)
  ⟨h.2.1, by decide⟩

theorem do_aot_compile_cases (b : Build) (be : Backend) (vm : ebpf_vm) :
    (∃ msg, be.generateModule vm (aot_ext_names vm) (aot_lddw_names b vm) = .error msg ∧
      ∀ s, do_aot_compile b be vm s = .throw (.runtime_error "Unable to generate llvm module")
        { s with trace := s.trace ++
            [.generateModule (aot_ext_names vm) (aot_lddw_names b vm)] }) ∨
    (∃ m, be.generateModule vm (aot_ext_names vm) (aot_lddw_names b vm) = .ok m ∧
      ((∃ e tail, ∀ s, do_aot_compile b be vm s = .throw e
          { s with trace := s.trace ++
              .generateModule (aot_ext_names vm) (aot_lddw_names b vm) :: tail }) ∨
       (∀ s, do_aot_compile b be vm s
          = .ok (be.emit { be.optimizeModule m with
                targetTriple := be.getDefaultTargetTriple
                dataLayout := be.createDataLayout be.getDefaultTargetTriple })
              { s with trace := s.trace ++ aot_compile_events b vm }))) := by
  cases hg : be.generateModule vm (aot_ext_names vm) (aot_lddw_names b vm) with
  | error msg =>
    exact Or.inl ⟨msg, rfl, fun s => do_aot_compile_error b be vm msg hg s⟩
  | ok m =>
    refine Or.inr ⟨m, rfl, ?_⟩
    by_cases h1 : be.lookupTarget_ok be.getDefaultTargetTriple = true
    · by_cases h2 : be.createTargetMachine_ok be.getDefaultTargetTriple = true
      · by_cases h3 : be.addPassesToEmitFile be.getDefaultTargetTriple = true
        · refine Or.inl ⟨.runtime_error "Unable to emit module for target machine",
            [.optimizeModule, .lookupTarget, .createTargetMachine, .addPassesToEmitFile],
            fun s => ?_⟩
          simp [do_aot_compile, do_aot_compile_with, log, hg, throw_, h1, h2, h3, ite_apply_M]
        · refine Or.inr (fun s => ?_)
          simp [do_aot_compile, do_aot_compile_with, log, hg, throw_, h1, h2, h3, ite_apply_M,
            aot_compile_events]
      · refine Or.inl ⟨.runtime_error "Unable to create target machine",
          [.optimizeModule, .lookupTarget, .createTargetMachine], fun s => ?_⟩
        simp [do_aot_compile, do_aot_compile_with, log, hg, throw_, h1, h2, ite_apply_M]
    · refine Or.inl ⟨.runtime_error "Unable to get local target",
        [.optimizeModule, .lookupTarget], fun s => ?_⟩
      simp [do_aot_compile, do_aot_compile_with, log, hg, throw_, h1, ite_apply_M]

theorem do_aot_compile_first_event (b : Build) (be : Backend) (vm : ebpf_vm) (s : St) :
    ∃ evs, (do_aot_compile b be vm s).state.trace
      = s.trace ++ .generateModule (aot_ext_names vm) (aot_lddw_names b vm) :: evs := by
  rcases do_aot_compile_cases b be vm with ⟨msg, _, h⟩ | ⟨m, _, ⟨e, tail, h⟩ | h⟩
  · exact ⟨[], by rw [h]; rfl⟩
  · exact ⟨tail, by rw [h]; rfl⟩
  · exact ⟨[.optimizeModule, .lookupTarget, .createTargetMachine, .addPassesToEmitFile, .emit],
      by rw [h]; rfl⟩

theorem bound_indices_of_pattern (vm vm2 : ebpf_vm)
    (hpat : vm2.ext_funcs.map (fun p => p != 0) = vm.ext_funcs.map (fun p => p != 0)) :
    bound_indices vm2 = bound_indices vm := by
  have hlen : vm2.ext_funcs.length = vm.ext_funcs.length := by
    have := congrArg List.length hpat
    simpa using this
  unfold bound_indices
  rw [hlen]
  apply List.filter_congr
  intro i hi
  have hi1 : i < vm.ext_funcs.length := List.mem_range.mp hi
  have hi2 : i < vm2.ext_funcs.length := hlen ▸ hi1
  have := congrArg (fun l => l[i]?) hpat
  simp only [List.getElem?_map, List.getElem?_eq_getElem hi1,
    List.getElem?_eq_getElem hi2, Option.map_some', Option.some.injEq] at this
  simp only [List.getD_eq_getElem?_getD, List.getElem?_eq_getElem hi1,
    List.getElem?_eq_getElem hi2, Option.getD_some]
  exact this

theorem names_of_pattern (b : Build) (vm vm2 : ebpf_vm)
    (hpat : null_pattern vm2 = null_pattern vm) :
    spec_ext_names vm2 = spec_ext_names vm ∧ spec_lddw_names b vm2 = spec_lddw_names b vm := by
  unfold null_pattern at hpat
  simp only [Prod.mk.injEq, List.cons.injEq, and_true] at hpat
  obtain ⟨hext, h1, h2, h3, h4, h5⟩ := hpat
  refine ⟨by rw [spec_ext_names, spec_ext_names, bound_indices_of_pattern vm vm2 hext], ?_⟩
  simp only [spec_lddw_names, lddw_table, List.filter_cons, h1, h2, h3, h4, h5, List.filter_nil]
  split <;> split <;> split <;> split <;> split <;> rfl

/-- C10. Translator-side and binder-side names agree.  Let
`create_and_initialize_lljit_instance` return an instance with the name lists `extFuncNames`
and `definedLddwHelpers`.  Then the first thing `do_aot_compile()` does is to call the
translator with exactly these two lists, element for element and in the same order, and what
it returns is the object emitted for the module the translator made of them.  The lists are
the names of the indices of the non-null entries, so a program with the same null pattern
gets the same lists on both sides.  And every name in the lists is bound in the instance, so
that whatever the emitted object calls is bound when it is loaded with the same tables. -/
theorem aot_names_agree (b : Build) (be : Backend) (vm : ebpf_vm) (s s' : St) (jit : LLJIT)
    (extFuncNames definedLddwHelpers : List String)
    (hret : create_and_initialize_lljit_instance b be vm s
      = .ok (jit, extFuncNames, definedLddwHelpers) s') :
    (∀ s0, ∃ evs, (do_aot_compile b be vm s0).state.trace
      = s0.trace ++ .generateModule extFuncNames definedLddwHelpers :: evs) ∧
    (∀ s0 msg, be.generateModule vm extFuncNames definedLddwHelpers = .error msg →
      (do_aot_compile b be vm s0).outcome
        = .thrown (.runtime_error "Unable to generate llvm module")) ∧
    (∀ s0 obj, (do_aot_compile b be vm s0).outcome = .returned obj →
      ∃ m, be.generateModule vm extFuncNames definedLddwHelpers = .ok m ∧
        obj = be.emit { be.optimizeModule m with
          targetTriple := be.getDefaultTargetTriple
          dataLayout := be.createDataLayout be.getDefaultTargetTriple }) ∧
    extFuncNames = spec_ext_names vm ∧
    definedLddwHelpers = spec_lddw_names b vm ∧
    (∀ vm2 s2 s2' jit2 ext2 lddw2, null_pattern vm2 = null_pattern vm →
      create_and_initialize_lljit_instance b be vm2 s2 = .ok (jit2, ext2, lddw2) s2' →
      ext2 = extFuncNames ∧ lddw2 = definedLddwHelpers ∧
      ∀ s0, ∃ evs, (do_aot_compile b be vm2 s0).state.trace
        = s0.trace ++ .generateModule extFuncNames definedLddwHelpers :: evs) ∧
    (∀ name ∈ extFuncNames, name ∈ jit.extSymbols.map Prod.fst) ∧
    (∀ name ∈ definedLddwHelpers, name ∈ jit.lddwSyms.map Prod.fst) := by
  have hr := create_returns b be vm s s' _ hret
  simp only [Prod.mk.injEq] at hr
  obtain ⟨hjit, hext, hlddw⟩ := hr
  subst hjit hext hlddw
  have hE : aot_ext_names vm = (bind_ext_funcs vm).2 := by
    rw [aot_ext_names_eq, bind_ext_funcs_eq]
  have hL : aot_lddw_names b vm = (bind_lddw_helpers b vm).2 := by
    rw [aot_lddw_names_eq, bind_lddw_helpers_names]
  have hsyms : (initialized_jit b vm).extSymbols = spec_ext_bindings vm ++ aeabi_binding b := by
    show define_aeabi b (bind_ext_funcs vm).1 = _
    rw [bind_ext_funcs_eq]
    exact define_aeabi_eq b vm
  refine ⟨?_, ?_, ?_, by rw [bind_ext_funcs_eq], bind_lddw_helpers_names b vm, ?_, ?_, ?_⟩
  · intro s0
    rw [← hE, ← hL]
    exact do_aot_compile_first_event b be vm s0
  · intro s0 msg hg
    rw [← hE, ← hL] at hg
    rw [do_aot_compile_error b be vm msg hg s0]
    rfl
  · intro s0 obj hobj
    rw [← hE, ← hL]
    rcases do_aot_compile_cases b be vm with ⟨msg, _, h⟩ | ⟨m, hg, ⟨e, tail, h⟩ | h⟩
    · rw [h] at hobj
      cases hobj
    · rw [h] at hobj
      cases hobj
    · rw [h] at hobj
      simp only [Res.outcome, Outcome.returned.injEq] at hobj
      exact ⟨m, hg, hobj.symm⟩
  · intro vm2 s2 s2' jit2 ext2 lddw2 hpat hret2
    have hr2 := create_returns b be vm2 s2 s2' _ hret2
    simp only [Prod.mk.injEq] at hr2
    obtain ⟨_, hext2, hlddw2⟩ := hr2
    obtain ⟨hn1, hn2⟩ := names_of_pattern b vm vm2 hpat
    have h1 : (bind_ext_funcs vm2).2 = (bind_ext_funcs vm).2 := by
      rw [bind_ext_funcs_eq, bind_ext_funcs_eq]
      exact hn1
    have h2 : (bind_lddw_helpers b vm2).2 = (bind_lddw_helpers b vm).2 := by
      rw [bind_lddw_helpers_names, bind_lddw_helpers_names]
      exact hn2
    refine ⟨by rw [hext2, h1], by rw [hlddw2, h2], ?_⟩
    intro s0
    have := do_aot_compile_first_event b be vm2 s0
    rw [aot_ext_names_eq, aot_lddw_names_eq, hn1, hn2, ← aot_ext_names_eq, ← aot_lddw_names_eq,
      hE, hL] at this
    exact this
  · intro name hn
    rw [bind_ext_funcs_eq] at hn
    rw [hsyms, List.map_append, List.mem_append]
    left
    simp only [spec_ext_names, List.mem_map] at hn
    obtain ⟨i, hi, rfl⟩ := hn
    simp only [spec_ext_bindings, List.map_map, List.mem_map]
    exact ⟨i, hi, rfl⟩
  · intro name hn
    exact (bind_lddw_helpers_keys b vm name).mpr hn

/-- C10, witness: for `demo_vm` the translator is called by `do_aot_compile()` with the names
`create_and_initialize_lljit_instance` returns, `ext_func_3` and the `map_by_idx` helper. -/
theorem aot_names_agree_witness :
    (bind_ext_funcs demo_vm).2 = ["ext_func_3"] ∧
    (bind_lddw_helpers demo_build demo_vm).2 = ["lddw_map_by_idx"] ∧
    ∃ evs, (do_aot_compile demo_build demo_backend demo_vm demo_state).state.trace
      = demo_state.trace ++
        .generateModule (bind_ext_funcs demo_vm).2 (bind_lddw_helpers demo_build demo_vm).2
          :: evs :=
  have h := aot_names_agree demo_build demo_backend demo_vm demo_state
    { demo_state with trace := create_events demo_build demo_vm }
    (initialized_jit demo_build demo_vm) (bind_ext_funcs demo_vm).2
    (bind_lddw_helpers demo_build demo_vm).2 (by rfl)
  ⟨by decide, by decide, h.1 demo_state⟩

theorem cache_file_of_same_insns (be : Backend) (h : Host) (vm vm2 : ebpf_vm)
    (hsame : raw_insns vm2 = raw_insns vm) :
    aot_cache_file be h vm2 = aot_cache_file be h vm := by
  unfold aot_cache_file
  rw [hsame]

theorem digitChar_hex (k : Nat) (hk : k < 16) :
    Nat.digitChar k ∈ "0123456789abcdef".data := by
  interval_cases k <;> decide

theorem hex_string_chars (digest : List Nat) :
    ∀ c ∈ (get_hash_hex_string digest).data, c ∈ "0123456789abcdef".data := by
  intro c hc
  unfold get_hash_hex_string at hc
  simp only [List.mem_flatMap, List.mem_cons, List.mem_singleton, List.not_mem_nil,
    or_false] at hc
  obtain ⟨byte, _, rfl | rfl⟩ := hc
  · exact digitChar_hex _ (Nat.mod_lt _ (by decide))
  · exact digitChar_hex _ (Nat.mod_lt _ (by decide))

theorem hex_string_length (digest : List Nat) :
    (get_hash_hex_string digest).data.length = 2 * digest.length := by
  unfold get_hash_hex_string
  induction digest with
  | nil => rfl
  | cons byte rest ih =>
    simp only [List.flatMap_cons, List.length_append, List.length_cons, List.length_nil] at ih ⊢
    omega

theorem hash256_hex_length (be : Backend) (bytes : List Nat) :
    (get_hash_hex_string (hash256 be bytes)).data.length = 64 := by
  rw [hex_string_length]
  simp [hash256, k_digest_size]

/-- C7, counterexample. A fresh context with AOT enabled and no cache entry, on three hosts.
Where the cache entry cannot be opened for writing (only the lock file can), `compile`
succeeds and afterwards there is still no file `<root>/<digest>`.  Where the write stops after
two bytes, `compile` succeeds and the entry holds two of the four object bytes.  And where
`HOME` is the empty string, the cache root is the relative path `.bpftime/aot-cache`. -/
theorem compile_cache_miss_counterexample :
    (demo_state.jit = none ∧
      demo_host_readonly.BPFTIME_ENABLE_AOT.isSome = true ∧
      demo_state.fs.exists_ (aot_cache_file demo_backend demo_host_readonly demo_vm) = false ∧
      (compile demo_build demo_backend demo_host_readonly demo_vm demo_state).outcome
        = .returned 4096 ∧
      (do_aot_compile demo_build demo_backend demo_vm demo_state).outcome
        = .returned [127, 69, 76, 70] ∧
      (compile demo_build demo_backend demo_host_readonly demo_vm demo_state).state.fs.exists_
        (aot_cache_file demo_backend demo_host_readonly demo_vm) = false) ∧
    (demo_host_short_write.BPFTIME_ENABLE_AOT.isSome = true ∧
      demo_state.fs.exists_ (aot_cache_file demo_backend demo_host_short_write demo_vm)
        = false ∧
      (compile demo_build demo_backend demo_host_short_write demo_vm demo_state).outcome
        = .returned 4096 ∧
      (compile demo_build demo_backend demo_host_short_write demo_vm demo_state).state.fs.file
          (aot_cache_file demo_backend demo_host_short_write demo_vm)
        = some { bytes := [127, 69], openable := true, read_fault := none }) ∧
    aot_cache_dir { demo_host with HOME := some "" } = [".bpftime", "aot-cache"] := by
  decide

/-- C7, amended. Cache-miss path and on-disk layout.  The cache entry is `<root>/<digest>`,
where `<root>` is `path(HOME) / ".bpftime" / "aot-cache"` (with `.` for `HOME` when it is
unset, and the relative `.bpftime/aot-cache` when it is empty) and `<digest>` is the string of
64 lowercase hex digits, two a byte, of the SHA-256 of the first `num_insts * 8` bytes at
`insnsi`.
On an uncompiled context with AOT enabled and nothing at `<root>/<digest>`, a successful
`compile` (a) leaves the root a directory and the lock file a regular file in it, zero-length
if it was absent, (b) leaves at `<root>/<digest>` what the unchecked write made of the object
`do_aot_compile` returned: no file when the file cannot be opened for writing, else the bytes
that reached the file, which are exactly the object when the write did not stop early, and
(c) holds an engine populated by `do_jit_compile` with the IR module, no object having been
added; and if `do_aot_compile` throws, no entry is created. -/
theorem compile_cache_miss (b : Build) (be : Backend) (h : Host) (vm : ebpf_vm) (s : St)
    (hj : s.jit = none) (ha : h.BPFTIME_ENABLE_AOT.isSome = true)
    (hmiss : s.fs.exists_ (aot_cache_file be h vm) = false) :
    (aot_cache_file be h vm
      = (match h.HOME with
          | none => ["."]
          | some home_dir => if home_dir = "" then [] else [home_dir]) ++
        [".bpftime", "aot-cache",
          get_hash_hex_string (hash256 be (vm.insnsi.take (vm.num_insts * 8)))] ∧
      (get_hash_hex_string (hash256 be (vm.insnsi.take (vm.num_insts * 8)))).data.length
        = 64 ∧
      ∀ c ∈ (get_hash_hex_string (hash256 be (vm.insnsi.take (vm.num_insts * 8)))).data,
        c ∈ "0123456789abcdef".data) ∧
    (∀ a, (compile b be h vm s).outcome = .returned a →
      (compile b be h vm s).state.fs.is_directory (aot_cache_dir h) = true ∧
      (∃ lf, (compile b be h vm s).state.fs.file (aot_cache_lock h) = some lf ∧
        (s.fs.exists_ (aot_cache_lock h) = false → lf.bytes = [])) ∧
      (∃ obj, (do_aot_compile b be vm s).outcome = .returned obj ∧
        (h.ofstream_ok (aot_cache_file be h vm) = true →
          (compile b be h vm s).state.fs.file (aot_cache_file be h vm)
            = some { bytes := obj.take (h.write_len (aot_cache_file be h vm) obj.length),
                     openable := true, read_fault := none }) ∧
        (h.ofstream_ok (aot_cache_file be h vm) = true →
          obj.length ≤ h.write_len (aot_cache_file be h vm) obj.length →
          (compile b be h vm s).state.fs.file (aot_cache_file be h vm)
            = some { bytes := obj, openable := true, read_fault := none }) ∧
        (h.ofstream_ok (aot_cache_file be h vm) = false →
          (compile b be h vm s).state.fs.exists_ (aot_cache_file be h vm) = false)) ∧
      (∃ m, be.generateModule vm (bind_ext_funcs vm).2 (bind_lddw_helpers b vm).2 = .ok m ∧
        (compile b be h vm s).state.jit = some (module_jit b be vm m) ∧
        (module_jit b be vm m).irModules = [be.optimizeModule m] ∧
        (module_jit b be vm m).objectFiles = []) ∧
      Event.addIRModule ∈ new_events s (compile b be h vm s) ∧
      (∀ buf, Event.addObjectFile buf ∉ new_events s (compile b be h vm s))) ∧
    (∀ e, (do_aot_compile b be vm s).outcome = .thrown e →
      (compile b be h vm s).state.fs.exists_ (aot_cache_file be h vm) = false) := by
  refine ⟨⟨?_, hash256_hex_length _ _, hex_string_chars _⟩, ?_⟩
  · unfold aot_cache_file aot_cache_dir raw_insns path
    cases h.HOME with
    | none => simp
    | some home_dir => by_cases hh : home_dir = "" <;> simp [hh]
  have hr := compile_aot_run b be h vm s hj ha
  generalize compile b be h vm s = r at hr ⊢
  cases hr with
  | prologue_throws e pre fsp hpro he hnot =>
    simp [Res.outcome, Res.state, cache_file_present hpro, hmiss]
  | exists_throws pre fsp hpro hready hstatus =>
    simp [Res.outcome, Res.state, cache_file_present hpro, hmiss]
  | load_throws pre fsp hpro hready hst hexists hdir =>
    rw [cache_file_present hpro, hmiss] at hexists
    cases hexists
  | load_exits pre fsp f oevs hpro hready hst hexists hloads hevs hcreate =>
    rw [cache_file_present hpro, hmiss] at hexists
    cases hexists
  | load_rejected pre fsp f hpro hready hst hexists hloads hrej2 =>
    rw [cache_file_present hpro, hmiss] at hexists
    cases hexists
  | load_unlinked pre fsp f hpro hready hst hexists hloads hacc hlook =>
    rw [cache_file_present hpro, hmiss] at hexists
    cases hexists
  | load_returns pre fsp f a hpro hready hst hexists hloads hacc hlook =>
    rw [cache_file_present hpro, hmiss] at hexists
    cases hexists
  | fallback_exits pre fsp levs jevs hpro hready hst hexists hfails hlevs hevs hjit =>
    rw [cache_file_present hpro, hmiss] at hexists
    cases hexists
  | fallback_unlinked pre fsp levs m hpro hready hst hexists hfails hlevs hgen hjit hlook =>
    rw [cache_file_present hpro, hmiss] at hexists
    cases hexists
  | fallback_returns pre fsp levs m a hpro hready hst hexists hfails hlevs hgen hjit hlook =>
    rw [cache_file_present hpro, hmiss] at hexists
    cases hexists
  | miss_throws pre fsp aevs e hpro hready hst hexists hevs he haot =>
    simp [Res.outcome, Res.state, hexists]
  | miss_exits pre fsp obj jevs hpro hready hst hexists haot hevs hjit =>
    simp [Res.outcome, Res.state, haot s]
  | miss_unlinked pre fsp obj m hpro hready hst hexists haot hgen hjit hlook =>
    simp [Res.outcome, Res.state, haot s]
  | miss_returns pre fsp obj m a hpro hready hst hexists haot hgen hjit hlook =>
    obtain ⟨lf, hlf, hzero⟩ := hready.lock
    have hentry := after_write_entry h fsp (aot_cache_dir h)
      (get_hash_hex_string (hash256 be (raw_insns vm))) obj hready.dir hexists
    refine ⟨?_, ?_⟩
    · intro a2 _
      refine ⟨?_, ⟨lf, ?_, hzero⟩, ⟨obj, by simp [haot s, Res.outcome], hentry.1, ?_, ?_⟩,
        ⟨m, hgen, rfl, rfl, rfl⟩, ?_, ?_⟩
      · show (fsp.after_write h (aot_cache_file be h vm) obj).is_directory (aot_cache_dir h) = true
        unfold aot_cache_file
        rw [after_write_is_directory]
        exact hready.dir
      · show (fsp.after_write h (aot_cache_file be h vm) obj).file (aot_cache_lock h) = some lf
        rw [after_write_lock]
        exact hlf
      · intro hw hlen
        have := hentry.1 hw
        unfold aot_cache_file at hlen
        rw [List.take_of_length_le hlen] at this
        exact this
      · intro hw
        show (fsp.after_write h (aot_cache_file be h vm) obj).exists_ (aot_cache_file be h vm)
          = false
        unfold Fs.after_write
        simp only [hw, Bool.false_and, Bool.false_eq_true, if_false]
        exact hexists
      · simp [jit_compile_events]
      · intro buf
        simp [aot_head, not_mem_pre hpro (Event.addObjectFile buf) rfl,
          addObjectFile_not_mem_aot (List.prefix_refl _), addObjectFile_not_mem_write,
          addObjectFile_not_mem_jit (List.prefix_refl _)]
    · intro e he
      simp [haot s, Res.outcome] at he

/-- C7, witness: the amended theorem applies to the fresh context `demo_state`, where the
object reaches the cache entry in full. -/
theorem compile_cache_miss_witness :
    (compile demo_build demo_backend demo_host demo_vm demo_state).outcome = .returned 4096 ∧
    (compile demo_build demo_backend demo_host demo_vm demo_state).state.fs.is_directory
      (aot_cache_dir demo_host) = true :=
  ⟨by decide,
    ((compile_cache_miss demo_build demo_backend demo_host demo_vm demo_state rfl rfl
      (by decide)).2.1 4096 (by decide)).1⟩

/-- C9, counterexample. Two contexts with AOT enabled whose cache entry exists and cannot be
loaded, and on which `compile` with AOT disabled returns `4096`.  In the first the entry can
be read only in part but the file lock cannot be constructed on the lock file: `compile`
throws the error of the file lock.  In the second the path of the entry is a directory:
`load_aot_cache` does not return no value, it throws, and so does `compile`. -/
theorem compile_load_failure_counterexample :
    (demo_state_short.fs.exists_ (aot_cache_file demo_backend demo_host_unlockable demo_vm)
        = true ∧
      demo_state_short.fs.load_fails (aot_cache_file demo_backend demo_host_unlockable demo_vm) ∧
      (compile demo_build demo_backend { demo_host_unlockable with BPFTIME_ENABLE_AOT := none }
        demo_vm demo_state_short).outcome = .returned 4096 ∧
      (compile demo_build demo_backend demo_host_unlockable demo_vm demo_state_short).outcome
        = .thrown .interprocess_exception) ∧
    (demo_state_directory.fs.exists_ (aot_cache_file demo_backend demo_host demo_vm) = true ∧
      (load_aot_cache (aot_cache_file demo_backend demo_host demo_vm)
        demo_state_directory).outcome = .thrown .bad_alloc ∧
      (compile demo_build demo_backend demo_host_jit demo_vm demo_state_directory).outcome
        = .returned 4096 ∧
      (compile demo_build demo_backend demo_host demo_vm demo_state_directory).outcome
        = .thrown .bad_alloc) := by
  refine ⟨⟨by decide, ⟨{ bytes := [127, 69, 76, 70], openable := true, read_fault := some 2 },
    by decide, Or.inr ⟨2, rfl, by decide⟩⟩, by decide, by decide⟩,
    by decide, by decide, by decide, by decide⟩

/-- C9, amended. Cache load failures are non-fatal for regular files.  On a path that is not
a directory `load_aot_cache` returns, without touching the context or the file system: no
value when there is no file to open, when the file cannot be opened or when reading stops
before its size, and the file's bytes when it is read in full.  And for an uncompiled context
with AOT enabled whose cache entry is a regular file that fails to load in this way: either a
step before the cache entry is opened throws (creating the cache root, checking the lock file,
constructing or taking the file lock, or an existence check; never when the cache is in
working order, `CacheUsable`), or the lock is taken and the outcome of `compile` and the
resulting engine slot are those of `compile` with AOT disabled; in both cases the cache file
is left as it was. -/
theorem compile_load_failure_falls_back (b : Build) (be : Backend) (h : Host) (vm : ebpf_vm)
    (s : St) (hj : s.jit = none) (ha : h.BPFTIME_ENABLE_AOT.isSome = true)
    (hfails : s.fs.load_fails (aot_cache_file be h vm)) :
    (∀ p st, st.fs.is_directory p = false →
      ∃ v evs, load_aot_cache p st = .ok v { st with trace := st.trace ++ evs } ∧
        (st.fs.file p = none → v = none) ∧ (st.fs.load_fails p → v = none) ∧
        (∀ f, st.fs.loads p f → v = some f.bytes)) ∧
    ((Event.flock_lock (aot_cache_lock h) ∈ new_events s (compile b be h vm s) ∧
        (compile b be h vm s).outcome
          = (compile b be { h with BPFTIME_ENABLE_AOT := none } vm s).outcome ∧
        (compile b be h vm s).state.jit
          = (compile b be { h with BPFTIME_ENABLE_AOT := none } vm s).state.jit) ∨
      (Event.ifstream_open (aot_cache_file be h vm) ∉ new_events s (compile b be h vm s) ∧
        ∃ e, e ∈ prologue_errors ∧ (compile b be h vm s).outcome = .thrown e)) ∧
    (CacheUsable be h vm s.fs →
      (compile b be h vm s).outcome
          = (compile b be { h with BPFTIME_ENABLE_AOT := none } vm s).outcome ∧
        (compile b be h vm s).state.jit
          = (compile b be { h with BPFTIME_ENABLE_AOT := none } vm s).state.jit) ∧
    (compile b be h vm s).state.fs.file (aot_cache_file be h vm)
      = s.fs.file (aot_cache_file be h vm) := by
  have hexists : s.fs.exists_ (aot_cache_file be h vm) = true := by
    obtain ⟨f, hf, _⟩ := hfails
    exact exists_of_file _ _ _ hf
  refine ⟨?_, ?_⟩
  · intro p st hnd
    rcases load_aot_cache_spec p st with ⟨hd, _⟩ | ⟨_, evs, v, heq, _, hnone, hfail, hsome⟩
    · rw [hd] at hnd
      cases hnd
    · exact ⟨v, evs, heq, hnone, hfail, fun f hf => (hsome f hf).1⟩
  · have hoff : compile b be { h with BPFTIME_ENABLE_AOT := none } vm s
        = finish be (do_jit_compile b be vm
            { s with trace := s.trace ++ [.spin_lock] ++ [.getenv "BPFTIME_ENABLE_AOT"] }) := by
      rw [compile_eq, compile_once_jit b be _ vm { s with trace := s.trace ++ [.spin_lock] } hj rfl]
    have hr := compile_aot_run b be h vm s hj ha
    generalize compile b be h vm s = r at hr ⊢
    cases hr with
    | prologue_throws e pre fsp hpro he hnot =>
      refine ⟨Or.inr ⟨?_, e, he, rfl⟩,
        fun hu => absurd (hnot hu.status_root hu.status_lock hu.file_lock hu.flock
          hu.lock_file) id, ?_⟩
      · simp only [new_events_throw]
        intro hmem
        rcases List.mem_append.mp hmem with h1 | h1
        · exact touching_not_mem_before hpro _ (by simp [Event.touches]) h1
        · simp at h1
      · exact cache_file_kept hpro
    | exists_throws pre fsp hpro hready hstatus =>
      refine ⟨Or.inr ⟨?_, _, by simp [prologue_errors], rfl⟩, ?_, ?_⟩
      · simp only [new_events_throw]
        intro hmem
        rcases List.mem_append.mp hmem with h1 | h1
        · rcases List.mem_append.mp h1 with h2 | h2
          · exact touching_not_mem_before hpro _ (by simp [Event.touches]) h2
          · simp at h2
        · simp at h1
      · intro hu
        rw [hu.status_entry] at hstatus
        cases hstatus
      · exact cache_file_kept hpro
    | load_throws pre fsp hpro hready hst hexists2 hdir =>
      obtain ⟨f, hf, _⟩ := hfails
      rw [cache_file_is_directory hpro, not_directory_of_file _ _ _ hf] at hdir
      cases hdir
    | load_exits pre fsp f oevs hpro hready hst hexists2 hloads hevs hcreate =>
      exact absurd (load_fails_after_prologue hpro hfails) (loads_not_load_fails _ _ _ hloads)
    | load_rejected pre fsp f hpro hready hst hexists2 hloads hrej2 =>
      exact absurd (load_fails_after_prologue hpro hfails) (loads_not_load_fails _ _ _ hloads)
    | load_unlinked pre fsp f hpro hready hst hexists2 hloads hacc hlook =>
      exact absurd (load_fails_after_prologue hpro hfails) (loads_not_load_fails _ _ _ hloads)
    | load_returns pre fsp f a hpro hready hst hexists2 hloads hacc hlook =>
      exact absurd (load_fails_after_prologue hpro hfails) (loads_not_load_fails _ _ _ hloads)
    | fallback_exits pre fsp levs jevs hpro hready hst hexists2 hfails2 hlevs hevs hjit =>
      rw [hoff, hjit]
      simp [finish, Res.released, Res.outcome, Res.state, hj, cache_file_kept hpro]
    | fallback_unlinked pre fsp levs m hpro hready hst hexists2 hfails2 hlevs hgen hjit hlook =>
      rw [hoff, hjit]
      simp [finish, Res.released, Res.outcome, Res.state, get_entry_address_mk, hlook,
        cache_file_kept hpro]
    | fallback_returns pre fsp levs m a hpro hready hst hexists2 hfails2 hlevs hgen hjit hlook =>
      rw [hoff, hjit]
      simp [finish, Res.released, Res.outcome, Res.state, get_entry_address_mk, hlook,
        cache_file_kept hpro]
    | miss_throws pre fsp aevs e hpro hready hst hexists2 hevs he haot =>
      rw [cache_file_present hpro, hexists] at hexists2
      cases hexists2
    | miss_exits pre fsp obj jevs hpro hready hst hexists2 haot hevs hjit =>
      rw [cache_file_present hpro, hexists] at hexists2
      cases hexists2
    | miss_unlinked pre fsp obj m hpro hready hst hexists2 haot hgen hjit hlook =>
      rw [cache_file_present hpro, hexists] at hexists2
      cases hexists2
    | miss_returns pre fsp obj m a hpro hready hst hexists2 haot hgen hjit hlook =>
      rw [cache_file_present hpro, hexists] at hexists2
      cases hexists2

/-- C9, witness: the amended theorem applies to the short-read cache entry of `demo_vm`,
where `compile` falls back to plain JIT compilation and returns `4096`. -/
theorem compile_load_failure_falls_back_witness :
    (compile demo_build demo_backend demo_host demo_vm demo_state_short).outcome
      = (compile demo_build demo_backend { demo_host with BPFTIME_ENABLE_AOT := none } demo_vm
          demo_state_short).outcome ∧
    (compile demo_build demo_backend demo_host demo_vm demo_state_short).outcome
      = .returned 4096 :=
  ⟨((compile_load_failure_falls_back demo_build demo_backend demo_host demo_vm demo_state_short
      rfl rfl
      ⟨{ bytes := [127, 69, 76, 70], openable := true, read_fault := some 2 },
        by decide, Or.inr ⟨2, rfl, by decide⟩⟩).2.2.1
      ⟨rfl, rfl, rfl, by decide, rfl, rfl⟩).1, by decide⟩

end Bpftime
